import Mathlib

/-!
# Shelf manager: inventory, pallets, audit log and catalog sync

A shallow embedding of the backend of the shelf manager
(`src/backend/src/models/*.js`, `src/backend/src/routes/*.js`).

Modelling conventions.

* The entity store (Sequelize over PostgreSQL) is a list of rows per table.  The
  constraints enforced are exactly those declared in the model files:
  `allowNull: false`, `validate: { notEmpty }`, `validate: { min: 0 }`,
  `validate: { isEmail }`, `unique: true`, the primary key, and the foreign key
  that `Item.belongsTo(Pallet, { foreignKey: 'palletId' })` declares.
* The two string validators of the validation library (`notEmpty`, `isEmail`)
  are parameters (`Validators`): every theorem holds for all of them.
* Numeric columns are unbounded integers; `price` and `cost`
  (`DECIMAL(10, 2)`) are counted in hundredths.  A request body gives a number
  or nothing for `quantity`, `minQuantity`, `price` and `cost` (the columns with
  a numeric default); `maxQuantity`, whose default is `null`, may be `null`.
  Row timestamps other than the `createdAt` of an audit row are left out.
* Deleting a pallet sets the `palletId` of the items that name it to `null`,
  the `onDelete` of a nullable foreign key.
* An identifier is a string; the identifier a `create` generates is an input of
  the operation.
* A route handler is a function from the state before the request to the state
  after it together with the HTTP response.  The events given to `io.emit` are
  collected in the `events` component of the state.
* The two listings read the store and change nothing, so they return the
  response only.  `findAndCountAll` with an `include` and no `distinct` counts
  the primary key over the rows of the left outer join with the included table,
  which is what the library does.
-/

namespace ShelfManager

/-! ## Data model -/

abbrev Id := String

/-- Item status, the `ENUM('active', 'inactive', 'discontinued')` of `models/Item.js`. -/
inductive ItemStatus where
  | active
  | inactive
  | discontinued
  deriving DecidableEq, Repr

/-- Pallet status, the `ENUM('available', 'in_use', 'full', 'maintenance')` of `models/Pallet.js`. -/
inductive PalletStatus where
  | available
  | in_use
  | full
  | maintenance
  deriving DecidableEq, Repr

/-- A row of table `items` (`models/Item.js`, plus `palletId` from `models/index.js`). -/
structure Item where
  id : Id
  sku : String
  name : String
  description : Option String
  category : Option String
  quantity : Int
  minQuantity : Int
  maxQuantity : Option Int
  price : Int
  cost : Int
  location : Option String
  barcode : Option String
  shopifyProductId : Option String
  shopifyVariantId : Option String
  imageUrl : Option String
  status : ItemStatus
  metadata : List (String × String)
  palletId : Option Id
  deriving DecidableEq, Repr

/-- A row of table `pallets` (`models/Pallet.js`). -/
structure Pallet where
  id : Id
  palletNumber : String
  location : Option String
  status : PalletStatus
  capacity : Int
  currentLoad : Int
  notes : Option String
  metadata : List (String × String)
  deriving DecidableEq, Repr

/-- The attributes a request body may carry for an item.  `none` is an absent
key; for a nullable column `some none` is an explicit `null`. -/
structure ItemFields where
  sku : Option (Option String) := none
  name : Option (Option String) := none
  description : Option (Option String) := none
  category : Option (Option String) := none
  quantity : Option Int := none
  minQuantity : Option Int := none
  maxQuantity : Option (Option Int) := none
  price : Option Int := none
  cost : Option Int := none
  location : Option (Option String) := none
  barcode : Option (Option String) := none
  shopifyProductId : Option (Option String) := none
  shopifyVariantId : Option (Option String) := none
  imageUrl : Option (Option String) := none
  status : Option ItemStatus := none
  metadata : Option (List (String × String)) := none
  palletId : Option (Option Id) := none
  deriving DecidableEq, Repr

/-- The attributes a request body may carry for a pallet. -/
structure PalletFields where
  palletNumber : Option (Option String) := none
  location : Option (Option String) := none
  status : Option PalletStatus := none
  capacity : Option Int := none
  currentLoad : Option Int := none
  notes : Option (Option String) := none
  metadata : Option (List (String × String)) := none
  deriving DecidableEq, Repr

/-- The string validators of the validation library used by the models. -/
structure Validators where
  notEmpty : String → Bool
  isEmail : String → Bool

/-- What a failed store call throws: a validation error listing the attributes
whose validators (or `allowNull: false`) failed, a unique-constraint error or a
foreign-key error, each naming the column. -/
inductive StoreError where
  | validation (fields : List String)
  | unique (field : String)
  | foreignKey (field : String)
  deriving DecidableEq, Repr

/-- An entry of `syncResults.errors`. -/
structure SyncError where
  productId : Nat
  variantId : Nat
  error : StoreError
  deriving DecidableEq, Repr

/-- The `syncResults` object of `POST /api/shopify/sync`. -/
structure SyncResults where
  created : Nat
  updated : Nat
  errors : List SyncError
  deriving DecidableEq, Repr

/-- The `details` object of an audit row, one shape per action. -/
inductive Details where
  | item (item : Item)
  | itemChange (before after : Item)
  | quantity (oldQuantity newQuantity : Int) (operation : Option String)
  | pallet (pallet : Pallet)
  | palletChange (before after : Pallet)
  | link (palletId itemId : Id)
  | sync (results : SyncResults)
  | push (itemId : Id) (quantity : Option Int)
  | cleanup (deletedCount : Nat) (days : Int) (cutoffDate : Int)
  deriving DecidableEq, Repr

/-- A row of table `logs` (`models/Log.js`); the generated row id is left out. -/
structure Log where
  action : String
  entityType : String
  entityId : Option String
  userEmail : String
  details : Details
  ipAddress : Option String
  userAgent : Option String
  createdAt : Int
  deriving DecidableEq, Repr

/-- The payload of a live-update event. -/
inductive Payload where
  | item (item : Item)
  | pallet (pallet : Pallet)
  | id (id : Id)
  | assigned (pallet : Pallet) (item : Item)
  | removed (palletId itemId : Id)
  | sync (results : SyncResults)
  deriving DecidableEq, Repr

/-- One call of `io.emit(name, payload)`. -/
structure Event where
  name : String
  payload : Payload
  deriving DecidableEq, Repr

/-- The three tables and the events emitted so far. -/
structure State where
  items : List Item
  pallets : List Pallet
  logs : List Log
  events : List Event
  deriving DecidableEq, Repr

/-- What the handlers read from the request besides parameters and body:
`req.user.email` (absent when the token carries no such claim), `req.ip` and
the `user-agent` header. -/
structure Req where
  email : Option String
  ip : Option String
  userAgent : Option String
  deriving DecidableEq, Repr

/-- The JSON body of a response. -/
inductive Body where
  | item (item : Item)
  | pallet (pallet : Pallet)
  | message (text : String)
  | error (text : String)
  | thrown (e : StoreError)
  | assigned (text : String) (pallet : Pallet) (item : Item)
  | sync (text : String) (results : SyncResults)
  | pushed (text : String) (item : Item)
  | cleanup (deletedCount : Nat)
  deriving DecidableEq, Repr

/-- Status code and body sent by a handler. -/
structure Response where
  status : Nat
  body : Body
  deriving DecidableEq, Repr

/-- State after a request and the response to it. -/
structure Result where
  state : State
  response : Response
  deriving DecidableEq, Repr

/-! ## Entity store -/

/-- An attribute with `allowNull: false` and `notEmpty`: `null` and a string the
validator rejects are violations; an absent key is not looked at here. -/
def checkRequired (V : Validators) (field : String) : Option (Option String) → List String
  | some (some s) => if V.notEmpty s then [] else [field]
  | some none => [field]
  | none => []

/-- An attribute with `validate: { min: 0 }`; `null` and an absent key pass. -/
def checkMin (field : String) : Option Int → List String
  | some n => if n < 0 then [field] else []
  | none => []

/-- The attributes of `f` that fail the validators of `models/Item.js`. -/
def ItemFields.violations (V : Validators) (f : ItemFields) : List String :=
  checkRequired V "sku" f.sku ++ checkRequired V "name" f.name ++
  checkMin "quantity" f.quantity ++ checkMin "minQuantity" f.minQuantity ++
  checkMin "maxQuantity" f.maxQuantity.join ++
  checkMin "price" f.price ++ checkMin "cost" f.cost

/-- The row `Item.build` makes of a body: absent keys take the `defaultValue`
of the model (`null` when none is declared). -/
def ItemFields.toItem (newId : Id) (f : ItemFields) : Item where
  id := newId
  sku := f.sku.join.getD ""
  name := f.name.join.getD ""
  description := f.description.join
  category := f.category.join
  quantity := f.quantity.getD 0
  minQuantity := f.minQuantity.getD 0
  maxQuantity := f.maxQuantity.join
  price := f.price.getD 0
  cost := f.cost.getD 0
  location := f.location.join
  barcode := f.barcode.join
  shopifyProductId := f.shopifyProductId.join
  shopifyVariantId := f.shopifyVariantId.join
  imageUrl := f.imageUrl.join
  status := f.status.getD ItemStatus.active
  metadata := f.metadata.getD []
  palletId := f.palletId.join

/-- The row after `set(values)`: the keys present in `f` overwrite the row, the
primary key is never overwritten. -/
def ItemFields.apply (f : ItemFields) (i : Item) : Item where
  id := i.id
  sku := f.sku.join.getD i.sku
  name := f.name.join.getD i.name
  description := f.description.getD i.description
  category := f.category.getD i.category
  quantity := f.quantity.getD i.quantity
  minQuantity := f.minQuantity.getD i.minQuantity
  maxQuantity := f.maxQuantity.getD i.maxQuantity
  price := f.price.getD i.price
  cost := f.cost.getD i.cost
  location := f.location.getD i.location
  barcode := f.barcode.getD i.barcode
  shopifyProductId := f.shopifyProductId.getD i.shopifyProductId
  shopifyVariantId := f.shopifyVariantId.getD i.shopifyVariantId
  imageUrl := f.imageUrl.getD i.imageUrl
  status := f.status.getD i.status
  metadata := f.metadata.getD i.metadata
  palletId := f.palletId.getD i.palletId

/-- The foreign key of `items.palletId`: a non-null value names a stored pallet. -/
def palletExists (pallets : List Pallet) : Option Id → Bool
  | some p => pallets.any (fun q => q.id == p)
  | none => true

/-- A unique column that may be `null`: only a non-null value can collide. -/
def barcodeTaken (rows : List Item) : Option String → Bool
  | some b => rows.any (fun j => j.barcode == some b)
  | none => false

/-- `Item.findByPk(id)`. -/
def Item.findByPk (items : List Item) (id : Id) : Option Item :=
  items.find? (fun i => i.id == id)

/-- `Item.create(body)`: validate the built row, then insert it under the
primary-key, unique and foreign-key constraints.  Returns the new row and the
table after the insert. -/
def Item.create (V : Validators) (items : List Item) (pallets : List Pallet) (newId : Id)
    (f : ItemFields) : Except StoreError (Item × List Item) :=
  let missing := (if f.sku = none then ["sku"] else []) ++ (if f.name = none then ["name"] else [])
  let bad := missing ++ f.violations V
  let row := f.toItem newId
  if bad ≠ [] then .error (.validation bad)
  else if items.any (fun j => j.id == row.id) then .error (.unique "id")
  else if items.any (fun j => j.sku == row.sku) then .error (.unique "sku")
  else if barcodeTaken items row.barcode then .error (.unique "barcode")
  else if !palletExists pallets row.palletId then .error (.foreignKey "palletId")
  else .ok (row, items ++ [row])

/-- `item.update(body)`: validate the attributes present in the body, then
write them to the row of that primary key under the unique and foreign-key
constraints (checked against the other rows).  Returns the row as updated and
the table after the write. -/
def Item.update (V : Validators) (items : List Item) (pallets : List Pallet) (item : Item)
    (f : ItemFields) : Except StoreError (Item × List Item) :=
  let bad := f.violations V
  let others := items.filter (fun j => j.id != item.id)
  if bad ≠ [] then .error (.validation bad)
  else if f.sku.isSome && others.any (fun j => j.sku == (f.apply item).sku) then
    .error (.unique "sku")
  else if f.barcode.isSome && barcodeTaken others (f.apply item).barcode then
    .error (.unique "barcode")
  else if f.palletId.isSome && !palletExists pallets (f.apply item).palletId then
    .error (.foreignKey "palletId")
  else .ok (f.apply item, items.map (fun j => if j.id = item.id then f.apply j else j))

/-- `item.destroy()`: delete the row of that primary key. -/
def Item.destroy (items : List Item) (item : Item) : List Item :=
  items.filter (fun j => j.id != item.id)

/-- The attributes of `f` that fail the validators of `models/Pallet.js`. -/
def PalletFields.violations (V : Validators) (f : PalletFields) : List String :=
  checkRequired V "palletNumber" f.palletNumber ++
  checkMin "capacity" f.capacity ++ checkMin "currentLoad" f.currentLoad

/-- The pallet row built from a body, absent keys taking the model defaults. -/
def PalletFields.toPallet (newId : Id) (f : PalletFields) : Pallet where
  id := newId
  palletNumber := f.palletNumber.join.getD ""
  location := f.location.join
  status := f.status.getD PalletStatus.available
  capacity := f.capacity.getD 100
  currentLoad := f.currentLoad.getD 0
  notes := f.notes.join
  metadata := f.metadata.getD []

/-- The pallet row after `set(values)`. -/
def PalletFields.apply (f : PalletFields) (p : Pallet) : Pallet where
  id := p.id
  palletNumber := f.palletNumber.join.getD p.palletNumber
  location := f.location.getD p.location
  status := f.status.getD p.status
  capacity := f.capacity.getD p.capacity
  currentLoad := f.currentLoad.getD p.currentLoad
  notes := f.notes.getD p.notes
  metadata := f.metadata.getD p.metadata

/-- `Pallet.findByPk(id)`. -/
def Pallet.findByPk (pallets : List Pallet) (id : Id) : Option Pallet :=
  pallets.find? (fun p => p.id == id)

/-- The `items` association loaded by `include: [{ model: Item, as: 'items' }]`. -/
def Pallet.items (items : List Item) (p : Pallet) : List Item :=
  items.filter (fun i => i.palletId == some p.id)

/-- `Pallet.create(body)`. -/
def Pallet.create (V : Validators) (pallets : List Pallet) (newId : Id) (f : PalletFields) :
    Except StoreError (Pallet × List Pallet) :=
  let missing := if f.palletNumber = none then ["palletNumber"] else []
  let bad := missing ++ f.violations V
  let row := f.toPallet newId
  if bad ≠ [] then .error (.validation bad)
  else if pallets.any (fun q => q.id == row.id) then .error (.unique "id")
  else if pallets.any (fun q => q.palletNumber == row.palletNumber) then
    .error (.unique "palletNumber")
  else .ok (row, pallets ++ [row])

/-- `pallet.update(body)`. -/
def Pallet.update (V : Validators) (pallets : List Pallet) (pallet : Pallet) (f : PalletFields) :
    Except StoreError (Pallet × List Pallet) :=
  let bad := f.violations V
  let others := pallets.filter (fun q => q.id != pallet.id)
  if bad ≠ [] then .error (.validation bad)
  else if f.palletNumber.isSome &&
      others.any (fun q => q.palletNumber == (f.apply pallet).palletNumber) then
    .error (.unique "palletNumber")
  else .ok (f.apply pallet, pallets.map (fun q => if q.id = pallet.id then f.apply q else q))

/-- `pallet.destroy()`: delete the row; the nullable foreign key of the
association sets `palletId` of the rows that still name it to `null`. -/
def Pallet.destroy (items : List Item) (pallets : List Pallet) (pallet : Pallet) :
    List Item × List Pallet :=
  (items.map (fun i => if i.palletId = some pallet.id then { i with palletId := none } else i),
   pallets.filter (fun q => q.id != pallet.id))

/-- `Log.create(row)`: `userEmail` has `allowNull: false` and `isEmail`; the
`action` and `entityType` of every call are non-empty literals.  The row is
appended with `createdAt = now`. -/
def Log.create (V : Validators) (logs : List Log) (now : Int) (action entityType : String)
    (entityId : Option String) (r : Req) (details : Details) : Except StoreError (List Log) :=
  match r.email with
  | none => .error (.validation ["userEmail"])
  | some e =>
    if V.isEmail e then
      .ok (logs ++ [Log.mk action entityType entityId e details r.ip r.userAgent now])
    else .error (.validation ["userEmail"])

/-- `io.emit(name, payload)`. -/
def State.emit (s : State) (name : String) (payload : Payload) : State :=
  { s with events := s.events ++ [Event.mk name payload] }

/-! ## Inventory routes (`routes/inventory.js`) -/

/-- `POST /api/inventory`. -/
def createItem (V : Validators) (s : State) (r : Req) (now : Int) (newId : Id)
    (body : ItemFields) : Result :=
  match Item.create V s.items s.pallets newId body with
  | .error e => ⟨s, 400, .thrown e⟩
  | .ok (item, items) =>
    let s1 := { s with items := items }
    match Log.create V s1.logs now "CREATE" "Item" (some item.id) r (.item item) with
    | .error e => ⟨s1, 400, .thrown e⟩
    | .ok logs => ⟨({ s1 with logs := logs }).emit "inventory:created" (.item item), 201, .item item⟩

/-- `PUT /api/inventory/:id`. -/
def updateItem (V : Validators) (s : State) (r : Req) (now : Int) (id : Id)
    (body : ItemFields) : Result :=
  match Item.findByPk s.items id with
  | none => ⟨s, 404, .error "Item not found"⟩
  | some item =>
    let oldData := item
    match Item.update V s.items s.pallets item body with
    | .error e => ⟨s, 400, .thrown e⟩
    | .ok (item, items) =>
      let s1 := { s with items := items }
      match Log.create V s1.logs now "UPDATE" "Item" (some item.id) r
          (.itemChange oldData item) with
      | .error e => ⟨s1, 400, .thrown e⟩
      | .ok logs =>
        ⟨({ s1 with logs := logs }).emit "inventory:updated" (.item item), 200, .item item⟩

/-- `DELETE /api/inventory/:id`. -/
def deleteItem (V : Validators) (s : State) (r : Req) (now : Int) (id : Id) : Result :=
  match Item.findByPk s.items id with
  | none => ⟨s, 404, .error "Item not found"⟩
  | some item =>
    let itemData := item
    let s1 := { s with items := Item.destroy s.items item }
    match Log.create V s1.logs now "DELETE" "Item" (some id) r (.item itemData) with
    | .error _ => ⟨s1, 500, .error "Failed to delete item"⟩
    | .ok logs =>
      ⟨({ s1 with logs := logs }).emit "inventory:deleted" (.id id), 200,
        .message "Item deleted successfully"⟩

/-- The quantity computed by `PATCH /api/inventory/:id/quantity`; `amount` is
`parseInt(quantity)`. -/
def newQuantity (oldQuantity amount : Int) (operation : Option String) : Int :=
  if operation = some "add" then oldQuantity + amount
  else if operation = some "subtract" then oldQuantity - amount
  else amount

/-- `PATCH /api/inventory/:id/quantity` with body `{ quantity, operation }`;
`amount` is `parseInt(quantity)`. -/
def adjustQuantity (V : Validators) (s : State) (r : Req) (now : Int) (id : Id)
    (amount : Int) (operation : Option String) : Result :=
  match Item.findByPk s.items id with
  | none => ⟨s, 404, .error "Item not found"⟩
  | some item =>
    let oldQuantity := item.quantity
    let newQ := newQuantity oldQuantity amount operation
    if newQ < 0 then ⟨s, 400, .error "Quantity cannot be negative"⟩
    else
      match Item.update V s.items s.pallets item { quantity := some newQ } with
      | .error e => ⟨s, 400, .thrown e⟩
      | .ok (item, items) =>
        let s1 := { s with items := items }
        match Log.create V s1.logs now "QUANTITY_UPDATE" "Item" (some item.id) r
            (.quantity oldQuantity newQ operation) with
        | .error e => ⟨s1, 400, .thrown e⟩
        | .ok logs =>
          ⟨({ s1 with logs := logs }).emit "inventory:quantity_updated" (.item item), 200,
            .item item⟩

/-! ## Pallet routes (`routes/pallets.js`) -/

/-- `POST /api/pallets`. -/
def createPallet (V : Validators) (s : State) (r : Req) (now : Int) (newId : Id)
    (body : PalletFields) : Result :=
  match Pallet.create V s.pallets newId body with
  | .error e => ⟨s, 400, .thrown e⟩
  | .ok (pallet, pallets) =>
    let s1 := { s with pallets := pallets }
    match Log.create V s1.logs now "CREATE" "Pallet" (some pallet.id) r (.pallet pallet) with
    | .error e => ⟨s1, 400, .thrown e⟩
    | .ok logs =>
      ⟨({ s1 with logs := logs }).emit "pallet:created" (.pallet pallet), 201, .pallet pallet⟩

/-- `PUT /api/pallets/:id`. -/
def updatePallet (V : Validators) (s : State) (r : Req) (now : Int) (id : Id)
    (body : PalletFields) : Result :=
  match Pallet.findByPk s.pallets id with
  | none => ⟨s, 404, .error "Pallet not found"⟩
  | some pallet =>
    let oldData := pallet
    match Pallet.update V s.pallets pallet body with
    | .error e => ⟨s, 400, .thrown e⟩
    | .ok (pallet, pallets) =>
      let s1 := { s with pallets := pallets }
      match Log.create V s1.logs now "UPDATE" "Pallet" (some pallet.id) r
          (.palletChange oldData pallet) with
      | .error e => ⟨s1, 400, .thrown e⟩
      | .ok logs =>
        ⟨({ s1 with logs := logs }).emit "pallet:updated" (.pallet pallet), 200, .pallet pallet⟩

/-- `DELETE /api/pallets/:id`. -/
def deletePallet (V : Validators) (s : State) (r : Req) (now : Int) (id : Id) : Result :=
  match Pallet.findByPk s.pallets id with
  | none => ⟨s, 404, .error "Pallet not found"⟩
  | some pallet =>
    if (Pallet.items s.items pallet).length > 0 then
      ⟨s, 400, .error "Cannot delete pallet with items. Please remove items first."⟩
    else
      let palletData := pallet
      let (items, pallets) := Pallet.destroy s.items s.pallets pallet
      let s1 := { s with items := items, pallets := pallets }
      match Log.create V s1.logs now "DELETE" "Pallet" (some id) r (.pallet palletData) with
      | .error _ => ⟨s1, 500, .error "Failed to delete pallet"⟩
      | .ok logs =>
        ⟨({ s1 with logs := logs }).emit "pallet:deleted" (.id id), 200,
          .message "Pallet deleted successfully"⟩

/-- `POST /api/pallets/:id/items/:itemId`. -/
def assignItem (V : Validators) (s : State) (r : Req) (now : Int) (id itemId : Id) : Result :=
  match Pallet.findByPk s.pallets id, Item.findByPk s.items itemId with
  | none, _ => ⟨s, 404, .error "Pallet not found"⟩
  | some _, none => ⟨s, 404, .error "Item not found"⟩
  | some pallet, some item =>
    match Item.update V s.items s.pallets item { palletId := some (some pallet.id) } with
    | .error _ => ⟨s, 500, .error "Failed to assign item to pallet"⟩
    | .ok (item, items) =>
      let s1 := { s with items := items }
      match Log.create V s1.logs now "ASSIGN_ITEM" "Pallet" (some pallet.id) r
          (.link pallet.id item.id) with
      | .error _ => ⟨s1, 500, .error "Failed to assign item to pallet"⟩
      | .ok logs =>
        ⟨({ s1 with logs := logs }).emit "pallet:item_assigned" (.assigned pallet item), 200,
          .assigned "Item assigned to pallet successfully" pallet item⟩

/-- `DELETE /api/pallets/:id/items/:itemId`. -/
def removeItem (V : Validators) (s : State) (r : Req) (now : Int) (id itemId : Id) : Result :=
  match Item.findByPk s.items itemId with
  | none => ⟨s, 404, .error "Item not found"⟩
  | some item =>
    match Item.update V s.items s.pallets item { palletId := some none } with
    | .error _ => ⟨s, 500, .error "Failed to remove item from pallet"⟩
    | .ok (item, items) =>
      let s1 := { s with items := items }
      match Log.create V s1.logs now "REMOVE_ITEM" "Pallet" (some id) r (.link id item.id) with
      | .error _ => ⟨s1, 500, .error "Failed to remove item from pallet"⟩
      | .ok logs =>
        ⟨({ s1 with logs := logs }).emit "pallet:item_removed" (.removed id item.id), 200,
          .message "Item removed from pallet successfully"⟩

/-! ## Catalog routes (`routes/shopify.js`) -/

/-- A variant of the external feed; `price` is `parseFloat(variant.price)` in
hundredths. -/
structure Variant where
  id : Nat
  sku : Option String
  title : String
  price : Int
  inventory_quantity : Option Int
  barcode : Option String
  deriving DecidableEq, Repr

/-- A product of the external feed; `images` lists the `src` of each image. -/
structure Product where
  id : Nat
  title : String
  body_html : Option String
  images : List (Option String)
  variants : List Variant
  deriving DecidableEq, Repr

/-- The JavaScript `x || null` on a string or `null`: the empty string is falsy. -/
def orNull : Option String → Option String
  | some s => if s = "" then none else some s
  | none => none

/-- The key of the lookup, `variant.id.toString()`. -/
def variantKey (v : Variant) : String := toString v.id

/-- The name computed for a variant on both paths of the sync. -/
def syncName (p : Product) (v : Variant) : String :=
  p.title ++ (if v.title ≠ "Default Title" then " - " ++ v.title else "")

/-- The `defaults` of `Item.findOrCreate` together with its `where`. -/
def syncDefaults (p : Product) (v : Variant) : ItemFields where
  sku := some (some ((orNull v.sku).getD ("SHOPIFY-" ++ toString v.id)))
  name := some (some (syncName p v))
  description := some p.body_html
  price := some v.price
  quantity := some (v.inventory_quantity.getD 0)
  shopifyProductId := some (some (toString p.id))
  shopifyVariantId := some (some (variantKey v))
  imageUrl := some (orNull p.images.head?.join)
  barcode := some (orNull v.barcode)
  status := some ItemStatus.active

/-- The attributes written to an item the lookup found. -/
def syncUpdate (p : Product) (v : Variant) : ItemFields where
  name := some (some (syncName p v))
  description := some p.body_html
  price := some v.price
  quantity := some (v.inventory_quantity.getD 0)
  imageUrl := some (orNull p.images.head?.join)
  barcode := some (orNull v.barcode)

/-- `Item.findOrCreate({ where: { shopifyVariantId: key }, defaults })`: the
first row with that variant id, or a row created from the defaults.  The flag
is `created`. -/
def Item.findOrCreate (V : Validators) (items : List Item) (pallets : List Pallet) (newId : Id)
    (key : String) (defaults : ItemFields) : Except StoreError (Item × Bool × List Item) :=
  match items.find? (fun i => i.shopifyVariantId == some key) with
  | some item => .ok (item, false, items)
  | none =>
    match Item.create V items pallets newId defaults with
    | .error e => .error e
    | .ok (item, items1) => .ok (item, true, items1)

/-- The body of the inner loop of `POST /api/shopify/sync` for one variant,
`try` and `catch` included.  `gen` is the source of generated identifiers, read
at the number of variants handled so far. -/
def syncVariant (V : Validators) (pallets : List Pallet) (gen : Nat → Id) (p : Product)
    (acc : List Item × SyncResults) (v : Variant) : List Item × SyncResults :=
  let res := acc.2
  let newId := gen (res.created + res.updated + res.errors.length)
  match Item.findOrCreate V acc.1 pallets newId (variantKey v) (syncDefaults p v) with
  | .error e => (acc.1, { res with errors := res.errors ++ [SyncError.mk p.id v.id e] })
  | .ok (item, created, items) =>
    if !created then
      match Item.update V items pallets item (syncUpdate p v) with
      | .error e => (items, { res with errors := res.errors ++ [SyncError.mk p.id v.id e] })
      | .ok (_, items1) => (items1, { res with updated := res.updated + 1 })
    else (items, { res with created := res.created + 1 })

/-- The two nested loops over products and their variants. -/
def syncLoop (V : Validators) (pallets : List Pallet) (gen : Nat → Id) (products : List Product)
    (acc : List Item × SyncResults) : List Item × SyncResults :=
  products.foldl (fun acc p => p.variants.foldl (syncVariant V pallets gen p) acc) acc

/-- `POST /api/shopify/sync`.  `configured` says whether the store URL and the
access token are set; `feed` is `response.data.products`, `none` when the
request to the catalog fails. -/
def shopifySync (V : Validators) (s : State) (r : Req) (now : Int) (configured : Bool)
    (gen : Nat → Id) (feed : Option (List Product)) : Result :=
  if !configured then ⟨s, 400, .error "Shopify credentials not configured"⟩
  else
    match feed with
    | none => ⟨s, 500, .error "Failed to sync Shopify products"⟩
    | some products =>
      let (items, syncResults) := syncLoop V s.pallets gen products (s.items, ⟨0, 0, []⟩)
      let s1 := { s with items := items }
      match Log.create V s1.logs now "SHOPIFY_SYNC" "System" none r (.sync syncResults) with
      | .error _ => ⟨s1, 500, .error "Failed to sync Shopify products"⟩
      | .ok logs =>
        ⟨({ s1 with logs := logs }).emit "shopify:synced" (.sync syncResults), 200,
          .sync "Shopify sync completed" syncResults⟩

/-- How the three calls to the catalog made by `PUT /api/shopify/inventory/:id`
end: the first that fails, or none. -/
inductive Remote where
  | variantFails
  | locationsFails
  | setFails
  | done
  deriving DecidableEq, Repr

/-- `PUT /api/shopify/inventory/:id` with body `{ quantity }`. -/
def pushQuantity (V : Validators) (s : State) (r : Req) (now : Int) (id : Id)
    (quantity : Option Int) (configured : Bool) (remote : Remote) : Result :=
  match Item.findByPk s.items id with
  | none => ⟨s, 404, .error "Item not found"⟩
  | some item =>
    if (orNull item.shopifyVariantId).isNone then ⟨s, 400, .error "Item not linked to Shopify"⟩
    else if !configured then ⟨s, 400, .error "Shopify credentials not configured"⟩
    else if remote ≠ Remote.done then ⟨s, 500, .error "Failed to update Shopify inventory"⟩
    else
      match Item.update V s.items s.pallets item { quantity := quantity } with
      | .error _ => ⟨s, 500, .error "Failed to update Shopify inventory"⟩
      | .ok (item, items) =>
        let s1 := { s with items := items }
        match Log.create V s1.logs now "SHOPIFY_INVENTORY_UPDATE" "Item" (some item.id) r
            (.push item.id quantity) with
        | .error _ => ⟨s1, 500, .error "Failed to update Shopify inventory"⟩
        | .ok logs => ⟨{ s1 with logs := logs }, 200, .pushed "Inventory updated in Shopify" item⟩

/-! ## Log routes (`routes/logs.js`) -/

/-- The cutoff of the cleanup: `now` moved back by `days` days, in milliseconds. -/
def cutoffDate (now days : Int) : Int := now - days * 86400000

/-- `Log.destroy({ where: { createdAt: { [Op.lt]: cutoff } } })`: the number of
rows deleted and the rows left. -/
def Log.destroy (logs : List Log) (cutoff : Int) : Nat × List Log :=
  ((logs.filter (fun l => l.createdAt < cutoff)).length,
   logs.filter (fun l => !(l.createdAt < cutoff)))

/-- `DELETE /api/logs/cleanup?days=N`; `days` is `parseInt(days)`. -/
def cleanup (V : Validators) (s : State) (r : Req) (now : Int) (days : Int) : Result :=
  let cutoff := cutoffDate now days
  let (deletedCount, logs) := Log.destroy s.logs cutoff
  let s1 := { s with logs := logs }
  match Log.create V s1.logs now "LOG_CLEANUP" "System" none r
      (.cleanup deletedCount days cutoff) with
  | .error _ => ⟨s1, 500, .error "Failed to cleanup logs"⟩
  | .ok logs1 => ⟨{ s1 with logs := logs1 }, 200, .cleanup deletedCount⟩

/-! ## The mutating operations as one transition function -/

/-- A mutating request with its parameters, its body and what the environment
contributes to it (generated identifiers, the answers of the catalog). -/
inductive Op where
  | createItem (newId : Id) (body : ItemFields)
  | updateItem (id : Id) (body : ItemFields)
  | deleteItem (id : Id)
  | adjustQuantity (id : Id) (amount : Int) (operation : Option String)
  | createPallet (newId : Id) (body : PalletFields)
  | updatePallet (id : Id) (body : PalletFields)
  | deletePallet (id : Id)
  | assignItem (id itemId : Id)
  | removeItem (id itemId : Id)
  | sync (configured : Bool) (gen : Nat → Id) (feed : Option (List Product))
  | pushQuantity (id : Id) (quantity : Option Int) (configured : Bool) (remote : Remote)
  | cleanup (days : Int)

/-- Run one mutating request. -/
def step (V : Validators) (s : State) (r : Req) (now : Int) : Op → Result
  | .createItem newId body => createItem V s r now newId body
  | .updateItem id body => updateItem V s r now id body
  | .deleteItem id => deleteItem V s r now id
  | .adjustQuantity id amount operation => adjustQuantity V s r now id amount operation
  | .createPallet newId body => createPallet V s r now newId body
  | .updatePallet id body => updatePallet V s r now id body
  | .deletePallet id => deletePallet V s r now id
  | .assignItem id itemId => assignItem V s r now id itemId
  | .removeItem id itemId => removeItem V s r now id itemId
  | .sync configured gen feed => shopifySync V s r now configured gen feed
  | .pushQuantity id quantity configured remote =>
    pushQuantity V s r now id quantity configured remote
  | .cleanup days => cleanup V s r now days

/-- The empty store. -/
def State.empty : State := ⟨[], [], [], []⟩

/-- The states the store takes from the empty store under mutating requests. -/
inductive Reachable (V : Validators) : State → Prop where
  | empty : Reachable V State.empty
  | step {s : State} (r : Req) (now : Int) (op : Op) :
      Reachable V s → Reachable V (step V s r now op).state

/-- A response with a 2xx status. -/
def Response.success (res : Response) : Bool := decide (200 ≤ res.status ∧ res.status < 300)

/-! ## Writes to the store and what they preserve -/

/-- One successful write to the tables `items` and `pallets`. -/
inductive Write (V : Validators) : List Item × List Pallet → List Item × List Pallet → Prop where
  | itemCreate {items items1 : List Item} {pallets : List Pallet} {newId : Id} {f : ItemFields}
      {row : Item} :
      Item.create V items pallets newId f = .ok (row, items1) →
      Write V (items, pallets) (items1, pallets)
  | itemUpdate {items items1 : List Item} {pallets : List Pallet} {item row : Item}
      {f : ItemFields} :
      Item.update V items pallets item f = .ok (row, items1) →
      Write V (items, pallets) (items1, pallets)
  | itemDestroy {items : List Item} {pallets : List Pallet} {item : Item} :
      Write V (items, pallets) (Item.destroy items item, pallets)
  | palletCreate {items : List Item} {pallets pallets1 : List Pallet} {newId : Id}
      {f : PalletFields} {row : Pallet} :
      Pallet.create V pallets newId f = .ok (row, pallets1) →
      Write V (items, pallets) (items, pallets1)
  | palletUpdate {items : List Item} {pallets pallets1 : List Pallet} {pallet row : Pallet}
      {f : PalletFields} :
      Pallet.update V pallets pallet f = .ok (row, pallets1) →
      Write V (items, pallets) (items, pallets1)
  | palletDestroy {items : List Item} {pallets : List Pallet} {pallet : Pallet} :
      Write V (items, pallets) (Pallet.destroy items pallets pallet)

/-- The numeric attributes of an item are not negative (`maxQuantity` may be unset). -/
def Item.nonNeg (i : Item) : Prop :=
  0 ≤ i.quantity ∧ 0 ≤ i.minQuantity ∧ 0 ≤ i.price ∧ 0 ≤ i.cost ∧
    ∀ m, i.maxQuantity = some m → 0 ≤ m

/-- Every stored item names no pallet or a stored pallet. -/
def RefOk (t : List Item × List Pallet) : Prop :=
  ∀ i ∈ t.1, palletExists t.2 i.palletId = true

/-- The name of the event each request emits when it succeeds; `none` for the
two handlers that have no `io.emit`. -/
def Op.eventName : Op → Option String
  | .createItem _ _ => some "inventory:created"
  | .updateItem _ _ => some "inventory:updated"
  | .deleteItem _ => some "inventory:deleted"
  | .adjustQuantity _ _ _ => some "inventory:quantity_updated"
  | .createPallet _ _ => some "pallet:created"
  | .updatePallet _ _ => some "pallet:updated"
  | .deletePallet _ => some "pallet:deleted"
  | .assignItem _ _ => some "pallet:item_assigned"
  | .removeItem _ _ => some "pallet:item_removed"
  | .sync _ _ _ => some "shopify:synced"
  | .pushQuantity _ _ _ _ => none
  | .cleanup _ => none

/-- The action, entity type and entity id that the handler of a request on an
item or a pallet passes to `Log.create`; `none` for the other requests. -/
def Op.audit : Op → Option (String × String × Id)
  | .createItem newId _ => some ("CREATE", "Item", newId)
  | .updateItem id _ => some ("UPDATE", "Item", id)
  | .deleteItem id => some ("DELETE", "Item", id)
  | .adjustQuantity id _ _ => some ("QUANTITY_UPDATE", "Item", id)
  | .createPallet newId _ => some ("CREATE", "Pallet", newId)
  | .updatePallet id _ => some ("UPDATE", "Pallet", id)
  | .deletePallet id => some ("DELETE", "Pallet", id)
  | .assignItem id _ => some ("ASSIGN_ITEM", "Pallet", id)
  | .removeItem id _ => some ("REMOVE_ITEM", "Pallet", id)
  | .sync _ _ _ => none
  | .pushQuantity _ _ _ _ => none
  | .cleanup _ => none

/-- An item with this id is stored. -/
def State.hasItem (s : State) (id : Id) : Prop := ∃ i ∈ s.items, i.id = id

/-- A pallet with this id is stored. -/
def State.hasPallet (s : State) (id : Id) : Prop := ∃ p ∈ s.pallets, p.id = id

/-- What the entity id of the audit row of a request names, `s` being the
state before and `s1` the state after: the item or pallet created, updated or
deleted, and for an assignment the pallet the item now lies on.  Nothing is
said of the pallet id of a removal. -/
def Op.affected (s s1 : State) : Op → Prop
  | .createItem newId _ => s1.hasItem newId
  | .updateItem id _ => s.hasItem id ∧ s1.hasItem id
  | .deleteItem id => s.hasItem id ∧ ¬ s1.hasItem id
  | .adjustQuantity id _ _ => s.hasItem id ∧ s1.hasItem id
  | .createPallet newId _ => s1.hasPallet newId
  | .updatePallet id _ => s.hasPallet id ∧ s1.hasPallet id
  | .deletePallet id => s.hasPallet id ∧ ¬ s1.hasPallet id
  | .assignItem id itemId =>
    s1.hasPallet id ∧ ∃ i ∈ s1.items, i.id = itemId ∧ i.palletId = some id
  | .removeItem _ _ => True
  | .sync _ _ _ => True
  | .pushQuantity _ _ _ _ => True
  | .cleanup _ => True

instance (s : State) (id : Id) : Decidable (s.hasItem id) :=
  inferInstanceAs (Decidable (∃ i ∈ s.items, i.id = id))

instance (s : State) (id : Id) : Decidable (s.hasPallet id) :=
  inferInstanceAs (Decidable (∃ p ∈ s.pallets, p.id = id))

/-! ## Item listing (`GET /api/inventory`) -/

/-- Some final part of the text satisfies `f`. -/
def anySuffix (f : List Char → Bool) : List Char → Bool
  | [] => f []
  | c :: t => f (c :: t) || anySuffix f t

/-- The `LIKE` of PostgreSQL on lists of characters: `%` stands for any run of
characters, `_` for any one character, a backslash makes the character after it
literal, any other character stands for itself.  The flag says that the
character before was such a backslash.  A pattern ending in a lone backslash
is an error of the database; the patterns built by the listing end in `%`. -/
def likeFrom : Bool → List Char → List Char → Bool
  | false, [], t => t.isEmpty
  | true, [], _ => false
  | true, c :: p, t =>
    match t with
    | [] => false
    | d :: t1 => c == d && likeFrom false p t1
  | false, c :: p, t =>
    if c = '%' then anySuffix (likeFrom false p) t
    else if c = '_' then
      match t with
      | [] => false
      | _ :: t1 => likeFrom false p t1
    else if c = '\\' then likeFrom true p t
    else
      match t with
      | [] => false
      | d :: t1 => c == d && likeFrom false p t1

/-- The pattern matches the whole text. -/
def likeMatch (p t : List Char) : Bool := likeFrom false p t

/-- The characters of a string in lower case. -/
def lower (s : String) : List Char := s.data.map Char.toLower

/-- The operator `[Op.iLike]`: `LIKE` ignoring case. -/
def iLike (pattern text : String) : Bool := likeMatch (lower pattern) (lower text)


/-- The search clause of the listing: `Op.or` of `iLike` on `name`, `sku` and
`description` with pattern `%search%`; a `null` description matches nothing. -/
def searchClause (search : String) (i : Item) : Bool :=
  iLike ("%" ++ search ++ "%") i.name || iLike ("%" ++ search ++ "%") i.sku ||
    (match i.description with
     | some d => iLike ("%" ++ search ++ "%") d
     | none => false)

/-- The filters of the query string of `GET /api/inventory`; an empty string or
`none` is a filter not given. -/
structure ItemQuery where
  search : String := ""
  category : String := ""
  status : Option ItemStatus := none
  deriving DecidableEq, Repr

/-- The `where` object the handler builds. -/
def itemWhere (q : ItemQuery) (i : Item) : Bool :=
  (if q.search ≠ "" then searchClause q.search i else true) &&
  (if q.category ≠ "" then i.category == some q.category else true) &&
  (match q.status with
   | some st => i.status == st
   | none => true)

/-- The rows `Item.findAndCountAll` counts: the stored items that satisfy the
`where` object, before `limit` and `offset` cut a page out of them. -/
def matchingItems (q : ItemQuery) (items : List Item) : List Item :=
  items.filter (itemWhere q)

/-- A string contains another as a substring when case is ignored. -/
def containsIgnoreCase (text s : String) : Prop := lower s <:+: lower text

instance (text s : String) : Decidable (containsIgnoreCase text s) :=
  inferInstanceAs (Decidable (lower s <:+: lower text))

/-- Name, sku or description of the item contains the string, case ignored. -/
def Item.mentions (i : Item) (s : String) : Prop :=
  containsIgnoreCase i.name s ∨ containsIgnoreCase i.sku s ∨
    ∃ d, i.description = some d ∧ containsIgnoreCase d s

/-- A character with a meaning of its own in a `LIKE` pattern. -/
def isWildcard (c : Char) : Bool := c == '%' || c == '_' || c == '\\'

/-! ## Catalog sync: what the loop visits and what it keeps -/

/-- The pairs of a product and one of its variants, in the order in which the
two loops of the sync visit them. -/
def syncPairs : List Product → List (Product × Variant)
  | [] => []
  | p :: ps => p.variants.map (fun v => (p, v)) ++ syncPairs ps

/-- The constraints of the primary key and of the unique `barcode` column hold
in the table. -/
def StoreOk (items : List Item) : Prop :=
  (∀ i ∈ items, ∀ j ∈ items, i.id = j.id → i = j) ∧
  (∀ i ∈ items, ∀ j ∈ items, ∀ b, i.barcode = some b → j.barcode = some b → i = j)

/-- The lookup of the sync finds an item for the variant, and that item already
carries the values the sync writes for it, all of them valid. -/
def Settled (V : Validators) (items : List Item) (p : Product) (v : Variant) : Prop :=
  ∃ t, items.find? (fun i => i.shopifyVariantId == some (variantKey v)) = some t ∧
    (syncUpdate p v).apply t = t ∧ (syncUpdate p v).violations V = []

/-- No two rows of the table share an id and no two share a sku. -/
def Distinct (items : List Item) : Prop :=
  (items.map (fun i => i.id)).Nodup ∧ (items.map (fun i => i.sku)).Nodup

/-! ## Authentication (`middleware/auth.js`, `routes/auth.js`) -/

/-- The decoded payload of a token, as far as the handlers read it. -/
structure Claims where
  email : Option String
  deriving DecidableEq, Repr

/-- The two secrets of the environment. -/
structure Secrets where
  LEAUTOTECH_JWT_SECRET : String
  JWT_SECRET : String
  deriving DecidableEq, Repr

/-- What the gate reads of a request: the `authorization` header and the
`token` parameter of the query string. -/
structure AuthRequest where
  authorization : Option String
  queryToken : Option String
  deriving DecidableEq, Repr

/-- How the gate ends: `next()` with `req.user` set, or a response of its own. -/
inductive AuthOutcome where
  | next (user : Claims)
  | denied (status : Nat) (error : String)
  deriving DecidableEq, Repr

/-- The JavaScript `split(' ')` on the characters of a string. -/
def splitSpaces : List Char → List (List Char)
  | [] => [[]]
  | c :: cs =>
    if c = ' ' then [] :: splitSpaces cs
    else
      match splitSpaces cs with
      | [] => [[c]]
      | w :: ws => (c :: w) :: ws

/-- The value of `authHeader && authHeader.split(' ')[1]`. -/
def headerToken : Option String → Option String
  | none => none
  | some h => if h = "" then some "" else ((splitSpaces h.data).get? 1).map String.mk

/-- The value of `token || queryToken`. -/
def finalToken (a : AuthRequest) : Option String :=
  match orNull (headerToken a.authorization) with
  | some t => some t
  | none => a.queryToken

/-- The middleware `authenticateToken`; `jwt token secret` is `jwt.verify`,
`none` when it reports an error. -/
def authenticateToken (jwt : String → String → Option Claims) (env : Secrets)
    (a : AuthRequest) : AuthOutcome :=
  match orNull (finalToken a) with
  | none => .denied 401 "Access denied. No token provided."
  | some t =>
    match jwt t env.LEAUTOTECH_JWT_SECRET with
    | some decoded => .next decoded
    | none =>
      match jwt t env.JWT_SECRET with
      | none => .denied 403 "Invalid or expired token."
      | some decoded2 => .next decoded2

/-- A route behind `router.use(authenticateToken)`: the handler runs only when
the gate calls `next()`, with the decoded payload as `req.user`. -/
def guarded (jwt : String → String → Option Claims) (env : Secrets) (a : AuthRequest)
    (s : State) (handler : Claims → Result) : Result :=
  match authenticateToken jwt env a with
  | .next user => handler user
  | .denied status error => ⟨s, status, .error error⟩

/-- The helper `verifyToken`. -/
def verifyToken (jwt : String → String → Option Claims) (env : Secrets) (token : String) :
    Option Claims :=
  jwt token env.JWT_SECRET

/-- The body of a response of `POST /api/auth/verify`. -/
inductive VerifyBody where
  | valid (user : Claims)
  | error (text : String)
  deriving DecidableEq, Repr

/-- `POST /api/auth/verify` with body `{ token }`. -/
def authVerify (jwt : String → String → Option Claims) (env : Secrets)
    (token : Option String) : Nat × VerifyBody :=
  match orNull token with
  | none => (400, .error "Token is required")
  | some t =>
    match verifyToken jwt env t with
    | none => (401, .error "Invalid or expired token")
    | some decoded => (200, .valid decoded)

/-! ## Statistics (`GET /api/inventory/stats/summary`) -/

/-- The body of the statistics response. -/
structure Stats where
  totalItems : Nat
  activeItems : Nat
  lowStockItems : Nat
  totalValue : Int
  deriving DecidableEq, Repr

/-- `Item.count({ where })`. -/
def Item.count (items : List Item) (cond : Item → Bool) : Nat :=
  (items.filter cond).length

/-- `Item.sum('price', { where })`: `null` when no row satisfies the condition. -/
def Item.sum (items : List Item) (cond : Item → Bool) : Option Int :=
  match items.filter cond with
  | [] => none
  | rows => some (rows.map (fun i => i.price)).sum

/-- `GET /api/inventory/stats/summary`: the state after the request and the
body sent; `totalValue || 0` turns `null` into 0. -/
def getStats (s : State) : State × Stats :=
  (s,
   { totalItems := Item.count s.items (fun _ => true)
     activeItems := Item.count s.items (fun i => i.status == ItemStatus.active)
     lowStockItems := Item.count s.items (fun i => decide (i.quantity ≤ i.minQuantity))
     totalValue := (Item.sum s.items (fun i => i.status == ItemStatus.active)).getD 0 })

/-- The statistics as the specification words them: the number of items, the
number of active items, the number of items with `quantity ≤ minQuantity`, and
the sum of `price` over the active items. -/
def statsSpec (items : List Item) : Stats where
  totalItems := items.length
  activeItems := items.countP (fun i => i.status = ItemStatus.active)
  lowStockItems := items.countP (fun i => i.quantity ≤ i.minQuantity)
  totalValue := ((items.filter (fun i => i.status = ItemStatus.active)).map (fun i => i.price)).sum

/-- An item none of the variants of the feed is looked up by. -/
def Unmatched (products : List Product) (i : Item) : Prop :=
  ∀ pv ∈ syncPairs products, i.shopifyVariantId ≠ some (variantKey pv.2)

/-- The second item agrees with the first on every attribute the sync does not
write: all but `name`, `description`, `price`, `quantity`, `imageUrl` and
`barcode`. -/
def SameInternal (i j : Item) : Prop :=
  j.id = i.id ∧ j.sku = i.sku ∧ j.location = i.location ∧ j.palletId = i.palletId ∧
  j.category = i.category ∧ j.minQuantity = i.minQuantity ∧ j.maxQuantity = i.maxQuantity ∧
  j.cost = i.cost ∧ j.shopifyProductId = i.shopifyProductId ∧
  j.shopifyVariantId = i.shopifyVariantId ∧ j.status = i.status ∧ j.metadata = i.metadata

/-- The loop of the sync run over a list of pairs of a product and a variant. -/
def syncRun (V : Validators) (pallets : List Pallet) (gen : Nat → Id)
    (F : List (Product × Variant)) (acc : List Item × SyncResults) : List Item × SyncResults :=
  F.foldl (fun a pv => syncVariant V pallets gen pv.1 a pv.2) acc

/-- The upsert of the variant on the table `acc.1` throws, and the `catch` adds
the entry `e` to the errors: nothing is written and no counter moves. -/
def UpsertFails (V : Validators) (pallets : List Pallet) (gen : Nat → Id) (p : Product)
    (acc : List Item × SyncResults) (v : Variant) (e : SyncError) : Prop :=
  syncVariant V pallets gen p acc v = (acc.1, { acc.2 with errors := acc.2.errors ++ [e] })

/-- Some numeric attribute of the body with a default of 0 is negative. -/
def ItemFields.negative (f : ItemFields) : Prop :=
  (∃ n, f.quantity = some n ∧ n < 0) ∨ (∃ n, f.minQuantity = some n ∧ n < 0) ∨
  (∃ n, f.price = some n ∧ n < 0) ∨ (∃ n, f.cost = some n ∧ n < 0)

/-! ## The effects of pushing a quantity -/

/-- What `PUT /api/shopify/inventory/:id` does besides reading the item, in the
order of the handler: the three requests to the catalog, then the write to the
item, then the audit row. -/
inductive Effect where
  | getVariant (variantId : String)
  | getLocations
  | setLevel (available : Option Int)
  | updateItem (quantity : Option Int)
  | createLog
  deriving DecidableEq, Repr

/-- `PUT /api/shopify/inventory/:id` together with the effects it attempted, in
order; a failing effect is the last of the list. -/
def pushQuantityTraced (V : Validators) (s : State) (r : Req) (now : Int) (id : Id)
    (quantity : Option Int) (configured : Bool) (remote : Remote) : Result × List Effect :=
  match Item.findByPk s.items id with
  | none => (⟨s, 404, .error "Item not found"⟩, [])
  | some item =>
    match orNull item.shopifyVariantId with
    | none => (⟨s, 400, .error "Item not linked to Shopify"⟩, [])
    | some variantId =>
      if !configured then (⟨s, 400, .error "Shopify credentials not configured"⟩, [])
      else
        match remote with
        | .variantFails =>
          (⟨s, 500, .error "Failed to update Shopify inventory"⟩, [.getVariant variantId])
        | .locationsFails =>
          (⟨s, 500, .error "Failed to update Shopify inventory"⟩,
            [.getVariant variantId, .getLocations])
        | .setFails =>
          (⟨s, 500, .error "Failed to update Shopify inventory"⟩,
            [.getVariant variantId, .getLocations, .setLevel quantity])
        | .done =>
          match Item.update V s.items s.pallets item { quantity := quantity } with
          | .error _ =>
            (⟨s, 500, .error "Failed to update Shopify inventory"⟩,
              [.getVariant variantId, .getLocations, .setLevel quantity, .updateItem quantity])
          | .ok (item, items) =>
            let s1 := { s with items := items }
            match Log.create V s1.logs now "SHOPIFY_INVENTORY_UPDATE" "Item" (some item.id) r
                (.push item.id quantity) with
            | .error _ =>
              (⟨s1, 500, .error "Failed to update Shopify inventory"⟩,
                [.getVariant variantId, .getLocations, .setLevel quantity,
                 .updateItem quantity, .createLog])
            | .ok logs =>
              (⟨{ s1 with logs := logs }, 200, .pushed "Inventory updated in Shopify" item⟩,
                [.getVariant variantId, .getLocations, .setLevel quantity,
                 .updateItem quantity, .createLog])

/-! ## Paged listings (`GET /api/inventory`, `GET /api/pallets`) -/

/-- The filters of the query string of `GET /api/pallets`; an empty string or
`none` is a filter not given. -/
structure PalletQuery where
  search : String := ""
  status : Option PalletStatus := none
  deriving DecidableEq, Repr

/-- The `where` object the pallet listing builds: `Op.or` of `iLike` on
`palletNumber` and `location` with pattern `%search%`, and the status. -/
def palletWhere (q : PalletQuery) (p : Pallet) : Bool :=
  (if q.search ≠ "" then
      iLike ("%" ++ q.search ++ "%") p.palletNumber ||
        (match p.location with
         | some l => iLike ("%" ++ q.search ++ "%") l
         | none => false)
    else true) &&
  (match q.status with
   | some st => p.status == st
   | none => true)

/-- The number of rows of `rows LEFT OUTER JOIN others ON joins`: a row counts once
for each partner it has, and once when it has none. -/
def leftJoinCount {α β : Type} (rows : List α) (others : List β) (joins : α → β → Bool) : Nat :=
  (rows.map (fun a => max 1 (others.filter (joins a)).length)).sum

/-- `Model.findAndCountAll` with options `where`, `include`, `limit`, `offset`
and `order`, as both listings call it.  The count is `Model.count` with the same
`where` and `include` and no `distinct`: the library counts the primary key
over the rows of the left outer join with the included table.  The rows are
the page that `offset` and `limit` cut out of the ordered matches, each with
its partners of the included table; the database rejects a negative offset. -/
def findAndCountAll {α β : Type} (rows : List α) (others : List β) (joins : α → β → Bool)
    (wh : α → Bool) (order : List α → List α) (limit : Nat) (offset : Int) :
    Option (Nat × List (α × List β)) :=
  if offset < 0 then none
  else
    let found := rows.filter wh
    let count := leftJoinCount found others joins
    let page := ((order found).drop offset.toNat).take limit
    some (count, if count = 0 then [] else page.map (fun a => (a, others.filter (joins a))))

/-- The object `pagination` of a list response.  `totalPages` is
`Math.ceil(count / limit)`, which is no number when `limit` is 0. -/
structure Pagination where
  total : Nat
  page : Nat
  limit : Nat
  totalPages : Option Nat
  deriving DecidableEq, Repr

/-- The object `pagination` the two listings build from the count. -/
def pagination (count page limit : Nat) : Pagination where
  total := count
  page := page
  limit := limit
  totalPages := if limit = 0 then none else some ((count + limit - 1) / limit)

/-- `GET /api/inventory` with the numbers `page` and `limit` of the query
string; `order` is the `ORDER BY sortBy sortOrder` of the database.  Each row
carries the pallet the item lies on, if any.  `none` is the answer 500. -/
def listItems (order : List Item → List Item) (q : ItemQuery) (page limit : Nat) (s : State) :
    Option (List (Item × Option Pallet) × Pagination) :=
  let offset : Int := ((page : Int) - 1) * limit
  match findAndCountAll s.items s.pallets (fun i p => i.palletId == some p.id) (itemWhere q)
      order limit offset with
  | none => none
  | some (count, rows) =>
    some (rows.map (fun row => (row.1, row.2.head?)), pagination count page limit)

/-- `GET /api/pallets` with the numbers `page` and `limit` of the query string;
`order` is the `ORDER BY sortBy sortOrder` of the database.  Each row carries
the items that lie on the pallet.  `none` is the answer 500. -/
def listPallets (order : List Pallet → List Pallet) (q : PalletQuery) (page limit : Nat)
    (s : State) : Option (List (Pallet × List Item) × Pagination) :=
  let offset : Int := ((page : Int) - 1) * limit
  match findAndCountAll s.pallets s.items (fun p i => i.palletId == some p.id) (palletWhere q)
      order limit offset with
  | none => none
  | some (count, rows) => some (rows, pagination count page limit)

/-- The pallets the listing's filter selects. -/
def matchingPallets (q : PalletQuery) (pallets : List Pallet) : List Pallet :=
  pallets.filter (palletWhere q)

/-! ## Sample data -/

/-- Concrete validators: a non-empty string, a string with an `@`. -/
def V0 : Validators := ⟨fun s => s != "", fun s => s.data.elem '@'⟩

/-- An item with quantity 3 on no pallet. -/
def bolt : Item where
  id := "i1"
  sku := "S1"
  name := "Bolt"
  description := none
  category := none
  quantity := 3
  minQuantity := 0
  maxQuantity := none
  price := 0
  cost := 0
  location := none
  barcode := none
  shopifyProductId := none
  shopifyVariantId := none
  imageUrl := none
  status := ItemStatus.active
  metadata := []
  palletId := none

/-- A store holding the bolt only. -/
def boltStore : State := ⟨[bolt], [], [], []⟩

/-- A caller whose token carries a well-formed email. -/
def alice : Req := ⟨some "alice@example.com", none, none⟩

/-- A caller whose token carries no email claim. -/
def anonymous : Req := ⟨none, none, none⟩

/-- The body of a request creating the bolt. -/
def boltBody : ItemFields where
  sku := some (some "S1")
  name := some (some "Bolt")
  quantity := some 3

/-- The pallet `P-1`. -/
def rack : Pallet where
  id := "p1"
  palletNumber := "P-1"
  location := none
  status := PalletStatus.available
  capacity := 100
  currentLoad := 0
  notes := none
  metadata := []

/-- A store in which the bolt lies on the pallet `P-1`. -/
def rackStore : State := ⟨[{ bolt with palletId := some "p1" }], [rack], [], []⟩

/-- Three requests from the empty store: create the pallet, create the bolt,
assign the bolt to the pallet. -/
def rackTrace : List Op :=
  [Op.createPallet "p1" { palletNumber := some (some "P-1") }, Op.createItem "i1" boltBody,
   Op.assignItem "p1" "i1"]

/-- Run a list of requests of one caller, all at the same instant. -/
def run (V : Validators) (r : Req) (now : Int) : State → List Op → State
  | s, [] => s
  | s, op :: ops => run V r now (step V s r now op).state ops

/-- A store holding the bolt and the pallet `P-1`, the bolt on no pallet. -/
def yardStore : State := ⟨[bolt], [rack], [], []⟩

/-- A store holding the bolt linked to variant 42 of the catalog. -/
def linkedStore : State := ⟨[{ bolt with shopifyVariantId := some "42" }], [], [], []⟩

/-- A scanner linked to variant 2 of the catalog, with barcode `B1`. -/
def scanner : Item where
  id := "i2"
  sku := "S2"
  name := "Scanner"
  description := none
  category := none
  quantity := 1
  minQuantity := 0
  maxQuantity := none
  price := 0
  cost := 0
  location := none
  barcode := some "B1"
  shopifyProductId := some "1"
  shopifyVariantId := some "2"
  imageUrl := none
  status := ItemStatus.active
  metadata := []
  palletId := none

/-- A store holding the scanner only. -/
def scannerStore : State := ⟨[scanner], [], [], []⟩

/-- A feed of one product with a new variant 1 carrying the barcode `B1` and
the variant 2 of the scanner, whose barcode becomes `B2`. -/
def feed : List Product :=
  [{ id := 1, title := "Scanner", body_html := none, images := [],
     variants := [
       { id := 1, sku := some "S3", title := "Mini", price := 100, inventory_quantity := some 1,
         barcode := some "B1" },
       { id := 2, sku := some "S2", title := "Default Title", price := 200,
         inventory_quantity := some 1, barcode := some "B2" }] }]

/-- A source of generated identifiers. -/
def gen0 : Nat → Id := fun n => "g" ++ toString n

/-- A variant with the default title, price 1.00 and one unit in stock. -/
def plainVariant (id : Nat) (sku barcode : String) : Variant where
  id := id
  sku := some sku
  title := "Default Title"
  price := 100
  inventory_quantity := some 1
  barcode := some barcode

/-- A feed in which the variants 1 and 2 occur more than once. -/
def repeatedFeed : List Product :=
  [{ id := 1, title := "Kit", body_html := none, images := [],
     variants := [plainVariant 1 "A" "bx", plainVariant 2 "B" "b", plainVariant 2 "B" "b2",
       plainVariant 1 "A" "b", plainVariant 2 "B" "b3", plainVariant 3 "C" "b2"] }]

/-- A sample `jwt.verify`: one token signed by the portal and one signed with
the internal secret, both for the same user. -/
def jwt0 : String → String → Option Claims := fun token secret =>
  if token = "portal.alice" ∧ secret = "portal-secret" then some ⟨some "alice@example.com"⟩
  else if token = "internal.alice" ∧ secret = "internal-secret" then
    some ⟨some "alice@example.com"⟩
  else none

/-- Sample secrets, the two of them different. -/
def env0 : Secrets := ⟨"portal-secret", "internal-secret"⟩

/-- An audit row written at instant 0. -/
def oldRow : Log :=
  Log.mk "CREATE" "Item" (some "i1") "alice@example.com" (.item bolt) none none 0

/-- An audit row written at instant 9000000000. -/
def recentRow : Log :=
  Log.mk "DELETE" "Item" (some "i1") "alice@example.com" (.item bolt) none none 9000000000

/-- A store whose log holds an old and a recent row. -/
def logStore : State := ⟨[], [], [oldRow, recentRow], []⟩

/-- A body with a negative quantity. -/
def negativeBody : ItemFields where
  sku := some (some "S9")
  name := some (some "Nut")
  quantity := some (-1)

/-- A pallet loaded to its capacity and marked full. -/
def fullRack : Pallet where
  id := "p9"
  palletNumber := "P-9"
  location := none
  status := PalletStatus.full
  capacity := 10
  currentLoad := 10
  notes := none
  metadata := []

/-- A store holding the bolt, on no pallet, and the full pallet `P-9`. -/
def fullStore : State := ⟨[bolt], [fullRack], [], []⟩

/-- A discontinued item with nothing in stock and no minimum. -/
def washer : Item :=
  { bolt with id := "i7", sku := "S7", name := "Washer", quantity := 0,
              status := ItemStatus.discontinued }

/-- A store holding the discontinued washer only. -/
def washerStore : State := ⟨[washer], [], [], []⟩

/-- The body of a request creating an item with a sku and a name only. -/
def bareBody : ItemFields where
  sku := some (some "S2")
  name := some (some "Nut")

/-- A store in which the pallet `P-1` holds two items, the bolt and the washer. -/
def loadedStore : State :=
  ⟨[{ bolt with palletId := some "p1" }, { washer with palletId := some "p1" }], [rack], [], []⟩

/-! ## Inversion of the store calls -/

theorem item_create_inv {V : Validators} {items items1 : List Item} {pallets : List Pallet}
    {newId : Id} {f : ItemFields} {row : Item}
    (h : Item.create V items pallets newId f = .ok (row, items1)) :
    row = f.toItem newId ∧ items1 = items ++ [row] ∧
    f.sku ≠ none ∧ f.name ≠ none ∧ f.violations V = [] ∧
    items.any (fun j => j.id == row.id) = false ∧
    items.any (fun j => j.sku == row.sku) = false ∧
    barcodeTaken items row.barcode = false ∧
    palletExists pallets row.palletId = true := by
  unfold Item.create at h
  by_cases hs : f.sku = none
  · simp [hs] at h
  by_cases hn : f.name = none
  · simp [hn] at h
  by_cases hv : f.violations V = []
  swap
  · simp [hv] at h
  by_cases h1 : items.any (fun j => j.id == (f.toItem newId).id) = true
  · simp [hs, hn, hv, h1] at h
  by_cases h2 : items.any (fun j => j.sku == (f.toItem newId).sku) = true
  · simp [hs, hn, hv, h1, h2] at h
  by_cases h3 : barcodeTaken items (f.toItem newId).barcode = true
  · simp [hs, hn, hv, h1, h2, h3] at h
  by_cases h4 : palletExists pallets (f.toItem newId).palletId = true
  swap
  · simp [hs, hn, hv, h1, h2, h3, h4] at h
  simp [hs, hn, hv, h1, h2, h3, h4] at h
  obtain ⟨rfl, rfl⟩ := h
  exact ⟨rfl, rfl, hs, hn, hv, Bool.eq_false_iff.mpr h1, Bool.eq_false_iff.mpr h2,
    Bool.eq_false_iff.mpr h3, h4⟩

theorem item_update_inv {V : Validators} {items items1 : List Item} {pallets : List Pallet}
    {item row : Item} {f : ItemFields}
    (h : Item.update V items pallets item f = .ok (row, items1)) :
    row = f.apply item ∧
    items1 = items.map (fun j => if j.id = item.id then f.apply j else j) ∧
    f.violations V = [] ∧
    (f.sku.isSome = true →
      (items.filter (fun j => j.id != item.id)).any (fun j => j.sku == (f.apply item).sku) = false) ∧
    (f.barcode.isSome = true →
      barcodeTaken (items.filter (fun j => j.id != item.id)) (f.apply item).barcode = false) ∧
    (f.palletId.isSome = true → palletExists pallets (f.apply item).palletId = true) := by
  unfold Item.update at h
  by_cases hv : f.violations V = []
  swap
  · simp [hv] at h
  by_cases h1 : (f.sku.isSome &&
      (items.filter (fun j => j.id != item.id)).any (fun j => j.sku == (f.apply item).sku)) = true
  · simp only [hv, h1] at h
    simp at h
  by_cases h2 : (f.barcode.isSome &&
      barcodeTaken (items.filter (fun j => j.id != item.id)) (f.apply item).barcode) = true
  · simp only [hv, h1, h2] at h
    simp at h
  by_cases h3 : (f.palletId.isSome && !palletExists pallets (f.apply item).palletId) = true
  · simp only [hv, h1, h2, h3] at h
    simp at h
  simp only [hv, h1, h2, h3] at h
  simp at h
  obtain ⟨rfl, rfl⟩ := h
  refine ⟨rfl, rfl, hv, ?_, ?_, ?_⟩
  · intro hsome
    simpa [hsome] using h1
  · intro hsome
    simpa [hsome] using h2
  · intro hsome
    simpa [hsome] using h3

theorem pallet_create_inv {V : Validators} {pallets pallets1 : List Pallet} {newId : Id}
    {f : PalletFields} {row : Pallet}
    (h : Pallet.create V pallets newId f = .ok (row, pallets1)) :
    row = f.toPallet newId ∧ pallets1 = pallets ++ [row] ∧ f.violations V = [] := by
  unfold Pallet.create at h
  by_cases hs : f.palletNumber = none
  · simp [hs] at h
  by_cases hv : f.violations V = []
  swap
  · simp [hv] at h
  by_cases h1 : pallets.any (fun q => q.id == (f.toPallet newId).id) = true
  · simp [hs, hv, h1] at h
  by_cases h2 : pallets.any (fun q => q.palletNumber == (f.toPallet newId).palletNumber) = true
  · simp [hs, hv, h1, h2] at h
  simp [hs, hv, h1, h2] at h
  obtain ⟨rfl, rfl⟩ := h
  exact ⟨rfl, rfl, hv⟩

theorem pallet_update_inv {V : Validators} {pallets pallets1 : List Pallet} {pallet row : Pallet}
    {f : PalletFields}
    (h : Pallet.update V pallets pallet f = .ok (row, pallets1)) :
    row = f.apply pallet ∧
    pallets1 = pallets.map (fun q => if q.id = pallet.id then f.apply q else q) ∧
    f.violations V = [] := by
  unfold Pallet.update at h
  by_cases hv : f.violations V = []
  swap
  · simp [hv] at h
  by_cases h1 : (f.palletNumber.isSome && (pallets.filter (fun q => q.id != pallet.id)).any
      (fun q => q.palletNumber == (f.apply pallet).palletNumber)) = true
  · simp only [hv, h1] at h
    simp at h
  simp only [hv, h1] at h
  simp at h
  obtain ⟨rfl, rfl⟩ := h
  exact ⟨rfl, rfl, hv⟩

theorem pallet_findByPk_id {pallets : List Pallet} {id : Id} {pallet : Pallet}
    (h : Pallet.findByPk pallets id = some pallet) : pallet.id = id := by
  have := List.find?_some h
  simpa using this

/-! ## Store calls that succeed -/

theorem log_create_ok (V : Validators) (logs : List Log) (now : Int) (a t : String)
    (eid : Option String) (r : Req) (d : Details) (e : String)
    (hmail : r.email = some e) (hvalid : V.isEmail e = true) :
    Log.create V logs now a t eid r d = .ok (logs ++ [Log.mk a t eid e d r.ip r.userAgent now]) := by
  simp [Log.create, hmail, hvalid]

theorem log_create_inv {V : Validators} {logs logs1 : List Log} {now : Int} {a t : String}
    {eid : Option String} {r : Req} {d : Details}
    (h : Log.create V logs now a t eid r d = .ok logs1) :
    ∃ e, r.email = some e ∧ V.isEmail e = true ∧
      logs1 = logs ++ [Log.mk a t eid e d r.ip r.userAgent now] := by
  unfold Log.create at h
  cases hm : r.email with
  | none => simp [hm] at h
  | some e =>
    simp only [hm] at h
    by_cases hv : V.isEmail e = true
    · simp [hv] at h
      exact ⟨e, rfl, hv, h.symm⟩
    · simp [hv] at h

theorem item_update_quantity (V : Validators) (items : List Item) (pallets : List Pallet)
    (item : Item) (q : Int) (hq : 0 ≤ q) :
    Item.update V items pallets item { quantity := some q } =
      .ok ({ item with quantity := q },
           items.map (fun j => if j.id = item.id then { j with quantity := q } else j)) := by
  have hq1 : ¬ q < 0 := not_lt.mpr hq
  simp [Item.update, ItemFields.violations, checkRequired, checkMin, hq1, ItemFields.apply]

theorem item_findByPk_id {items : List Item} {id : Id} {item : Item}
    (h : Item.findByPk items id = some item) : item.id = id := by
  have := List.find?_some h
  simpa using this

theorem item_findByPk_mem {items : List Item} {id : Id} {item : Item}
    (h : Item.findByPk items id = some item) : item ∈ items :=
  List.mem_of_find?_eq_some h

theorem item_findByPk_map (items : List Item) (id : Id) (g : Item → Item)
    (hg : ∀ j, (g j).id = j.id) :
    Item.findByPk (items.map g) id = (Item.findByPk items id).map g := by
  unfold Item.findByPk
  rw [List.find?_map]
  congr 1
  congr 1
  funext j
  simp [hg]

/-! ## Quantity adjustment -/

/-- C1: when the quantity computed by `adjustQuantity` for an existing item is
negative, the handler answers 400 "Quantity cannot be negative" and the whole
state is the state before: the stored quantity is untouched (not clamped to 0),
no audit row is written and no event is emitted. -/
theorem adjustQuantity_negative_rejected (V : Validators) (s : State) (r : Req) (now : Int)
    (id : Id) (amount : Int) (operation : Option String) (item : Item)
    (hfind : Item.findByPk s.items id = some item)
    (hneg : newQuantity item.quantity amount operation < 0) :
    adjustQuantity V s r now id amount operation =
      ⟨s, 400, .error "Quantity cannot be negative"⟩ := by
  simp [adjustQuantity, hfind, hneg]

theorem adjustQuantity_negative_rejected_witness :
    Item.findByPk boltStore.items "i1" = some bolt ∧
    newQuantity bolt.quantity 5 (some "subtract") < 0 ∧
    adjustQuantity V0 boltStore alice 7 "i1" 5 (some "subtract") =
      ⟨boltStore, 400, .error "Quantity cannot be negative"⟩ :=
  ⟨by decide, by decide,
   adjustQuantity_negative_rejected V0 boltStore alice 7 "i1" 5 (some "subtract") bolt
     (by decide) (by decide)⟩

/-- C2: for an existing item with quantity `q` and an amount `n` whose computed
value is not negative, the stored quantity becomes `q + n` for `add`, `q - n`
for `subtract` and `n` for `set`; and for a caller whose email the audit log
accepts the handler answers 200 with the item, appends exactly one
`QUANTITY_UPDATE` row carrying `oldQuantity = q` and `newQuantity` = the stored
quantity, and emits `inventory:quantity_updated`. -/
theorem adjustQuantity_postcondition (V : Validators) (s : State) (r : Req) (now : Int)
    (id : Id) (amount : Int) (operation : Option String) (item : Item)
    (hfind : Item.findByPk s.items id = some item)
    (hq : 0 ≤ newQuantity item.quantity amount operation) :
    (newQuantity item.quantity amount (some "add") = item.quantity + amount ∧
     newQuantity item.quantity amount (some "subtract") = item.quantity - amount ∧
     newQuantity item.quantity amount (some "set") = amount) ∧
    Item.findByPk (adjustQuantity V s r now id amount operation).state.items id =
      some { item with quantity := newQuantity item.quantity amount operation } ∧
    ∀ e, r.email = some e → V.isEmail e = true →
      (adjustQuantity V s r now id amount operation).response =
        ⟨200, .item { item with quantity := newQuantity item.quantity amount operation }⟩ ∧
      (adjustQuantity V s r now id amount operation).state.logs =
        s.logs ++ [Log.mk "QUANTITY_UPDATE" "Item" (some id) e
          (.quantity item.quantity (newQuantity item.quantity amount operation) operation)
          r.ip r.userAgent now] ∧
      (adjustQuantity V s r now id amount operation).state.events =
        s.events ++ [Event.mk "inventory:quantity_updated"
          (.item { item with quantity := newQuantity item.quantity amount operation })] := by
  have hid := item_findByPk_id hfind
  have hq1 : ¬ newQuantity item.quantity amount operation < 0 := not_lt.mpr hq
  have hfind1 : Item.findByPk (s.items.map (fun j => if j.id = item.id then
      { j with quantity := newQuantity item.quantity amount operation } else j)) id =
      some { item with quantity := newQuantity item.quantity amount operation } := by
    rw [item_findByPk_map _ _ _ (by intro j; split <;> rfl), hfind]
    simp
  refine ⟨⟨by simp [newQuantity], by simp [newQuantity], by simp [newQuantity]⟩, ?_, ?_⟩
  · simp only [adjustQuantity, hfind, hq1, if_false, item_update_quantity V _ _ _ _ hq]
    cases hl : Log.create V s.logs now "QUANTITY_UPDATE" "Item" (some item.id) r
      (.quantity item.quantity (newQuantity item.quantity amount operation) operation) <;>
      simp [hfind1, State.emit]
  · intro e hmail hvalid
    simp only [adjustQuantity, hfind, hq1, if_false, item_update_quantity V _ _ _ _ hq,
      log_create_ok V _ _ _ _ _ _ _ e hmail hvalid]
    simp [State.emit, hid]

theorem adjustQuantity_postcondition_witness :
    Item.findByPk boltStore.items "i1" = some bolt ∧
    0 ≤ newQuantity bolt.quantity 5 (some "add") ∧
    Item.findByPk (adjustQuantity V0 boltStore alice 7 "i1" 5 (some "add")).state.items "i1" =
      some { bolt with quantity := 8 } ∧
    (adjustQuantity V0 boltStore alice 7 "i1" 5 (some "add")).state.logs =
      [Log.mk "QUANTITY_UPDATE" "Item" (some "i1") "alice@example.com"
        (.quantity 3 8 (some "add")) none none 7] :=
  have h := adjustQuantity_postcondition V0 boltStore alice 7 "i1" 5 (some "add") bolt
    (by decide) (by decide)
  ⟨by decide, by decide, h.2.1, (h.2.2 "alice@example.com" rfl (by decide)).2.1⟩

/-! ## Pallet deletion -/

/-- C6: deleting a pallet that has at least one linked item answers 400
"Cannot delete pallet with items. Please remove items first." and the whole
state is the state before: the pallet and every item are unchanged, no audit
row is written and no event is emitted. -/
theorem deletePallet_with_items_rejected (V : Validators) (s : State) (r : Req) (now : Int)
    (id : Id) (pallet : Pallet) (item : Item)
    (hfind : Pallet.findByPk s.pallets id = some pallet)
    (hitem : item ∈ s.items) (hlink : item.palletId = some pallet.id) :
    deletePallet V s r now id =
      ⟨s, 400, .error "Cannot delete pallet with items. Please remove items first."⟩ := by
  have hmem : item ∈ Pallet.items s.items pallet := by
    simp [Pallet.items, hitem, hlink]
  have hlen : (Pallet.items s.items pallet).length > 0 := List.length_pos_of_mem hmem
  simp [deletePallet, hfind, hlen]

theorem deletePallet_with_items_rejected_witness :
    Pallet.findByPk rackStore.pallets "p1" = some rack ∧
    { bolt with palletId := some "p1" } ∈ rackStore.items ∧
    deletePallet V0 rackStore alice 7 "p1" =
      ⟨rackStore, 400, .error "Cannot delete pallet with items. Please remove items first."⟩ :=
  ⟨by decide, by decide,
   deletePallet_with_items_rejected V0 rackStore alice 7 "p1" rack
     { bolt with palletId := some "p1" } (by decide) (by decide) rfl⟩

/-! ## Every request is a sequence of writes -/

theorem foldl_writes {α : Type} (V : Validators) (pallets : List Pallet)
    (f : List Item × SyncResults → α → List Item × SyncResults)
    (hf : ∀ acc x, Relation.ReflTransGen (Write V) (acc.1, pallets) ((f acc x).1, pallets))
    (l : List α) (acc : List Item × SyncResults) :
    Relation.ReflTransGen (Write V) (acc.1, pallets) ((l.foldl f acc).1, pallets) := by
  induction l generalizing acc with
  | nil => exact Relation.ReflTransGen.refl
  | cons x l ih => exact (hf acc x).trans (ih (f acc x))

theorem syncVariant_writes (V : Validators) (pallets : List Pallet) (gen : Nat → Id)
    (p : Product) (acc : List Item × SyncResults) (v : Variant) :
    Relation.ReflTransGen (Write V) (acc.1, pallets)
      ((syncVariant V pallets gen p acc v).1, pallets) := by
  unfold syncVariant Item.findOrCreate
  cases hfind : acc.1.find? (fun i => i.shopifyVariantId == some (variantKey v)) with
  | some item =>
    simp only [Bool.not_false, if_true]
    cases hup : Item.update V acc.1 pallets item (syncUpdate p v) with
    | error e => exact Relation.ReflTransGen.refl
    | ok res => exact Relation.ReflTransGen.single (Write.itemUpdate hup)
  | none =>
    simp only
    cases hcr : Item.create V acc.1 pallets
        (gen (acc.2.created + acc.2.updated + acc.2.errors.length)) (syncDefaults p v) with
    | error e => exact Relation.ReflTransGen.refl
    | ok res => exact Relation.ReflTransGen.single (Write.itemCreate hcr)

theorem syncLoop_writes (V : Validators) (pallets : List Pallet) (gen : Nat → Id)
    (products : List Product) (acc : List Item × SyncResults) :
    Relation.ReflTransGen (Write V) (acc.1, pallets)
      ((syncLoop V pallets gen products acc).1, pallets) := by
  unfold syncLoop
  exact foldl_writes V pallets _
    (fun acc p => foldl_writes V pallets _ (syncVariant_writes V pallets gen p) p.variants acc)
    products acc

theorem step_writes (V : Validators) (s : State) (r : Req) (now : Int) (op : Op) :
    Relation.ReflTransGen (Write V) (s.items, s.pallets)
      ((step V s r now op).state.items, (step V s r now op).state.pallets) := by
  cases op with
  | createItem newId body =>
    simp only [step, createItem]
    cases h1 : Item.create V s.items s.pallets newId body with
    | error e => exact Relation.ReflTransGen.refl
    | ok res =>
      have hw := Relation.ReflTransGen.single (Write.itemCreate h1)
      simp only
      split <;> simpa [State.emit] using hw
  | updateItem id body =>
    simp only [step, updateItem]
    cases hf : Item.findByPk s.items id with
    | none => exact Relation.ReflTransGen.refl
    | some item =>
      simp only
      cases h1 : Item.update V s.items s.pallets item body with
      | error e => exact Relation.ReflTransGen.refl
      | ok res =>
        have hw := Relation.ReflTransGen.single (Write.itemUpdate h1)
        simp only
        split <;> simpa [State.emit] using hw
  | deleteItem id =>
    simp only [step, deleteItem]
    cases hf : Item.findByPk s.items id with
    | none => exact Relation.ReflTransGen.refl
    | some item =>
      have hw : Relation.ReflTransGen (Write V) (s.items, s.pallets)
          (Item.destroy s.items item, s.pallets) :=
        Relation.ReflTransGen.single Write.itemDestroy
      simp only
      split <;> simpa [State.emit] using hw
  | adjustQuantity id amount operation =>
    simp only [step, adjustQuantity]
    cases hf : Item.findByPk s.items id with
    | none => exact Relation.ReflTransGen.refl
    | some item =>
      simp only
      split
      · exact Relation.ReflTransGen.refl
      · cases h1 : Item.update V s.items s.pallets item
            { quantity := some (newQuantity item.quantity amount operation) } with
        | error e => exact Relation.ReflTransGen.refl
        | ok res =>
          have hw := Relation.ReflTransGen.single (Write.itemUpdate h1)
          simp only
          split <;> simpa [State.emit] using hw
  | createPallet newId body =>
    simp only [step, createPallet]
    cases h1 : Pallet.create V s.pallets newId body with
    | error e => exact Relation.ReflTransGen.refl
    | ok res =>
      have hw : Relation.ReflTransGen (Write V) (s.items, s.pallets) (s.items, res.2) :=
        Relation.ReflTransGen.single (Write.palletCreate h1)
      simp only
      split <;> simpa [State.emit] using hw
  | updatePallet id body =>
    simp only [step, updatePallet]
    cases hf : Pallet.findByPk s.pallets id with
    | none => exact Relation.ReflTransGen.refl
    | some pallet =>
      simp only
      cases h1 : Pallet.update V s.pallets pallet body with
      | error e => exact Relation.ReflTransGen.refl
      | ok res =>
        have hw : Relation.ReflTransGen (Write V) (s.items, s.pallets) (s.items, res.2) :=
          Relation.ReflTransGen.single (Write.palletUpdate h1)
        simp only
        split <;> simpa [State.emit] using hw
  | deletePallet id =>
    simp only [step, deletePallet]
    cases hf : Pallet.findByPk s.pallets id with
    | none => exact Relation.ReflTransGen.refl
    | some pallet =>
      simp only
      split
      · exact Relation.ReflTransGen.refl
      · have hw : Relation.ReflTransGen (Write V) (s.items, s.pallets)
            (Pallet.destroy s.items s.pallets pallet) :=
          Relation.ReflTransGen.single Write.palletDestroy
        split <;> simpa [State.emit] using hw
  | assignItem id itemId =>
    simp only [step, assignItem]
    split
    · exact Relation.ReflTransGen.refl
    · exact Relation.ReflTransGen.refl
    · rename_i pallet item _ _
      cases h1 : Item.update V s.items s.pallets item { palletId := some (some pallet.id) } with
      | error e => exact Relation.ReflTransGen.refl
      | ok res =>
        have hw := Relation.ReflTransGen.single (Write.itemUpdate h1)
        simp only
        split <;> simpa [State.emit] using hw
  | removeItem id itemId =>
    simp only [step, removeItem]
    cases hf : Item.findByPk s.items itemId with
    | none => exact Relation.ReflTransGen.refl
    | some item =>
      simp only
      cases h1 : Item.update V s.items s.pallets item { palletId := some none } with
      | error e => exact Relation.ReflTransGen.refl
      | ok res =>
        have hw := Relation.ReflTransGen.single (Write.itemUpdate h1)
        simp only
        split <;> simpa [State.emit] using hw
  | sync configured gen feed =>
    simp only [step, shopifySync]
    split
    · exact Relation.ReflTransGen.refl
    · cases feed with
      | none => exact Relation.ReflTransGen.refl
      | some products =>
        have hw := syncLoop_writes V s.pallets gen products (s.items, ⟨0, 0, []⟩)
        simp only
        split <;> simpa [State.emit] using hw
  | pushQuantity id quantity configured remote =>
    simp only [step, pushQuantity]
    cases hf : Item.findByPk s.items id with
    | none => exact Relation.ReflTransGen.refl
    | some item =>
      simp only
      split
      · exact Relation.ReflTransGen.refl
      · split
        · exact Relation.ReflTransGen.refl
        · split
          · exact Relation.ReflTransGen.refl
          · cases h1 : Item.update V s.items s.pallets item { quantity := quantity } with
            | error e => exact Relation.ReflTransGen.refl
            | ok res =>
              have hw := Relation.ReflTransGen.single (Write.itemUpdate h1)
              simp only
              split <;> simpa [State.emit] using hw
  | cleanup days =>
    simp only [step, cleanup, Log.destroy]
    split <;> exact Relation.ReflTransGen.refl

theorem run_reachable (V : Validators) (r : Req) (now : Int) (s : State) (ops : List Op)
    (hs : Reachable V s) : Reachable V (run V r now s ops) := by
  induction ops generalizing s with
  | nil => exact hs
  | cons op ops ih => exact ih _ (Reachable.step r now op hs)

/-! ## Non-negative quantities and prices -/

theorem checkMin_nil {field : String} {o : Option Int} (h : checkMin field o = []) :
    ∀ n, o = some n → 0 ≤ n := by
  intro n hn
  subst hn
  by_contra hlt
  simp [checkMin, not_le.mp hlt] at h

theorem violations_nil {V : Validators} {f : ItemFields} (h : f.violations V = []) :
    (∀ n, f.quantity = some n → 0 ≤ n) ∧ (∀ n, f.minQuantity = some n → 0 ≤ n) ∧
    (∀ n, f.maxQuantity = some (some n) → 0 ≤ n) ∧
    (∀ n, f.price = some n → 0 ≤ n) ∧ (∀ n, f.cost = some n → 0 ≤ n) := by
  simp only [ItemFields.violations, List.append_eq_nil] at h
  obtain ⟨⟨⟨⟨⟨⟨_, _⟩, h1⟩, h2⟩, h3⟩, h4⟩, h5⟩ := h
  refine ⟨checkMin_nil h1, checkMin_nil h2, ?_, checkMin_nil h4, checkMin_nil h5⟩
  intro n hn
  exact checkMin_nil h3 n (by simp [hn])

theorem toItem_nonNeg {V : Validators} {f : ItemFields} (newId : Id)
    (h : f.violations V = []) : (f.toItem newId).nonNeg := by
  obtain ⟨h1, h2, h3, h4, h5⟩ := violations_nil h
  refine ⟨?_, ?_, ?_, ?_, ?_⟩
  · cases hq : f.quantity with
    | none => simp [ItemFields.toItem, hq]
    | some n => simpa [ItemFields.toItem, hq] using h1 n hq
  · cases hq : f.minQuantity with
    | none => simp [ItemFields.toItem, hq]
    | some n => simpa [ItemFields.toItem, hq] using h2 n hq
  · cases hq : f.price with
    | none => simp [ItemFields.toItem, hq]
    | some n => simpa [ItemFields.toItem, hq] using h4 n hq
  · cases hq : f.cost with
    | none => simp [ItemFields.toItem, hq]
    | some n => simpa [ItemFields.toItem, hq] using h5 n hq
  · intro m hm
    cases hq : f.maxQuantity with
    | none => simp [ItemFields.toItem, hq] at hm
    | some o =>
      simp only [ItemFields.toItem, hq, Option.join] at hm
      exact h3 m (by rw [hq]; exact congrArg some hm)

theorem apply_nonNeg {V : Validators} {f : ItemFields} {i : Item}
    (h : f.violations V = []) (hi : i.nonNeg) : (f.apply i).nonNeg := by
  obtain ⟨h1, h2, h3, h4, h5⟩ := violations_nil h
  obtain ⟨i1, i2, i3, i4, i5⟩ := hi
  refine ⟨?_, ?_, ?_, ?_, ?_⟩
  · cases hq : f.quantity with
    | none => simpa [ItemFields.apply, hq] using i1
    | some n => simpa [ItemFields.apply, hq] using h1 n hq
  · cases hq : f.minQuantity with
    | none => simpa [ItemFields.apply, hq] using i2
    | some n => simpa [ItemFields.apply, hq] using h2 n hq
  · cases hq : f.price with
    | none => simpa [ItemFields.apply, hq] using i3
    | some n => simpa [ItemFields.apply, hq] using h4 n hq
  · cases hq : f.cost with
    | none => simpa [ItemFields.apply, hq] using i4
    | some n => simpa [ItemFields.apply, hq] using h5 n hq
  · intro m hm
    cases hq : f.maxQuantity with
    | none =>
      simp only [ItemFields.apply, hq, Option.getD] at hm
      exact i5 m hm
    | some o =>
      simp only [ItemFields.apply, hq, Option.getD] at hm
      exact h3 m (by rw [hq, hm])

theorem write_nonNeg {V : Validators} {t t1 : List Item × List Pallet} (hw : Write V t t1)
    (h : ∀ i ∈ t.1, i.nonNeg) : ∀ i ∈ t1.1, i.nonNeg := by
  cases hw with
  | itemCreate hc =>
    obtain ⟨hrow, hitems, _, _, hv, _⟩ := item_create_inv hc
    intro i hi
    simp only [hitems, List.mem_append, List.mem_singleton] at hi
    rcases hi with hi | hi
    · exact h i hi
    · rw [hi, hrow]
      exact toItem_nonNeg _ hv
  | itemUpdate hu =>
    obtain ⟨_, hitems, hv, _⟩ := item_update_inv hu
    intro i hi
    simp only [hitems, List.mem_map] at hi
    obtain ⟨j, hj, rfl⟩ := hi
    split
    · exact apply_nonNeg hv (h j hj)
    · exact h j hj
  | itemDestroy =>
    intro i hi
    exact h i (List.mem_of_mem_filter hi)
  | palletCreate _ => exact h
  | palletUpdate _ => exact h
  | palletDestroy =>
    intro i hi
    simp only [Pallet.destroy, List.mem_map] at hi
    obtain ⟨j, hj, rfl⟩ := hi
    split
    · exact h j hj
    · exact h j hj

theorem writes_nonNeg {V : Validators} {t t1 : List Item × List Pallet}
    (hw : Relation.ReflTransGen (Write V) t t1)
    (h : ∀ i ∈ t.1, i.nonNeg) : ∀ i ∈ t1.1, i.nonNeg := by
  induction hw with
  | refl => exact h
  | tail _ hstep ih => exact write_nonNeg hstep ih

/-- C7: in every state reached from the empty store by mutating requests (item
creation and update, quantity adjustment, catalog sync, push of a quantity and
all the others), every stored item has `quantity`, `minQuantity`, `price` and
`cost` at least 0 and `maxQuantity` unset or at least 0. -/
theorem nonNeg_invariant (V : Validators) (s : State) (hs : Reachable V s) :
    ∀ i ∈ s.items, 0 ≤ i.quantity ∧ 0 ≤ i.minQuantity ∧ 0 ≤ i.price ∧ 0 ≤ i.cost ∧
      ∀ m, i.maxQuantity = some m → 0 ≤ m := by
  induction hs with
  | empty => intro i hi; simp [State.empty] at hi
  | step r now op _ ih => exact writes_nonNeg (step_writes V _ r now op) ih

theorem nonNeg_invariant_witness :
    Reachable V0 (run V0 alice 7 State.empty rackTrace) ∧
    (run V0 alice 7 State.empty rackTrace).items = rackStore.items ∧
    ∀ i ∈ (run V0 alice 7 State.empty rackTrace).items,
      0 ≤ i.quantity ∧ 0 ≤ i.minQuantity ∧ 0 ≤ i.price ∧ 0 ≤ i.cost ∧
        ∀ m, i.maxQuantity = some m → 0 ≤ m :=
  ⟨run_reachable V0 alice 7 _ _ Reachable.empty, by decide,
   nonNeg_invariant V0 _ (run_reachable V0 alice 7 _ _ Reachable.empty)⟩

/-! ## Referential integrity -/

theorem palletExists_append (pallets : List Pallet) (row : Pallet) (o : Option Id)
    (h : palletExists pallets o = true) : palletExists (pallets ++ [row]) o = true := by
  cases o with
  | none => rfl
  | some p =>
    simp only [palletExists, List.any_append, Bool.or_eq_true] at h ⊢
    exact Or.inl h

theorem palletExists_map (pallets : List Pallet) (g : Pallet → Pallet) (hg : ∀ q, (g q).id = q.id)
    (o : Option Id) : palletExists (pallets.map g) o = palletExists pallets o := by
  cases o with
  | none => rfl
  | some p =>
    simp only [palletExists, List.any_map]
    congr 1
    funext q
    simp [hg]

theorem write_refOk {V : Validators} {t t1 : List Item × List Pallet} (hw : Write V t t1)
    (h : RefOk t) : RefOk t1 := by
  cases hw with
  | itemCreate hc =>
    obtain ⟨_, hitems, _, _, _, _, _, _, hp⟩ := item_create_inv hc
    intro i hi
    simp only [hitems, List.mem_append, List.mem_singleton] at hi
    rcases hi with hi | hi
    · exact h i hi
    · rw [hi]
      exact hp
  | @itemUpdate items items1 pallets item row f hu =>
    obtain ⟨_, hitems, _, _, _, hp⟩ := item_update_inv hu
    intro i hi
    simp only [hitems, List.mem_map] at hi
    obtain ⟨j, hj, rfl⟩ := hi
    split
    · cases hf : f.palletId with
      | none =>
        have := h j hj
        simpa [ItemFields.apply, hf] using this
      | some x =>
        have := hp (by simp [hf])
        simpa [ItemFields.apply, hf] using this
    · exact h j hj
  | itemDestroy =>
    intro i hi
    exact h i (List.mem_of_mem_filter hi)
  | palletCreate hc =>
    obtain ⟨_, hp, _⟩ := pallet_create_inv hc
    intro i hi
    simp only [hp]
    exact palletExists_append _ _ _ (h i hi)
  | palletUpdate hu =>
    obtain ⟨_, hp, _⟩ := pallet_update_inv hu
    intro i hi
    simp only [hp]
    rw [palletExists_map _ _ (by intro q; split <;> rfl)]
    exact h i hi
  | @palletDestroy items pallets pallet =>
    intro i hi
    simp only [Pallet.destroy, List.mem_map] at hi
    obtain ⟨j, hj, rfl⟩ := hi
    have hjok := h j hj
    simp only [Pallet.destroy]
    split
    · rfl
    · rename_i hne
      cases hq : j.palletId with
      | none => rfl
      | some q =>
        simp only [hq, palletExists, List.any_eq_true, beq_iff_eq] at hjok ⊢
        obtain ⟨x, hx, hxq⟩ := hjok
        refine ⟨x, ?_, hxq⟩
        simp only [List.mem_filter, bne_iff_ne, ne_eq]
        refine ⟨hx, ?_⟩
        intro hxp
        apply hne
        rw [hq, ← hxq, hxp]

theorem writes_refOk {V : Validators} {t t1 : List Item × List Pallet}
    (hw : Relation.ReflTransGen (Write V) t t1) (h : RefOk t) : RefOk t1 := by
  induction hw with
  | refl => exact h
  | tail _ hstep ih => exact write_refOk hstep ih

/-- C8: in every state reached from the empty store by mutating requests
(`updateItem` with any body, `assignItem`, `removeItem`, `deleteItem`,
`deletePallet` and all the others), the `palletId` of each stored item is unset
or the id of a stored pallet.  The foreign key declared by
`Item.belongsTo(Pallet)` is what rejects a body naming a pallet that is not
stored. -/
theorem referential_integrity (V : Validators) (s : State) (hs : Reachable V s) :
    ∀ i ∈ s.items, i.palletId = none ∨
      ∃ p ∈ s.pallets, i.palletId = some p.id := by
  have key : RefOk (s.items, s.pallets) := by
    induction hs with
    | empty => intro i hi; simp [State.empty] at hi
    | step r now op _ ih => exact writes_refOk (step_writes V _ r now op) ih
  intro i hi
  have := key i hi
  cases hq : i.palletId with
  | none => exact Or.inl rfl
  | some q =>
    right
    simp only [hq, palletExists, List.any_eq_true, beq_iff_eq] at this
    obtain ⟨x, hx, hxq⟩ := this
    exact ⟨x, hx, by rw [hxq]⟩

theorem referential_integrity_witness :
    Reachable V0 (run V0 alice 7 State.empty rackTrace) ∧
    (run V0 alice 7 State.empty rackTrace).items = rackStore.items ∧
    (run V0 alice 7 State.empty rackTrace).pallets = rackStore.pallets ∧
    ∀ i ∈ (run V0 alice 7 State.empty rackTrace).items, i.palletId = none ∨
      ∃ p ∈ (run V0 alice 7 State.empty rackTrace).pallets, i.palletId = some p.id :=
  ⟨run_reachable V0 alice 7 _ _ Reachable.empty, by decide, by decide,
   referential_integrity V0 _ (run_reachable V0 alice 7 _ _ Reachable.empty)⟩

/-! ## What a successful request did -/

theorem createItem_ok_inv {V : Validators} {s : State} {r : Req} {now : Int} {newId : Id}
    {body : ItemFields} (h : (createItem V s r now newId body).response.success = true) :
    ∃ item items e, Item.create V s.items s.pallets newId body = .ok (item, items) ∧
      r.email = some e ∧ V.isEmail e = true ∧
      createItem V s r now newId body =
        ⟨⟨items, s.pallets,
          s.logs ++ [Log.mk "CREATE" "Item" (some item.id) e (.item item) r.ip r.userAgent now],
          s.events ++ [Event.mk "inventory:created" (.item item)]⟩, 201, .item item⟩ := by
  unfold createItem at h ⊢
  cases h1 : Item.create V s.items s.pallets newId body with
  | error err => simp [h1, Response.success] at h
  | ok res =>
    obtain ⟨item, items⟩ := res
    simp only [h1] at h ⊢
    cases h2 : Log.create V s.logs now "CREATE" "Item" (some item.id) r (.item item) with
    | error err => simp [h2, Response.success] at h
    | ok logs =>
      obtain ⟨e, hm, hv, rfl⟩ := log_create_inv h2
      exact ⟨item, items, e, rfl, hm, hv, by simp [State.emit]⟩

theorem updateItem_ok_inv {V : Validators} {s : State} {r : Req} {now : Int} {id : Id}
    {body : ItemFields} (h : (updateItem V s r now id body).response.success = true) :
    ∃ old item items e, Item.findByPk s.items id = some old ∧
      Item.update V s.items s.pallets old body = .ok (item, items) ∧
      r.email = some e ∧ V.isEmail e = true ∧
      updateItem V s r now id body =
        ⟨⟨items, s.pallets,
          s.logs ++ [Log.mk "UPDATE" "Item" (some item.id) e (.itemChange old item)
            r.ip r.userAgent now],
          s.events ++ [Event.mk "inventory:updated" (.item item)]⟩, 200, .item item⟩ := by
  unfold updateItem at h ⊢
  cases h0 : Item.findByPk s.items id with
  | none => simp [h0, Response.success] at h
  | some old =>
    simp only [h0] at h ⊢
    cases h1 : Item.update V s.items s.pallets old body with
    | error err => simp [h1, Response.success] at h
    | ok res =>
      obtain ⟨item, items⟩ := res
      simp only [h1] at h ⊢
      cases h2 : Log.create V s.logs now "UPDATE" "Item" (some item.id) r
          (.itemChange old item) with
      | error err => simp [h2, Response.success] at h
      | ok logs =>
        obtain ⟨e, hm, hv, rfl⟩ := log_create_inv h2
        exact ⟨old, item, items, e, rfl, h1, hm, hv, by simp [State.emit]⟩

theorem deleteItem_ok_inv {V : Validators} {s : State} {r : Req} {now : Int} {id : Id}
    (h : (deleteItem V s r now id).response.success = true) :
    ∃ old e, Item.findByPk s.items id = some old ∧ r.email = some e ∧ V.isEmail e = true ∧
      deleteItem V s r now id =
        ⟨⟨Item.destroy s.items old, s.pallets,
          s.logs ++ [Log.mk "DELETE" "Item" (some id) e (.item old) r.ip r.userAgent now],
          s.events ++ [Event.mk "inventory:deleted" (.id id)]⟩, 200,
          .message "Item deleted successfully"⟩ := by
  unfold deleteItem at h ⊢
  cases h0 : Item.findByPk s.items id with
  | none => simp [h0, Response.success] at h
  | some old =>
    simp only [h0] at h ⊢
    cases h2 : Log.create V s.logs now "DELETE" "Item" (some id) r (.item old) with
    | error err => simp [h2, Response.success] at h
    | ok logs =>
      obtain ⟨e, hm, hv, rfl⟩ := log_create_inv h2
      exact ⟨old, e, rfl, hm, hv, by simp [State.emit]⟩

theorem adjustQuantity_ok_inv {V : Validators} {s : State} {r : Req} {now : Int} {id : Id}
    {amount : Int} {operation : Option String}
    (h : (adjustQuantity V s r now id amount operation).response.success = true) :
    ∃ old item items e, Item.findByPk s.items id = some old ∧
      0 ≤ newQuantity old.quantity amount operation ∧
      Item.update V s.items s.pallets old
        { quantity := some (newQuantity old.quantity amount operation) } = .ok (item, items) ∧
      r.email = some e ∧ V.isEmail e = true ∧
      adjustQuantity V s r now id amount operation =
        ⟨⟨items, s.pallets,
          s.logs ++ [Log.mk "QUANTITY_UPDATE" "Item" (some item.id) e
            (.quantity old.quantity (newQuantity old.quantity amount operation) operation)
            r.ip r.userAgent now],
          s.events ++ [Event.mk "inventory:quantity_updated" (.item item)]⟩, 200, .item item⟩ := by
  unfold adjustQuantity at h ⊢
  cases h0 : Item.findByPk s.items id with
  | none => simp [h0, Response.success] at h
  | some old =>
    simp only [h0] at h ⊢
    by_cases hneg : newQuantity old.quantity amount operation < 0
    · simp [hneg, Response.success] at h
    simp only [hneg, if_false] at h ⊢
    cases h1 : Item.update V s.items s.pallets old
        { quantity := some (newQuantity old.quantity amount operation) } with
    | error err => simp [h1, Response.success] at h
    | ok res =>
      obtain ⟨item, items⟩ := res
      simp only [h1] at h ⊢
      cases h2 : Log.create V s.logs now "QUANTITY_UPDATE" "Item" (some item.id) r
          (.quantity old.quantity (newQuantity old.quantity amount operation) operation) with
      | error err => simp [h2, Response.success] at h
      | ok logs =>
        obtain ⟨e, hm, hv, rfl⟩ := log_create_inv h2
        exact ⟨old, item, items, e, rfl, not_lt.mp hneg, h1, hm, hv, by simp [State.emit]⟩

theorem createPallet_ok_inv {V : Validators} {s : State} {r : Req} {now : Int} {newId : Id}
    {body : PalletFields} (h : (createPallet V s r now newId body).response.success = true) :
    ∃ pallet pallets e, Pallet.create V s.pallets newId body = .ok (pallet, pallets) ∧
      r.email = some e ∧ V.isEmail e = true ∧
      createPallet V s r now newId body =
        ⟨⟨s.items, pallets,
          s.logs ++ [Log.mk "CREATE" "Pallet" (some pallet.id) e (.pallet pallet)
            r.ip r.userAgent now],
          s.events ++ [Event.mk "pallet:created" (.pallet pallet)]⟩, 201, .pallet pallet⟩ := by
  unfold createPallet at h ⊢
  cases h1 : Pallet.create V s.pallets newId body with
  | error err => simp [h1, Response.success] at h
  | ok res =>
    obtain ⟨pallet, pallets⟩ := res
    simp only [h1] at h ⊢
    cases h2 : Log.create V s.logs now "CREATE" "Pallet" (some pallet.id) r (.pallet pallet) with
    | error err => simp [h2, Response.success] at h
    | ok logs =>
      obtain ⟨e, hm, hv, rfl⟩ := log_create_inv h2
      exact ⟨pallet, pallets, e, rfl, hm, hv, by simp [State.emit]⟩

theorem updatePallet_ok_inv {V : Validators} {s : State} {r : Req} {now : Int} {id : Id}
    {body : PalletFields} (h : (updatePallet V s r now id body).response.success = true) :
    ∃ old pallet pallets e, Pallet.findByPk s.pallets id = some old ∧
      Pallet.update V s.pallets old body = .ok (pallet, pallets) ∧
      r.email = some e ∧ V.isEmail e = true ∧
      updatePallet V s r now id body =
        ⟨⟨s.items, pallets,
          s.logs ++ [Log.mk "UPDATE" "Pallet" (some pallet.id) e (.palletChange old pallet)
            r.ip r.userAgent now],
          s.events ++ [Event.mk "pallet:updated" (.pallet pallet)]⟩, 200, .pallet pallet⟩ := by
  unfold updatePallet at h ⊢
  cases h0 : Pallet.findByPk s.pallets id with
  | none => simp [h0, Response.success] at h
  | some old =>
    simp only [h0] at h ⊢
    cases h1 : Pallet.update V s.pallets old body with
    | error err => simp [h1, Response.success] at h
    | ok res =>
      obtain ⟨pallet, pallets⟩ := res
      simp only [h1] at h ⊢
      cases h2 : Log.create V s.logs now "UPDATE" "Pallet" (some pallet.id) r
          (.palletChange old pallet) with
      | error err => simp [h2, Response.success] at h
      | ok logs =>
        obtain ⟨e, hm, hv, rfl⟩ := log_create_inv h2
        exact ⟨old, pallet, pallets, e, rfl, h1, hm, hv, by simp [State.emit]⟩

theorem deletePallet_ok_inv {V : Validators} {s : State} {r : Req} {now : Int} {id : Id}
    (h : (deletePallet V s r now id).response.success = true) :
    ∃ old e, Pallet.findByPk s.pallets id = some old ∧ Pallet.items s.items old = [] ∧
      r.email = some e ∧ V.isEmail e = true ∧
      deletePallet V s r now id =
        ⟨⟨(Pallet.destroy s.items s.pallets old).1, (Pallet.destroy s.items s.pallets old).2,
          s.logs ++ [Log.mk "DELETE" "Pallet" (some id) e (.pallet old) r.ip r.userAgent now],
          s.events ++ [Event.mk "pallet:deleted" (.id id)]⟩, 200,
          .message "Pallet deleted successfully"⟩ := by
  unfold deletePallet at h ⊢
  cases h0 : Pallet.findByPk s.pallets id with
  | none => simp [h0, Response.success] at h
  | some old =>
    simp only [h0] at h ⊢
    by_cases hlen : (Pallet.items s.items old).length > 0
    · simp [hlen, Response.success] at h
    simp only [hlen, if_false] at h ⊢
    cases h2 : Log.create V s.logs now "DELETE" "Pallet" (some id) r (.pallet old) with
    | error err => simp [h2, Response.success] at h
    | ok logs =>
      obtain ⟨e, hm, hv, rfl⟩ := log_create_inv h2
      refine ⟨old, e, rfl, ?_, hm, hv, by simp [State.emit]⟩
      exact List.length_eq_zero.mp (Nat.eq_zero_of_not_pos hlen)

theorem assignItem_ok_inv {V : Validators} {s : State} {r : Req} {now : Int} {id itemId : Id}
    (h : (assignItem V s r now id itemId).response.success = true) :
    ∃ pallet old item items e, Pallet.findByPk s.pallets id = some pallet ∧
      Item.findByPk s.items itemId = some old ∧
      Item.update V s.items s.pallets old { palletId := some (some pallet.id) } =
        .ok (item, items) ∧
      r.email = some e ∧ V.isEmail e = true ∧
      assignItem V s r now id itemId =
        ⟨⟨items, s.pallets,
          s.logs ++ [Log.mk "ASSIGN_ITEM" "Pallet" (some pallet.id) e (.link pallet.id item.id)
            r.ip r.userAgent now],
          s.events ++ [Event.mk "pallet:item_assigned" (.assigned pallet item)]⟩, 200,
          .assigned "Item assigned to pallet successfully" pallet item⟩ := by
  unfold assignItem at h ⊢
  cases h0 : Pallet.findByPk s.pallets id with
  | none => simp [h0, Response.success] at h
  | some pallet =>
    cases h00 : Item.findByPk s.items itemId with
    | none => simp [h0, h00, Response.success] at h
    | some old =>
      simp only [h0, h00] at h ⊢
      cases h1 : Item.update V s.items s.pallets old { palletId := some (some pallet.id) } with
      | error err => simp [h1, Response.success] at h
      | ok res =>
        obtain ⟨item, items⟩ := res
        simp only [h1] at h ⊢
        cases h2 : Log.create V s.logs now "ASSIGN_ITEM" "Pallet" (some pallet.id) r
            (.link pallet.id item.id) with
        | error err => simp [h2, Response.success] at h
        | ok logs =>
          obtain ⟨e, hm, hv, rfl⟩ := log_create_inv h2
          exact ⟨pallet, old, item, items, e, rfl, rfl, h1, hm, hv, by simp [State.emit]⟩

theorem removeItem_ok_inv {V : Validators} {s : State} {r : Req} {now : Int} {id itemId : Id}
    (h : (removeItem V s r now id itemId).response.success = true) :
    ∃ old item items e, Item.findByPk s.items itemId = some old ∧
      Item.update V s.items s.pallets old { palletId := some none } = .ok (item, items) ∧
      r.email = some e ∧ V.isEmail e = true ∧
      removeItem V s r now id itemId =
        ⟨⟨items, s.pallets,
          s.logs ++ [Log.mk "REMOVE_ITEM" "Pallet" (some id) e (.link id item.id)
            r.ip r.userAgent now],
          s.events ++ [Event.mk "pallet:item_removed" (.removed id item.id)]⟩, 200,
          .message "Item removed from pallet successfully"⟩ := by
  unfold removeItem at h ⊢
  cases h0 : Item.findByPk s.items itemId with
  | none => simp [h0, Response.success] at h
  | some old =>
    simp only [h0] at h ⊢
    cases h1 : Item.update V s.items s.pallets old { palletId := some none } with
    | error err => simp [h1, Response.success] at h
    | ok res =>
      obtain ⟨item, items⟩ := res
      simp only [h1] at h ⊢
      cases h2 : Log.create V s.logs now "REMOVE_ITEM" "Pallet" (some id) r
          (.link id item.id) with
      | error err => simp [h2, Response.success] at h
      | ok logs =>
        obtain ⟨e, hm, hv, rfl⟩ := log_create_inv h2
        exact ⟨old, item, items, e, rfl, h1, hm, hv, by simp [State.emit]⟩

/-! ## Audit rows of entity requests -/

theorem mem_update_self {items : List Item} {old : Item} (f : ItemFields) (h : old ∈ items) :
    f.apply old ∈ items.map (fun j => if j.id = old.id then f.apply j else j) :=
  List.mem_map.mpr ⟨old, h, by simp⟩

theorem mem_update_pallet {pallets : List Pallet} {old : Pallet} (f : PalletFields)
    (h : old ∈ pallets) :
    f.apply old ∈ pallets.map (fun q => if q.id = old.id then f.apply q else q) :=
  List.mem_map.mpr ⟨old, h, by simp⟩

/-- C3, amended: a successful create, update, delete, quantity adjustment,
assignment or removal appends exactly one audit row; its `userEmail` is the
email of the caller and its `entityId` is the id of the item created, updated,
deleted or adjusted, the id of the pallet created, updated or deleted, for an
assignment the id of the stored pallet the item now lies on, and for a removal
the pallet id of the request path, of which nothing more holds. -/
theorem entity_audit (V : Validators) (s : State) (r : Req) (now : Int) (op : Op)
    (a t : String) (eid : Id) (hop : op.audit = some (a, t, eid))
    (hsucc : (step V s r now op).response.success = true) :
    (∃ e d, r.email = some e ∧
      (step V s r now op).state.logs =
        s.logs ++ [Log.mk a t (some eid) e d r.ip r.userAgent now]) ∧
    op.affected s (step V s r now op).state := by
  cases op with
  | createItem newId body =>
    simp only [Op.audit, Option.some.injEq, Prod.mk.injEq] at hop
    obtain ⟨rfl, rfl, rfl⟩ := hop
    simp only [step] at hsucc ⊢
    obtain ⟨item, items, e, h1, hm, _, heq⟩ := createItem_ok_inv hsucc
    obtain ⟨hrow, hitems, _⟩ := item_create_inv h1
    have hid : item.id = newId := by rw [hrow]; rfl
    rw [heq]
    refine ⟨⟨e, .item item, hm, by simp [hid]⟩, ?_⟩
    exact ⟨item, by simp [hitems], hid⟩
  | updateItem id body =>
    simp only [Op.audit, Option.some.injEq, Prod.mk.injEq] at hop
    obtain ⟨rfl, rfl, rfl⟩ := hop
    simp only [step] at hsucc ⊢
    obtain ⟨old, item, items, e, h0, h1, hm, _, heq⟩ := updateItem_ok_inv hsucc
    obtain ⟨hrow, hitems, _⟩ := item_update_inv h1
    have hold := item_findByPk_id h0
    have hid : item.id = id := by rw [hrow]; exact hold
    rw [heq]
    refine ⟨⟨e, .itemChange old item, hm, by simp [hid]⟩, ⟨old, item_findByPk_mem h0, hold⟩, ?_⟩
    exact ⟨item, by rw [hitems, hrow]; exact mem_update_self body (item_findByPk_mem h0), hid⟩
  | deleteItem id =>
    simp only [Op.audit, Option.some.injEq, Prod.mk.injEq] at hop
    obtain ⟨rfl, rfl, rfl⟩ := hop
    simp only [step] at hsucc ⊢
    obtain ⟨old, e, h0, hm, _, heq⟩ := deleteItem_ok_inv hsucc
    have hold := item_findByPk_id h0
    rw [heq]
    refine ⟨⟨e, _, hm, rfl⟩, ⟨old, item_findByPk_mem h0, hold⟩, ?_⟩
    rintro ⟨i, hi, hid⟩
    simp only [Item.destroy, List.mem_filter, bne_iff_ne, ne_eq] at hi
    exact hi.2 (by rw [hid, hold])
  | adjustQuantity id amount operation =>
    simp only [Op.audit, Option.some.injEq, Prod.mk.injEq] at hop
    obtain ⟨rfl, rfl, rfl⟩ := hop
    simp only [step] at hsucc ⊢
    obtain ⟨old, item, items, e, h0, _, h1, hm, _, heq⟩ := adjustQuantity_ok_inv hsucc
    obtain ⟨hrow, hitems, _⟩ := item_update_inv h1
    have hold := item_findByPk_id h0
    have hid : item.id = id := by rw [hrow]; exact hold
    rw [heq]
    refine ⟨⟨e, .quantity old.quantity (newQuantity old.quantity amount operation) operation, hm, by simp [hid]⟩, ⟨old, item_findByPk_mem h0, hold⟩, ?_⟩
    exact ⟨item, by rw [hitems, hrow]; exact mem_update_self _ (item_findByPk_mem h0), hid⟩
  | createPallet newId body =>
    simp only [Op.audit, Option.some.injEq, Prod.mk.injEq] at hop
    obtain ⟨rfl, rfl, rfl⟩ := hop
    simp only [step] at hsucc ⊢
    obtain ⟨pallet, pallets, e, h1, hm, _, heq⟩ := createPallet_ok_inv hsucc
    obtain ⟨hrow, hpallets, _⟩ := pallet_create_inv h1
    have hid : pallet.id = newId := by rw [hrow]; rfl
    rw [heq]
    refine ⟨⟨e, .pallet pallet, hm, by simp [hid]⟩, ?_⟩
    exact ⟨pallet, by simp [hpallets], hid⟩
  | updatePallet id body =>
    simp only [Op.audit, Option.some.injEq, Prod.mk.injEq] at hop
    obtain ⟨rfl, rfl, rfl⟩ := hop
    simp only [step] at hsucc ⊢
    obtain ⟨old, pallet, pallets, e, h0, h1, hm, _, heq⟩ := updatePallet_ok_inv hsucc
    obtain ⟨hrow, hpallets, _⟩ := pallet_update_inv h1
    have hold := pallet_findByPk_id h0
    have hmem : old ∈ s.pallets := List.mem_of_find?_eq_some h0
    have hid : pallet.id = id := by rw [hrow]; exact hold
    rw [heq]
    refine ⟨⟨e, .palletChange old pallet, hm, by simp [hid]⟩, ⟨old, hmem, hold⟩, ?_⟩
    exact ⟨pallet, by rw [hpallets, hrow]; exact mem_update_pallet body hmem, hid⟩
  | deletePallet id =>
    simp only [Op.audit, Option.some.injEq, Prod.mk.injEq] at hop
    obtain ⟨rfl, rfl, rfl⟩ := hop
    simp only [step] at hsucc ⊢
    obtain ⟨old, e, h0, _, hm, _, heq⟩ := deletePallet_ok_inv hsucc
    have hold := pallet_findByPk_id h0
    rw [heq]
    refine ⟨⟨e, _, hm, rfl⟩, ⟨old, List.mem_of_find?_eq_some h0, hold⟩, ?_⟩
    rintro ⟨q, hq, hid⟩
    simp only [Pallet.destroy, List.mem_filter, bne_iff_ne, ne_eq] at hq
    exact hq.2 (by rw [hid, hold])
  | assignItem id itemId =>
    simp only [Op.audit, Option.some.injEq, Prod.mk.injEq] at hop
    obtain ⟨rfl, rfl, rfl⟩ := hop
    simp only [step] at hsucc ⊢
    obtain ⟨pallet, old, item, items, e, h0, h00, h1, hm, _, heq⟩ := assignItem_ok_inv hsucc
    obtain ⟨hrow, hitems, _⟩ := item_update_inv h1
    have hpid := pallet_findByPk_id h0
    have hold := item_findByPk_id h00
    rw [heq]
    refine ⟨⟨e, .link pallet.id item.id, hm, by simp [hpid]⟩, ⟨pallet, List.mem_of_find?_eq_some h0, hpid⟩, ?_⟩
    refine ⟨item, by rw [hitems, hrow]; exact mem_update_self _ (item_findByPk_mem h00), ?_, ?_⟩
    · rw [hrow]; exact hold
    · rw [hrow, ← hpid]; rfl
  | removeItem id itemId =>
    simp only [Op.audit, Option.some.injEq, Prod.mk.injEq] at hop
    obtain ⟨rfl, rfl, rfl⟩ := hop
    simp only [step] at hsucc ⊢
    obtain ⟨old, item, items, e, h0, h1, hm, _, heq⟩ := removeItem_ok_inv hsucc
    rw [heq]
    exact ⟨⟨e, _, hm, rfl⟩, trivial⟩
  | sync configured gen feed => simp [Op.audit] at hop
  | pushQuantity id quantity configured remote => simp [Op.audit] at hop
  | cleanup days => simp [Op.audit] at hop

theorem entity_audit_witness :
    (Op.assignItem "p1" "i1").audit = some ("ASSIGN_ITEM", "Pallet", "p1") ∧
    (step V0 yardStore alice 7 (Op.assignItem "p1" "i1")).response.success = true ∧
    (∃ e d, alice.email = some e ∧
      (step V0 yardStore alice 7 (Op.assignItem "p1" "i1")).state.logs =
        yardStore.logs ++ [Log.mk "ASSIGN_ITEM" "Pallet" (some "p1") e d alice.ip alice.userAgent 7]) ∧
    (Op.assignItem "p1" "i1").affected yardStore
      (step V0 yardStore alice 7 (Op.assignItem "p1" "i1")).state :=
  ⟨rfl, by decide,
   entity_audit V0 yardStore alice 7 (Op.assignItem "p1" "i1") "ASSIGN_ITEM" "Pallet" "p1" rfl
     (by decide)⟩

/-- C3 as stated fails: removing the bolt from a pallet id that names nothing
succeeds and writes an audit row whose `entityId` is that id, which is the id
of no item and of no pallet, before or after the request. -/
theorem removeItem_entityId_names_no_record :
    (step V0 boltStore alice 7 (Op.removeItem "ghost" "i1")).response.success = true ∧
    (step V0 boltStore alice 7 (Op.removeItem "ghost" "i1")).state.logs =
      [Log.mk "REMOVE_ITEM" "Pallet" (some "ghost") "alice@example.com" (.link "ghost" "i1")
        none none 7] ∧
    ¬ boltStore.hasItem "ghost" ∧ ¬ boltStore.hasPallet "ghost" ∧
    ¬ (step V0 boltStore alice 7 (Op.removeItem "ghost" "i1")).state.hasItem "ghost" ∧
    ¬ (step V0 boltStore alice 7 (Op.removeItem "ghost" "i1")).state.hasPallet "ghost" := by
  decide

/-! ## Failure of the audit write -/

theorem log_create_fail (V : Validators) (logs : List Log) (now : Int) (a t : String)
    (eid : Option String) (r : Req) (d : Details)
    (hfail : ∀ e, r.email = some e → V.isEmail e = false) :
    Log.create V logs now a t eid r d = .error (.validation ["userEmail"]) := by
  unfold Log.create
  cases hm : r.email with
  | none => rfl
  | some e => simp [hfail e hm]

theorem step_tables_caller (V : Validators) (s : State) (r r1 : Req) (now : Int) (op : Op) :
    (step V s r1 now op).state.items = (step V s r now op).state.items ∧
    (step V s r1 now op).state.pallets = (step V s r now op).state.pallets := by
  cases op <;>
    simp only [step, createItem, updateItem, deleteItem, adjustQuantity, createPallet,
      updatePallet, deletePallet, assignItem, removeItem, shopifySync, pushQuantity,
      cleanup] <;>
    (repeat' split) <;>
    simp_all [State.emit]

/-- C4, amended: when the audit write of a mutating request fails (the email
claim of the caller is missing or is not accepted as an email), the failure is
propagated: the response is not a success, no event is emitted and no audit
row is added; the write to the items and pallets stays committed, the two
tables being what they are for any other caller. -/
theorem audit_failure_propagates (V : Validators) (s : State) (r : Req) (now : Int) (op : Op)
    (hfail : ∀ e, r.email = some e → V.isEmail e = false) :
    (step V s r now op).response.success = false ∧
    (step V s r now op).state.events = s.events ∧
    List.Sublist (step V s r now op).state.logs s.logs ∧
    ∀ r1, (step V s r1 now op).state.items = (step V s r now op).state.items ∧
      (step V s r1 now op).state.pallets = (step V s r now op).state.pallets := by
  refine ⟨?_, ?_, ?_, fun r1 => step_tables_caller V s r r1 now op⟩ <;>
  cases op <;>
    simp only [step, createItem, updateItem, deleteItem, adjustQuantity, createPallet,
      updatePallet, deletePallet, assignItem, removeItem, shopifySync, pushQuantity,
      cleanup, log_create_fail V _ _ _ _ _ _ _ hfail] <;>
    (repeat' split) <;>
    simp_all [Response.success, Log.destroy]

theorem audit_failure_propagates_witness :
    (∀ e, anonymous.email = some e → V0.isEmail e = false) ∧
    (step V0 State.empty anonymous 7 (Op.createItem "i1" boltBody)).response.success = false ∧
    (step V0 State.empty anonymous 7 (Op.createItem "i1" boltBody)).state.events = [] ∧
    (step V0 State.empty anonymous 7 (Op.createItem "i1" boltBody)).state.items =
      (step V0 State.empty alice 7 (Op.createItem "i1" boltBody)).state.items :=
  have h := audit_failure_propagates V0 State.empty anonymous 7 (Op.createItem "i1" boltBody)
    (fun _ hm => Option.noConfusion hm)
  ⟨fun _ hm => Option.noConfusion hm, h.1, h.2.1, ((h.2.2.2 alice).1).symm⟩

/-- C4 as stated fails: a caller without an email claim creates the bolt; the
item is stored, yet the response is 400 with the validation error of the audit
row, and no audit row and no event exist. -/
theorem audit_failure_fails_request :
    (createItem V0 State.empty anonymous 7 "i1" boltBody).state.items = [bolt] ∧
    (createItem V0 State.empty anonymous 7 "i1" boltBody).response =
      ⟨400, .thrown (.validation ["userEmail"])⟩ ∧
    (createItem V0 State.empty anonymous 7 "i1" boltBody).state.logs = [] ∧
    (createItem V0 State.empty anonymous 7 "i1" boltBody).state.events = [] := by
  decide

/-! ## Live-update events -/

/-- C10, amended: a successful item create, update, delete or quantity
adjustment, pallet create, update, delete, assignment or removal, or catalog
sync emits exactly one event, the one named for it; a successful push of a
quantity to the catalog and a successful log cleanup emit none. -/
theorem mutation_events (V : Validators) (s : State) (r : Req) (now : Int) (op : Op)
    (h : (step V s r now op).response.success = true) :
    (step V s r now op).state.events.map Event.name =
      s.events.map Event.name ++ (Op.eventName op).toList := by
  cases op
  all_goals
    simp only [step, createItem, updateItem, deleteItem, adjustQuantity, createPallet,
      updatePallet, deletePallet, assignItem, removeItem, shopifySync, pushQuantity,
      cleanup] at h ⊢
  all_goals repeat' split at h
  all_goals try simp_all [Response.success, State.emit, Op.eventName]
  all_goals split
  all_goals simp_all
  all_goals omega


theorem mutation_events_witness :
    (step V0 State.empty alice 7 (Op.createItem "i1" boltBody)).response.success = true ∧
    (step V0 State.empty alice 7 (Op.createItem "i1" boltBody)).state.events.map Event.name =
      State.empty.events.map Event.name ++ (Op.createItem "i1" boltBody).eventName.toList :=
  ⟨by decide, mutation_events V0 State.empty alice 7 (Op.createItem "i1" boltBody) (by decide)⟩

/-- C10 as stated fails: pushing a quantity to the catalog and cleaning up the
log both succeed and emit no event. -/
theorem push_and_cleanup_emit_nothing :
    (step V0 linkedStore alice 7 (Op.pushQuantity "i1" (some 4) true Remote.done)).response.success
      = true ∧
    (step V0 linkedStore alice 7 (Op.pushQuantity "i1" (some 4) true Remote.done)).state.events
      = [] ∧
    (step V0 boltStore alice 7 (Op.cleanup 90)).response.success = true ∧
    (step V0 boltStore alice 7 (Op.cleanup 90)).state.events = [] := by
  decide

/-! ## Search of the item listing -/

theorem ofNat_upper_ne (n : Nat) (h1 : 65 ≤ n) (h2 : n ≤ 90) :
    Char.ofNat (n + 32) ≠ '%' ∧ Char.ofNat (n + 32) ≠ '_' ∧ Char.ofNat (n + 32) ≠ '\\' := by
  interval_cases n <;> decide

theorem toLower_special (c : Char) :
    (c.toLower = '%' → c = '%') ∧ (c.toLower = '_' → c = '_') ∧ (c.toLower = '\\' → c = '\\') := by
  by_cases h : c.toNat ≥ 65 ∧ c.toNat ≤ 90
  · obtain ⟨a, b, d⟩ := ofNat_upper_ne c.toNat h.1 h.2
    simp only [Char.toLower, h, and_self, if_true]
    exact ⟨fun e => absurd e a, fun e => absurd e b, fun e => absurd e d⟩
  · simp only [Char.toLower, h, if_false]
    exact ⟨id, id, id⟩

theorem isWildcard_false {c : Char} (h : isWildcard c = false) :
    c ≠ '%' ∧ c ≠ '_' ∧ c ≠ '\\' := by
  simp only [isWildcard, Bool.or_eq_false_iff, beq_eq_false_iff_ne, ne_eq] at h
  exact ⟨h.1.1, h.1.2, h.2⟩

theorem isWildcard_toLower {c : Char} (h : isWildcard c = false) :
    isWildcard c.toLower = false := by
  obtain ⟨h1, h2, h3⟩ := isWildcard_false h
  obtain ⟨a, b, d⟩ := toLower_special c
  simp only [isWildcard, Bool.or_eq_false_iff, beq_eq_false_iff_ne, ne_eq]
  exact ⟨⟨fun e => h1 (a e), fun e => h2 (b e)⟩, fun e => h3 (d e)⟩

theorem anySuffix_iff (f : List Char → Bool) (t : List Char) :
    anySuffix f t = true ↔ ∃ u, u <:+ t ∧ f u = true := by
  induction t with
  | nil =>
    simp only [anySuffix, List.suffix_nil]
    constructor
    · intro h; exact ⟨[], rfl, h⟩
    · rintro ⟨u, rfl, h⟩; exact h
  | cons c t ih =>
    simp only [anySuffix, Bool.or_eq_true, ih, List.suffix_cons_iff]
    constructor
    · rintro (h | ⟨u, hu, h⟩)
      · exact ⟨c :: t, Or.inl rfl, h⟩
      · exact ⟨u, Or.inr hu, h⟩
    · rintro ⟨u, (rfl | hu), h⟩
      · exact Or.inl h
      · exact Or.inr ⟨u, hu, h⟩

theorem likeMatch_wild (p t : List Char) :
    likeMatch ('%' :: p) t = anySuffix (likeMatch p) t := by
  unfold likeMatch
  rw [likeFrom.eq_def]
  simp

theorem likeMatch_char_nil (c : Char) (p : List Char) (h1 : c ≠ '%') (h2 : c ≠ '_')
    (h3 : c ≠ '\\') : likeMatch (c :: p) [] = false := by
  unfold likeMatch
  rw [likeFrom.eq_def]
  simp [h1, h2, h3]

theorem likeMatch_char_cons (c d : Char) (p t : List Char) (h1 : c ≠ '%') (h2 : c ≠ '_')
    (h3 : c ≠ '\\') : likeMatch (c :: p) (d :: t) = (c == d && likeMatch p t) := by
  unfold likeMatch
  rw [likeFrom, if_neg h1, if_neg h2, if_neg h3]

theorem likeMatch_percent (t : List Char) : likeMatch ['%'] t = true := by
  rw [likeMatch_wild, anySuffix_iff]
  exact ⟨[], List.nil_suffix, rfl⟩

theorem likeMatch_plain (q : List Char) (hq : ∀ c ∈ q, isWildcard c = false) (t : List Char) :
    likeMatch (q ++ ['%']) t = true ↔ q <+: t := by
  induction q generalizing t with
  | nil => simp [likeMatch_percent]
  | cons c q ih =>
    obtain ⟨h1, h2, h3⟩ := isWildcard_false (hq c (List.mem_cons_self c q))
    have ihq := ih (fun d hd => hq d (List.mem_cons_of_mem c hd))
    cases t with
    | nil => simp [likeMatch_char_nil c _ h1 h2 h3]
    | cons d t =>
      simp only [List.cons_append, likeMatch_char_cons c d _ t h1 h2 h3, Bool.and_eq_true,
        beq_iff_eq, ihq, List.cons_prefix_cons]

theorem likeMatch_contains (q : List Char) (hq : ∀ c ∈ q, isWildcard c = false) (t : List Char) :
    likeMatch ('%' :: (q ++ ['%'])) t = true ↔ q <:+: t := by
  rw [likeMatch_wild, anySuffix_iff, List.infix_iff_prefix_suffix]
  constructor
  · rintro ⟨u, hu, h⟩
    exact ⟨u, (likeMatch_plain q hq u).mp h, hu⟩
  · rintro ⟨u, h, hu⟩
    exact ⟨u, hu, (likeMatch_plain q hq u).mpr h⟩

theorem lower_pattern (s : String) : lower ("%" ++ s ++ "%") = '%' :: (lower s ++ ['%']) := by
  simp [lower, String.data_append]

theorem iLike_contains (s : String) (hs : ∀ c ∈ s.data, isWildcard c = false) (text : String) :
    iLike ("%" ++ s ++ "%") text = true ↔ containsIgnoreCase text s := by
  unfold iLike containsIgnoreCase
  rw [lower_pattern]
  apply likeMatch_contains
  intro c hc
  simp only [lower, List.mem_map] at hc
  obtain ⟨d, hd, rfl⟩ := hc
  exact isWildcard_toLower (hs d hd)

theorem searchClause_iff (s : String) (hs : ∀ c ∈ s.data, isWildcard c = false) (i : Item) :
    searchClause s i = true ↔ i.mentions s := by
  unfold searchClause Item.mentions
  rw [Bool.or_eq_true, Bool.or_eq_true, iLike_contains s hs, iLike_contains s hs, or_assoc]
  refine or_congr Iff.rfl (or_congr Iff.rfl ?_)
  cases hd : i.description with
  | none => simp
  | some d => simp [iLike_contains s hs]

theorem itemWhere_search (s : String) (i : Item) :
    itemWhere { search := s } i = if s = "" then true else searchClause s i := by
  by_cases h : s = "" <;> simp [itemWhere, h]

/-- C9, amended: for a search string without the characters `%`, `_` and
backslash, an item is among the rows matched by the listing for that search
exactly when it is stored and its name, its sku or its description contains
the string as a substring, case ignored. -/
theorem search_matches (s : String) (hs : ∀ c ∈ s.data, isWildcard c = false)
    (items : List Item) (i : Item) :
    i ∈ matchingItems { search := s } items ↔ i ∈ items ∧ i.mentions s := by
  rw [matchingItems, List.mem_filter, itemWhere_search]
  refine and_congr Iff.rfl ?_
  by_cases h : s = ""
  · subst h
    simp only [if_true, true_iff]
    exact Or.inl List.nil_infix
  · rw [if_neg h]
    exact searchClause_iff s hs i

theorem search_matches_witness :
    (∀ c ∈ "bol".data, isWildcard c = false) ∧
    (bolt ∈ matchingItems { search := "bol" } boltStore.items ↔
      bolt ∈ boltStore.items ∧ bolt.mentions "bol") :=
  ⟨by decide, search_matches "bol" (by decide) boltStore.items bolt⟩

/-- C9 as stated fails for a search string with a wildcard: the search `_`
lists the bolt, whose name `Bolt` and sku `S1` do not contain `_` and whose
description is unset. -/
theorem search_wildcard_counterexample :
    bolt ∈ matchingItems { search := "_" } boltStore.items ∧ ¬ bolt.mentions "_" := by
  refine ⟨by decide, ?_⟩
  rintro (h | h | ⟨d, hd, _⟩)
  · exact absurd h (by decide)
  · exact absurd h (by decide)
  · exact Option.noConfusion hd

/-! ## Idempotence of the catalog sync -/

theorem write_storeOk {V : Validators} {t t1 : List Item × List Pallet} (hw : Write V t t1)
    (h : StoreOk t.1) : StoreOk t1.1 := by
  obtain ⟨hid, hbar⟩ := h
  cases hw with
  | @itemCreate items items1 pallets newId f row hc =>
    obtain ⟨_, hitems, _, _, _, h1, _, h3, _⟩ := item_create_inv hc
    have hfresh : ∀ j ∈ items, j.id ≠ row.id := by
      intro j hj heq
      have : items.any (fun j => j.id == row.id) = true :=
        List.any_eq_true.mpr ⟨j, hj, by simp [heq]⟩
      rw [h1] at this
      exact Bool.noConfusion this
    have hfree : ∀ j ∈ items, ∀ b, row.barcode = some b → j.barcode ≠ some b := by
      intro j hj b hb heq
      have : barcodeTaken items row.barcode = true := by
        rw [hb]
        exact List.any_eq_true.mpr ⟨j, hj, by simp [heq]⟩
      rw [h3] at this
      exact Bool.noConfusion this
    simp only [hitems]
    constructor
    · intro i hi j hj hij
      simp only [List.mem_append, List.mem_singleton] at hi hj
      rcases hi with hi | rfl <;> rcases hj with hj | rfl
      · exact hid i hi j hj hij
      · exact absurd hij (hfresh i hi)
      · exact absurd hij.symm (hfresh j hj)
      · rfl
    · intro i hi j hj b hib hjb
      simp only [List.mem_append, List.mem_singleton] at hi hj
      rcases hi with hi | rfl <;> rcases hj with hj | rfl
      · exact hbar i hi j hj b hib hjb
      · exact absurd hib (hfree i hi b hjb)
      · exact absurd hjb (hfree j hj b hib)
      · rfl
  | @itemUpdate items items1 pallets item row f hu =>
    obtain ⟨_, hitems, _, _, h2, _⟩ := item_update_inv hu
    have hgid : ∀ j : Item, (if j.id = item.id then f.apply j else j).id = j.id := by
      intro j; split <;> rfl
    have hclash : ∀ i ∈ items, ∀ j ∈ items, ∀ b, i.id = item.id → j.id ≠ item.id →
        (f.apply i).barcode = some b → j.barcode = some b → False := by
      intro i hi j hj b hii hji hib hjb
      cases hf : f.barcode with
      | none =>
        have hib1 : i.barcode = some b := by simpa [ItemFields.apply, hf] using hib
        have := hbar i hi j hj b hib1 hjb
        exact hji (this ▸ hii)
      | some x =>
        have hx : x = some b := by simpa [ItemFields.apply, hf] using hib
        have htaken := h2 (by simp [hf])
        have hb2 : (f.apply item).barcode = some b := by simp [ItemFields.apply, hf, hx]
        rw [hb2] at htaken
        have : barcodeTaken (items.filter (fun j => j.id != item.id)) (some b) = true :=
          List.any_eq_true.mpr ⟨j, List.mem_filter.mpr ⟨hj, by simpa using hji⟩, by simp [hjb]⟩
        rw [htaken] at this
        exact Bool.noConfusion this
    simp only [hitems]
    constructor
    · intro i1 hi1 j1 hj1 hij
      obtain ⟨i, hi, rfl⟩ := List.mem_map.mp hi1
      obtain ⟨j, hj, rfl⟩ := List.mem_map.mp hj1
      rw [hgid, hgid] at hij
      rw [hid i hi j hj hij]
    · intro i1 hi1 j1 hj1 b hib hjb
      obtain ⟨i, hi, rfl⟩ := List.mem_map.mp hi1
      obtain ⟨j, hj, rfl⟩ := List.mem_map.mp hj1
      by_cases hii : i.id = item.id <;> by_cases hji : j.id = item.id
      · rw [hid i hi j hj (hii.trans hji.symm)]
      · simp only [hii, hji, if_true, if_false] at hib hjb
        exact (hclash i hi j hj b hii hji hib hjb).elim
      · simp only [hii, hji, if_true, if_false] at hib hjb
        exact (hclash j hj i hi b hji hii hjb hib).elim
      · simp only [hii, hji, if_false] at hib hjb ⊢
        exact hbar i hi j hj b hib hjb
  | itemDestroy =>
    exact ⟨fun i hi j hj => hid i (List.mem_of_mem_filter hi) j (List.mem_of_mem_filter hj),
      fun i hi j hj => hbar i (List.mem_of_mem_filter hi) j (List.mem_of_mem_filter hj)⟩
  | palletCreate _ => exact ⟨hid, hbar⟩
  | palletUpdate _ => exact ⟨hid, hbar⟩
  | @palletDestroy items pallets pallet =>
    have hg1 : ∀ j : Item,
        (if j.palletId = some pallet.id then { j with palletId := none } else j).id = j.id := by
      intro j; split <;> rfl
    have hg2 : ∀ j : Item,
        (if j.palletId = some pallet.id then { j with palletId := none } else j).barcode =
          j.barcode := by
      intro j; split <;> rfl
    simp only [Pallet.destroy]
    constructor
    · intro i1 hi1 j1 hj1 hij
      obtain ⟨i, hi, rfl⟩ := List.mem_map.mp hi1
      obtain ⟨j, hj, rfl⟩ := List.mem_map.mp hj1
      rw [hg1, hg1] at hij
      rw [hid i hi j hj hij]
    · intro i1 hi1 j1 hj1 b hib hjb
      obtain ⟨i, hi, rfl⟩ := List.mem_map.mp hi1
      obtain ⟨j, hj, rfl⟩ := List.mem_map.mp hj1
      rw [hg2] at hib hjb
      rw [hbar i hi j hj b hib hjb]

theorem item_update_noop {V : Validators} {items : List Item} (pallets : List Pallet)
    {t : Item} {f : ItemFields} (hok : StoreOk items) (ht : t ∈ items)
    (hv : f.violations V = []) (happ : f.apply t = t) (hsku : f.sku = none)
    (hpal : f.palletId = none) :
    Item.update V items pallets t f = .ok (t, items) := by
  obtain ⟨hid, hbar⟩ := hok
  have hfree : barcodeTaken (items.filter (fun j => j.id != t.id)) (f.apply t).barcode = false := by
    rw [happ]
    cases hb : t.barcode with
    | none => rfl
    | some b =>
      apply Bool.eq_false_iff.mpr
      intro htaken
      obtain ⟨j, hj, hjb⟩ := List.any_eq_true.mp htaken
      obtain ⟨hj1, hj2⟩ := List.mem_filter.mp hj
      have hjb1 : j.barcode = some b := by simpa using hjb
      have := hbar j hj1 t ht b hjb1 hb
      rw [this] at hj2
      simp at hj2
  have hmap : items.map (fun j => if j.id = t.id then f.apply j else j) = items := by
    conv_rhs => rw [← List.map_id items]
    apply List.map_congr_left
    intro j hj
    by_cases hjt : j.id = t.id
    · rw [if_pos hjt, hid j hj t ht hjt, happ]
      rfl
    · rw [if_neg hjt]
      rfl
  rw [happ] at hfree
  unfold Item.update
  simp only [hv, hsku, hpal, hmap, happ]
  simp [hfree]

theorem syncUpdate_sku (p : Product) (v : Variant) : (syncUpdate p v).sku = none := rfl

theorem syncUpdate_palletId (p : Product) (v : Variant) : (syncUpdate p v).palletId = none := rfl

theorem syncVariant_settled {V : Validators} (pallets : List Pallet) (gen : Nat → Id)
    {items : List Item} {p : Product} {v : Variant} (res : SyncResults)
    (hok : StoreOk items) (hs : Settled V items p v) :
    syncVariant V pallets gen p (items, res) v =
      (items, { res with updated := res.updated + 1 }) := by
  obtain ⟨t, hfind, happ, hv⟩ := hs
  have ht : t ∈ items := List.mem_of_find?_eq_some hfind
  unfold syncVariant Item.findOrCreate
  simp only [hfind, Bool.not_false, if_true,
    item_update_noop pallets hok ht hv happ (syncUpdate_sku p v) (syncUpdate_palletId p v)]

theorem syncVariant_cases (V : Validators) (pallets : List Pallet) (gen : Nat → Id)
    (p : Product) (acc : List Item × SyncResults) (v : Variant) :
    (∃ t row items1,
      acc.1.find? (fun i => i.shopifyVariantId == some (variantKey v)) = some t ∧
      Item.update V acc.1 pallets t (syncUpdate p v) = .ok (row, items1) ∧
      syncVariant V pallets gen p acc v =
        (items1, { acc.2 with updated := acc.2.updated + 1 })) ∨
    (∃ newId row items1,
      acc.1.find? (fun i => i.shopifyVariantId == some (variantKey v)) = none ∧
      Item.create V acc.1 pallets newId (syncDefaults p v) = .ok (row, items1) ∧
      syncVariant V pallets gen p acc v =
        (items1, { acc.2 with created := acc.2.created + 1 })) ∨
    (∃ e, syncVariant V pallets gen p acc v =
        (acc.1, { acc.2 with errors := acc.2.errors ++ [SyncError.mk p.id v.id e] })) := by
  unfold syncVariant Item.findOrCreate
  cases hfind : acc.1.find? (fun i => i.shopifyVariantId == some (variantKey v)) with
  | some t =>
    simp only [Bool.not_false, if_true]
    cases hup : Item.update V acc.1 pallets t (syncUpdate p v) with
    | error e => exact Or.inr (Or.inr ⟨e, rfl⟩)
    | ok r => exact Or.inl ⟨t, r.1, r.2, rfl, hup, rfl⟩
  | none =>
    simp only
    cases hcr : Item.create V acc.1 pallets
        (gen (acc.2.created + acc.2.updated + acc.2.errors.length)) (syncDefaults p v) with
    | error e => exact Or.inr (Or.inr ⟨e, rfl⟩)
    | ok r => exact Or.inr (Or.inl ⟨_, r.1, r.2, trivial, hcr, by simp⟩)

theorem syncUpdate_apply_apply (p : Product) (v : Variant) (t : Item) :
    (syncUpdate p v).apply ((syncUpdate p v).apply t) = (syncUpdate p v).apply t := rfl

theorem syncUpdate_apply_toItem (p : Product) (v : Variant) (newId : Id) :
    (syncUpdate p v).apply ((syncDefaults p v).toItem newId) = (syncDefaults p v).toItem newId :=
  rfl

theorem syncUpdate_key (p : Product) (v : Variant) (t : Item) :
    ((syncUpdate p v).apply t).shopifyVariantId = t.shopifyVariantId := rfl

theorem syncDefaults_violations {V : Validators} {p : Product} {v : Variant}
    (h : (syncDefaults p v).violations V = []) : (syncUpdate p v).violations V = [] := by
  simp only [ItemFields.violations, List.append_eq_nil] at h ⊢
  obtain ⟨⟨⟨⟨⟨⟨_, h2⟩, h3⟩, h4⟩, h5⟩, h6⟩, h7⟩ := h
  exact ⟨⟨⟨⟨⟨⟨rfl, h2⟩, h3⟩, h4⟩, h5⟩, h6⟩, h7⟩

theorem find_key_map (items : List Item) (key : String) (g : Item → Item)
    (hg : ∀ j, (g j).shopifyVariantId = j.shopifyVariantId) :
    (items.map g).find? (fun i => i.shopifyVariantId == some key) =
      (items.find? (fun i => i.shopifyVariantId == some key)).map g := by
  rw [List.find?_map]
  congr 1
  congr 1
  funext j
  simp [hg]

theorem settled_after_update {V : Validators} {items items1 : List Item} {pallets : List Pallet}
    {p : Product} {v : Variant} {t row : Item}
    (hfind : items.find? (fun i => i.shopifyVariantId == some (variantKey v)) = some t)
    (hup : Item.update V items pallets t (syncUpdate p v) = .ok (row, items1)) :
    Settled V items1 p v := by
  obtain ⟨_, hitems, hv, _⟩ := item_update_inv hup
  refine ⟨(syncUpdate p v).apply t, ?_, syncUpdate_apply_apply p v t, hv⟩
  rw [hitems, find_key_map _ _ _ (by intro j; split <;> rfl), hfind]
  simp

theorem settled_after_create {V : Validators} {items items1 : List Item} {pallets : List Pallet}
    {p : Product} {v : Variant} {newId : Id} {row : Item}
    (hfind : items.find? (fun i => i.shopifyVariantId == some (variantKey v)) = none)
    (hcr : Item.create V items pallets newId (syncDefaults p v) = .ok (row, items1)) :
    Settled V items1 p v := by
  obtain ⟨hrow, hitems, _, _, hv, _⟩ := item_create_inv hcr
  refine ⟨row, ?_, ?_, syncDefaults_violations hv⟩
  · rw [hitems, List.find?_append, hfind, hrow]
    simp [ItemFields.toItem, syncDefaults]
  · rw [hrow]
    exact syncUpdate_apply_toItem p v newId

theorem settled_kept_update {V : Validators} {items items1 : List Item} {pallets : List Pallet}
    {p q : Product} {v w : Variant} {t row : Item} (hok : StoreOk items)
    (hfind : items.find? (fun i => i.shopifyVariantId == some (variantKey v)) = some t)
    (hup : Item.update V items pallets t (syncUpdate p v) = .ok (row, items1))
    (hne : variantKey w ≠ variantKey v) (hs : Settled V items q w) :
    Settled V items1 q w := by
  obtain ⟨_, hitems, _, _⟩ := item_update_inv hup
  obtain ⟨u, hu, happ, hv⟩ := hs
  refine ⟨u, ?_, happ, hv⟩
  have hukey : u.shopifyVariantId = some (variantKey w) := by
    simpa using List.find?_some hu
  have htkey : t.shopifyVariantId = some (variantKey v) := by
    simpa using List.find?_some hfind
  have hid : u.id ≠ t.id := by
    intro heq
    have := hok.1 u (List.mem_of_find?_eq_some hu) t (List.mem_of_find?_eq_some hfind) heq
    rw [this, htkey] at hukey
    exact hne (Option.some.inj hukey).symm
  rw [hitems, find_key_map _ _ _ (by intro j; split <;> rfl), hu]
  simp [hid]

theorem settled_kept_create {V : Validators} {items items1 : List Item} {pallets : List Pallet}
    {p q : Product} {v w : Variant} {newId : Id} {row : Item}
    (hcr : Item.create V items pallets newId (syncDefaults p v) = .ok (row, items1))
    (hs : Settled V items q w) : Settled V items1 q w := by
  obtain ⟨_, hitems, _⟩ := item_create_inv hcr
  obtain ⟨u, hu, happ, hv⟩ := hs
  refine ⟨u, ?_, happ, hv⟩
  rw [hitems, List.find?_append, hu]
  rfl

theorem syncLoop_pairs (V : Validators) (pallets : List Pallet) (gen : Nat → Id)
    (products : List Product) (acc : List Item × SyncResults) :
    syncLoop V pallets gen products acc =
      (syncPairs products).foldl (fun a pv => syncVariant V pallets gen pv.1 a pv.2) acc := by
  unfold syncLoop
  induction products generalizing acc with
  | nil => rfl
  | cons p ps ih =>
    simp only [List.foldl_cons, syncPairs, List.foldl_append, List.foldl_map]
    exact ih _

theorem writes_storeOk {V : Validators} {t t1 : List Item × List Pallet}
    (hw : Relation.ReflTransGen (Write V) t t1) (h : StoreOk t.1) : StoreOk t1.1 := by
  induction hw with
  | refl => exact h
  | tail _ hstep ih => exact write_storeOk hstep ih

theorem sync_first_run {V : Validators} (pallets : List Pallet) (gen : Nat → Id)
    (F : List (Product × Variant)) (acc : List Item × SyncResults)
    (hok : StoreOk acc.1) (hnd : (F.map (fun pv => variantKey pv.2)).Nodup)
    (herr : (F.foldl (fun a pv => syncVariant V pallets gen pv.1 a pv.2) acc).2.errors = []) :
    StoreOk (F.foldl (fun a pv => syncVariant V pallets gen pv.1 a pv.2) acc).1 ∧
    (∀ pv ∈ F,
      Settled V (F.foldl (fun a pv => syncVariant V pallets gen pv.1 a pv.2) acc).1 pv.1 pv.2) ∧
    (∀ q w, Settled V acc.1 q w → variantKey w ∉ F.map (fun pv => variantKey pv.2) →
      Settled V (F.foldl (fun a pv => syncVariant V pallets gen pv.1 a pv.2) acc).1 q w) ∧
    acc.2.errors = [] := by
  induction F generalizing acc with
  | nil => exact ⟨hok, fun pv h => absurd h (List.not_mem_nil pv), fun q w h _ => h, herr⟩
  | cons pv F ih =>
    simp only [List.foldl_cons] at herr ⊢
    simp only [List.map_cons, List.nodup_cons] at hnd
    have hok1 : StoreOk (syncVariant V pallets gen pv.1 acc pv.2).1 :=
      writes_storeOk (syncVariant_writes V pallets gen pv.1 acc pv.2) hok
    obtain ⟨hfin, hall, hkeep, herr1⟩ := ih _ hok1 hnd.2 herr
    have hstep : Settled V (syncVariant V pallets gen pv.1 acc pv.2).1 pv.1 pv.2 ∧
        (∀ q w, Settled V acc.1 q w → variantKey w ≠ variantKey pv.2 →
          Settled V (syncVariant V pallets gen pv.1 acc pv.2).1 q w) ∧
        acc.2.errors = [] := by
      rcases syncVariant_cases V pallets gen pv.1 acc pv.2 with
        ⟨t, row, items1, hfind, hup, heq⟩ | ⟨newId, row, items1, hfind, hcr, heq⟩ | ⟨e, heq⟩
      · rw [heq] at herr1 ⊢
        exact ⟨settled_after_update hfind hup,
          fun q w hs hne => settled_kept_update hok hfind hup hne hs, herr1⟩
      · rw [heq] at herr1 ⊢
        exact ⟨settled_after_create hfind hcr,
          fun q w hs _ => settled_kept_create hcr hs, herr1⟩
      · rw [heq] at herr1
        simp at herr1
    obtain ⟨hnow, hkeep1, herr0⟩ := hstep
    refine ⟨hfin, ?_, ?_, herr0⟩
    · intro pv1 hpv1
      rcases List.mem_cons.mp hpv1 with rfl | hmem
      · exact hkeep _ _ hnow hnd.1
      · exact hall pv1 hmem
    · intro q w hs hnot
      simp only [List.map_cons, List.mem_cons, not_or] at hnot
      exact hkeep q w (hkeep1 q w hs hnot.1) hnot.2

theorem sync_second_run {V : Validators} (pallets : List Pallet) (gen : Nat → Id)
    (F : List (Product × Variant)) (items : List Item) (res : SyncResults)
    (hok : StoreOk items) (hs : ∀ pv ∈ F, Settled V items pv.1 pv.2) :
    F.foldl (fun a pv => syncVariant V pallets gen pv.1 a pv.2) (items, res) =
      (items, { res with updated := res.updated + F.length }) := by
  induction F generalizing res with
  | nil => rfl
  | cons pv F ih =>
    rw [List.foldl_cons,
      syncVariant_settled pallets gen res hok (hs pv (List.mem_cons_self pv F)),
      ih _ (fun pv1 h => hs pv1 (List.mem_cons_of_mem pv h))]
    simp only [List.length_cons, Prod.mk.injEq, true_and]
    congr 1
    omega

theorem syncLoop_idempotent {V : Validators} (pallets : List Pallet) (gen1 gen2 : Nat → Id)
    (products : List Product) (items : List Item) (hok : StoreOk items)
    (hnd : ((syncPairs products).map (fun pv => variantKey pv.2)).Nodup)
    (herr : (syncLoop V pallets gen1 products (items, ⟨0, 0, []⟩)).2.errors = []) :
    syncLoop V pallets gen2 products
        ((syncLoop V pallets gen1 products (items, ⟨0, 0, []⟩)).1, ⟨0, 0, []⟩) =
      ((syncLoop V pallets gen1 products (items, ⟨0, 0, []⟩)).1,
        ⟨0, (syncPairs products).length, []⟩) := by
  rw [syncLoop_pairs] at herr
  obtain ⟨hfin, hall, _, _⟩ := sync_first_run pallets gen1 (syncPairs products) _ hok hnd herr
  rw [syncLoop_pairs V pallets gen2, syncLoop_pairs V pallets gen1,
    sync_second_run pallets gen2 (syncPairs products) _ _ hfin hall]
  simp

theorem shopifySync_ok_inv {V : Validators} {s : State} {r : Req} {now : Int} {gen : Nat → Id}
    {products : List Product} {res : SyncResults}
    (h : (shopifySync V s r now true gen (some products)).response =
      ⟨200, .sync "Shopify sync completed" res⟩) :
    ∃ e, r.email = some e ∧ V.isEmail e = true ∧
      res = (syncLoop V s.pallets gen products (s.items, ⟨0, 0, []⟩)).2 ∧
      (shopifySync V s r now true gen (some products)).state.items =
        (syncLoop V s.pallets gen products (s.items, ⟨0, 0, []⟩)).1 ∧
      (shopifySync V s r now true gen (some products)).state.pallets = s.pallets := by
  unfold shopifySync at h ⊢
  simp only [Bool.not_true, Bool.false_eq_true, if_false] at h ⊢
  cases h2 : Log.create V s.logs now "SHOPIFY_SYNC" "System" none r
      (.sync (syncLoop V s.pallets gen products (s.items, ⟨0, 0, []⟩)).2) with
  | error err =>
    simp only [h2] at h
    simp at h
  | ok logs =>
    obtain ⟨e, hm, hv, _⟩ := log_create_inv h2
    simp only [h2] at h ⊢
    simp only [Response.mk.injEq, Body.sync.injEq, true_and] at h
    exact ⟨e, hm, hv, h.symm, rfl, rfl⟩

/-- C5, amended: for a store in which the primary key and the unique barcode
hold, and a feed whose variant ids are pairwise distinct, when the first sync
answers 200 and reports no errors, a second sync with the same feed leaves the
table of items as it is (it creates no item and changes no attribute of any
item) and reports `created = 0`, every variant counted as updated and no
errors. -/
theorem sync_idempotent (V : Validators) (s : State) (r : Req) (now1 now2 : Int)
    (gen1 gen2 : Nat → Id) (products : List Product) (res1 : SyncResults)
    (hok : StoreOk s.items)
    (hnd : ((syncPairs products).map (fun pv => variantKey pv.2)).Nodup)
    (hfirst : (shopifySync V s r now1 true gen1 (some products)).response =
      ⟨200, .sync "Shopify sync completed" res1⟩)
    (herr : res1.errors = []) :
    (shopifySync V (shopifySync V s r now1 true gen1 (some products)).state r now2 true gen2
        (some products)).state.items =
      (shopifySync V s r now1 true gen1 (some products)).state.items ∧
    (shopifySync V (shopifySync V s r now1 true gen1 (some products)).state r now2 true gen2
        (some products)).response =
      ⟨200, .sync "Shopify sync completed" ⟨0, (syncPairs products).length, []⟩⟩ := by
  obtain ⟨e, hm, hv, hres, hitems, hpallets⟩ := shopifySync_ok_inv hfirst
  rw [hres] at herr
  have hloop := syncLoop_idempotent s.pallets gen1 gen2 products s.items hok hnd herr
  generalize shopifySync V s r now1 true gen1 (some products) = out at hitems hpallets ⊢
  unfold shopifySync
  simp only [Bool.not_true, Bool.false_eq_true, if_false, hitems, hpallets, hloop,
    log_create_ok V _ _ _ _ _ _ _ e hm hv]
  simp [State.emit]

theorem sync_idempotent_witness :
    StoreOk boltStore.items ∧
    ((syncPairs feed).map (fun pv => variantKey pv.2)).Nodup ∧
    (shopifySync V0 boltStore alice 7 true gen0 (some feed)).response =
      ⟨200, .sync "Shopify sync completed" ⟨2, 0, []⟩⟩ ∧
    (shopifySync V0 (shopifySync V0 boltStore alice 7 true gen0 (some feed)).state alice 8 true
        gen0 (some feed)).state.items =
      (shopifySync V0 boltStore alice 7 true gen0 (some feed)).state.items ∧
    (shopifySync V0 (shopifySync V0 boltStore alice 7 true gen0 (some feed)).state alice 8 true
        gen0 (some feed)).response =
      ⟨200, .sync "Shopify sync completed" ⟨0, (syncPairs feed).length, []⟩⟩ :=
  have hok : StoreOk boltStore.items := by simp [StoreOk, boltStore]
  ⟨hok, by decide, by decide,
   sync_idempotent V0 boltStore alice 7 8 gen0 gen0 feed ⟨2, 0, []⟩ hok (by decide) (by decide)
     rfl⟩

/-- C5 as stated fails: the scanner holds the barcode `B1`; the feed has a new
variant with barcode `B1` and then the variant of the scanner with barcode
`B2`.  The first sync reports an error for the new variant and updates the
scanner; the second sync, with the same feed, creates the new variant and
reports `created = 1`. -/
theorem sync_second_run_creates :
    (shopifySync V0 scannerStore alice 7 true gen0 (some feed)).response =
      ⟨200, .sync "Shopify sync completed"
        ⟨0, 1, [SyncError.mk 1 1 (StoreError.unique "barcode")]⟩⟩ ∧
    (shopifySync V0 (shopifySync V0 scannerStore alice 7 true gen0 (some feed)).state alice 8
        true gen0 (some feed)).response =
      ⟨200, .sync "Shopify sync completed" ⟨1, 1, []⟩⟩ ∧
    (shopifySync V0 scannerStore alice 7 true gen0 (some feed)).state.items.length = 1 ∧
    (shopifySync V0 (shopifySync V0 scannerStore alice 7 true gen0 (some feed)).state alice 8
        true gen0 (some feed)).state.items.length = 2 := by
  decide

/-- The first sync of a feed that repeats variant ids may report no errors and
the second sync still change an item: the distinct variant ids of the amended
C5 cannot be dropped. -/
theorem sync_repeated_variant_drifts :
    (shopifySync V0 State.empty alice 7 true gen0 (some repeatedFeed)).response =
      ⟨200, .sync "Shopify sync completed" ⟨3, 3, []⟩⟩ ∧
    (shopifySync V0 State.empty alice 7 true gen0 (some repeatedFeed)).state.items.map
      (fun i => i.barcode) = [some "b", some "b3", some "b2"] ∧
    (shopifySync V0 (shopifySync V0 State.empty alice 7 true gen0 (some repeatedFeed)).state
      alice 8 true gen0 (some repeatedFeed)).state.items.map
      (fun i => i.barcode) = [some "bx", some "b3", some "b2"] := by
  decide

theorem reachable_storeOk (V : Validators) (s : State) (hs : Reachable V s) :
    StoreOk s.items := by
  induction hs with
  | empty => exact ⟨fun i hi => absurd hi (List.not_mem_nil i),
      fun i hi => absurd hi (List.not_mem_nil i)⟩
  | step r now op _ ih => exact writes_storeOk (step_writes V _ r now op) ih

/-! ## Retention cleanup -/

theorem mem_destroy_logs (logs : List Log) (cutoff : Int) (l : Log) :
    l ∈ (Log.destroy logs cutoff).2 ↔ l ∈ logs ∧ cutoff ≤ l.createdAt := by
  simp [Log.destroy, List.mem_filter]

/-- C11: the cleanup deletes all and only the rows older than the cutoff: the
rows left of those present before are exactly those with `createdAt` at or
after the cutoff, and the count deleted is the number of rows with `createdAt`
before it.  For a caller whose email the audit log accepts the handler answers
200 with that count, and the log is the rows left followed by exactly one new
`LOG_CLEANUP` row: written after the deletion, it stays whatever its date. -/
theorem cleanup_purges (V : Validators) (s : State) (r : Req) (now days : Int) :
    (∀ l, l ∈ (Log.destroy s.logs (cutoffDate now days)).2 ↔
      l ∈ s.logs ∧ cutoffDate now days ≤ l.createdAt) ∧
    (Log.destroy s.logs (cutoffDate now days)).1 =
      s.logs.countP (fun l => l.createdAt < cutoffDate now days) ∧
    ∀ e, r.email = some e → V.isEmail e = true →
      cleanup V s r now days =
        ⟨{ s with logs := s.logs.filter (fun l => cutoffDate now days ≤ l.createdAt) ++
            [Log.mk "LOG_CLEANUP" "System" none e
              (.cleanup (s.logs.countP (fun l => l.createdAt < cutoffDate now days)) days
                (cutoffDate now days)) r.ip r.userAgent now] },
          200, .cleanup (s.logs.countP (fun l => l.createdAt < cutoffDate now days))⟩ := by
  refine ⟨mem_destroy_logs s.logs _, ?_, ?_⟩
  · simp [Log.destroy, List.countP_eq_length_filter]
  · intro e hm hv
    have hf : s.logs.filter (fun l => !decide (l.createdAt < cutoffDate now days)) =
        s.logs.filter (fun l => decide (cutoffDate now days ≤ l.createdAt)) := by
      congr 1
      funext l
      by_cases h : l.createdAt < cutoffDate now days
      · simp [h, not_le.mpr h]
      · simp [h, not_lt.mp h]
    simp only [cleanup, Log.destroy, log_create_ok V _ _ _ _ _ _ _ e hm hv,
      List.countP_eq_length_filter, hf]


theorem cleanup_purges_witness :
    alice.email = some "alice@example.com" ∧ V0.isEmail "alice@example.com" = true ∧
    cleanup V0 logStore alice 9000000001 90 =
      ⟨⟨[], [], [recentRow, Log.mk "LOG_CLEANUP" "System" none "alice@example.com"
          (.cleanup 1 90 1224000001) none none 9000000001], []⟩, 200, .cleanup 1⟩ :=
  ⟨rfl, by decide,
   ((cleanup_purges V0 logStore alice 9000000001 90).2.2 "alice@example.com" rfl
     (by decide)).trans (by decide)⟩

/-! ## Assignment and removal -/

theorem palletExists_of_find {pallets : List Pallet} {id : Id} {pallet : Pallet}
    (h : Pallet.findByPk pallets id = some pallet) : palletExists pallets (some pallet.id) = true := by
  simp only [palletExists, List.any_eq_true, beq_iff_eq]
  exact ⟨pallet, List.mem_of_find?_eq_some h, rfl⟩

theorem item_update_link (V : Validators) (items : List Item) (pallets : List Pallet)
    (item : Item) (o : Option Id) (ho : palletExists pallets o = true) :
    Item.update V items pallets item { palletId := some o } =
      .ok ({ item with palletId := o },
           items.map (fun j => if j.id = item.id then { j with palletId := o } else j)) := by
  simp [Item.update, ItemFields.violations, checkRequired, checkMin, ItemFields.apply, ho]

theorem assignItem_items (V : Validators) (s : State) (r : Req) (now : Int) (id itemId : Id)
    (pallet : Pallet) (item : Item)
    (hp : Pallet.findByPk s.pallets id = some pallet)
    (hi : Item.findByPk s.items itemId = some item) :
    (assignItem V s r now id itemId).state.items =
      s.items.map (fun j => if j.id = itemId then { j with palletId := some id } else j) ∧
    (assignItem V s r now id itemId).state.pallets = s.pallets := by
  have hpid := pallet_findByPk_id hp
  have hiid := item_findByPk_id hi
  simp only [assignItem, hp, hi,
    item_update_link V s.items s.pallets item (some pallet.id) (palletExists_of_find hp)]
  cases Log.create V s.logs now "ASSIGN_ITEM" "Pallet" (some pallet.id) r
      (.link pallet.id item.id) <;> simp [State.emit, hpid, hiid]

theorem removeItem_items (V : Validators) (s : State) (r : Req) (now : Int) (id itemId : Id)
    (item : Item) (hi : Item.findByPk s.items itemId = some item) :
    (removeItem V s r now id itemId).state.items =
      s.items.map (fun j => if j.id = itemId then { j with palletId := none } else j) ∧
    (removeItem V s r now id itemId).state.pallets = s.pallets := by
  have hiid := item_findByPk_id hi
  simp only [removeItem, hi, item_update_link V s.items s.pallets item none rfl]
  cases Log.create V s.logs now "REMOVE_ITEM" "Pallet" (some id) r (.link id item.id) <;>
    simp [State.emit, hiid]

/-- C12: for a stored pallet `p` and a stored item `i`, after `assignItem(p, i)`
the item is stored with `palletId = p` and all its other attributes as before;
after a following `removeItem(p, i)` it is stored with `palletId` unset and all
its other attributes as before; the table of pallets is the same throughout.
This holds whoever the callers are. -/
theorem assign_remove_round_trip (V : Validators) (s : State) (r r1 : Req) (now now1 : Int)
    (p i : Id) (pallet : Pallet) (item : Item)
    (hp : Pallet.findByPk s.pallets p = some pallet)
    (hi : Item.findByPk s.items i = some item) :
    Item.findByPk (assignItem V s r now p i).state.items i =
      some { item with palletId := some p } ∧
    Item.findByPk (removeItem V (assignItem V s r now p i).state r1 now1 p i).state.items i =
      some { item with palletId := none } ∧
    (removeItem V (assignItem V s r now p i).state r1 now1 p i).state.items =
      s.items.map (fun j => if j.id = i then { j with palletId := none } else j) ∧
    (assignItem V s r now p i).state.pallets = s.pallets ∧
    (removeItem V (assignItem V s r now p i).state r1 now1 p i).state.pallets = s.pallets := by
  obtain ⟨ha, hap⟩ := assignItem_items V s r now p i pallet item hp hi
  have hfa : Item.findByPk (assignItem V s r now p i).state.items i =
      some { item with palletId := some p } := by
    rw [ha, item_findByPk_map _ _ _ (by intro j; split <;> rfl), hi]
    simp [item_findByPk_id hi]
  obtain ⟨hr, hrp⟩ := removeItem_items V (assignItem V s r now p i).state r1 now1 p i _ hfa
  refine ⟨hfa, ?_, ?_, hap, hrp.trans hap⟩
  · rw [hr, item_findByPk_map _ _ _ (by intro j; split <;> rfl), hfa]
    simp [item_findByPk_id hi]
  · rw [hr, ha, List.map_map]
    apply List.map_congr_left
    intro j _
    by_cases hj : j.id = i <;> simp [hj]

theorem assign_remove_round_trip_witness :
    Pallet.findByPk yardStore.pallets "p1" = some rack ∧
    Item.findByPk yardStore.items "i1" = some bolt ∧
    Item.findByPk (assignItem V0 yardStore alice 7 "p1" "i1").state.items "i1" =
      some { bolt with palletId := some "p1" } ∧
    Item.findByPk
      (removeItem V0 (assignItem V0 yardStore alice 7 "p1" "i1").state alice 8 "p1" "i1").state.items
      "i1" = some { bolt with palletId := none } :=
  have h := assign_remove_round_trip V0 yardStore alice alice 7 8 "p1" "i1" rack bolt
    (by decide) (by decide)
  ⟨by decide, by decide, h.1, h.2.1⟩

/-! ## Requests on missing records -/

/-- C17: a request addressed to a missing record answers 404 and the state is
the state before (items, pallets, audit log and events): `updateItem`,
`deleteItem`, `adjustQuantity`, `removeItem` and `assignItem` for a missing
item, `updatePallet`, `deletePallet` and `assignItem` for a missing pallet. -/
theorem missing_record_not_found (V : Validators) (s : State) (r : Req) (now : Int) (id : Id) :
    (Item.findByPk s.items id = none →
      (∀ body, updateItem V s r now id body = ⟨s, 404, .error "Item not found"⟩) ∧
      deleteItem V s r now id = ⟨s, 404, .error "Item not found"⟩ ∧
      (∀ amount operation,
        adjustQuantity V s r now id amount operation = ⟨s, 404, .error "Item not found"⟩) ∧
      (∀ palletId, removeItem V s r now palletId id = ⟨s, 404, .error "Item not found"⟩) ∧
      (∀ palletId pallet, Pallet.findByPk s.pallets palletId = some pallet →
        assignItem V s r now palletId id = ⟨s, 404, .error "Item not found"⟩)) ∧
    (Pallet.findByPk s.pallets id = none →
      (∀ body, updatePallet V s r now id body = ⟨s, 404, .error "Pallet not found"⟩) ∧
      deletePallet V s r now id = ⟨s, 404, .error "Pallet not found"⟩ ∧
      (∀ itemId, assignItem V s r now id itemId = ⟨s, 404, .error "Pallet not found"⟩)) := by
  constructor
  · intro h
    refine ⟨fun _ => by simp [updateItem, h], by simp [deleteItem, h],
      fun _ _ => by simp [adjustQuantity, h], fun _ => by simp [removeItem, h], ?_⟩
    intro palletId pallet hp
    simp [assignItem, h, hp]
  · intro h
    exact ⟨fun _ => by simp [updatePallet, h], by simp [deletePallet, h],
      fun _ => by simp [assignItem, h]⟩

theorem missing_record_not_found_witness :
    Item.findByPk boltStore.items "ghost" = none ∧
    Pallet.findByPk boltStore.pallets "ghost" = none ∧
    deleteItem V0 boltStore alice 7 "ghost" = ⟨boltStore, 404, .error "Item not found"⟩ ∧
    deletePallet V0 boltStore alice 7 "ghost" = ⟨boltStore, 404, .error "Pallet not found"⟩ :=
  have h := missing_record_not_found V0 boltStore alice 7 "ghost"
  ⟨by decide, by decide, (h.1 (by decide)).2.1, (h.2 (by decide)).2.1⟩

/-! ## Unique sku -/

theorem write_distinct {V : Validators} {t t1 : List Item × List Pallet} (hw : Write V t t1)
    (h : Distinct t.1) : Distinct t1.1 := by
  obtain ⟨hid, hsku⟩ := h
  cases hw with
  | @itemCreate items items1 pallets newId f row hc =>
    obtain ⟨_, hitems, _, _, _, h1, h2, _, _⟩ := item_create_inv hc
    simp only [hitems, Distinct, List.map_append, List.map_cons, List.map_nil]
    constructor
    · refine List.Nodup.append hid (List.nodup_singleton _) ?_
      intro x hx hx1
      obtain ⟨j, hj, rfl⟩ := List.mem_map.mp hx
      have hx2 : j.id = row.id := List.mem_singleton.mp hx1
      have : items.any (fun j => j.id == row.id) = true :=
        List.any_eq_true.mpr ⟨j, hj, by simp [hx2]⟩
      rw [h1] at this
      exact Bool.noConfusion this
    · refine List.Nodup.append hsku (List.nodup_singleton _) ?_
      intro x hx hx1
      obtain ⟨j, hj, rfl⟩ := List.mem_map.mp hx
      have hx2 : j.sku = row.sku := List.mem_singleton.mp hx1
      have : items.any (fun j => j.sku == row.sku) = true :=
        List.any_eq_true.mpr ⟨j, hj, by simp [hx2]⟩
      rw [h2] at this
      exact Bool.noConfusion this
  | @itemUpdate items items1 pallets item row f hu =>
    obtain ⟨_, hitems, hv, h1, _, _⟩ := item_update_inv hu
    have hgid : ∀ j : Item, (if j.id = item.id then f.apply j else j).id = j.id := by
      intro j; split <;> rfl
    have hnull : f.sku ≠ some none := by
      intro hn
      simp [ItemFields.violations, hn, checkRequired] at hv
    simp only [hitems, Distinct, List.map_map]
    constructor
    · have : ((fun i : Item => i.id) ∘ fun j => if j.id = item.id then f.apply j else j) =
          fun i => i.id := by
        funext j
        exact hgid j
      rw [this]
      exact hid
    · simp only [List.Nodup, List.pairwise_map] at hid hsku ⊢
      refine List.Pairwise.imp_of_mem ?_ (hid.and hsku)
      intro a b ha hb hab
      obtain ⟨hne, hsk⟩ := hab
      simp only [Function.comp]
      have hother : ∀ x y : Item, x ∈ items → y ∈ items → x.id = item.id → y.id ≠ item.id →
          x.sku ≠ y.sku → (f.apply x).sku ≠ y.sku := by
        intro x y _ hy hx hyn hxy
        cases hf : f.sku with
        | none => simpa [ItemFields.apply, hf] using hxy
        | some o =>
          cases o with
          | none => exact absurd hf hnull
          | some c =>
            have hfree := h1 (by simp [hf])
            have hc1 : (f.apply item).sku = c := by simp [ItemFields.apply, hf]
            have hc2 : (f.apply x).sku = c := by simp [ItemFields.apply, hf]
            rw [hc1] at hfree
            rw [hc2]
            intro heq
            have : (items.filter (fun j => j.id != item.id)).any (fun j => j.sku == c) = true :=
              List.any_eq_true.mpr
                ⟨y, List.mem_filter.mpr ⟨hy, by simpa using hyn⟩, by simp [heq]⟩
            rw [hfree] at this
            exact Bool.noConfusion this
      by_cases ha1 : a.id = item.id <;> by_cases hb1 : b.id = item.id
      · exact absurd (ha1.trans hb1.symm) hne
      · simp only [ha1, hb1, if_true, if_false]
        exact hother a b ha hb ha1 hb1 hsk
      · simp only [ha1, hb1, if_true, if_false]
        exact fun heq => hother b a hb ha hb1 ha1 (fun e => hsk e.symm) heq.symm
      · simpa only [ha1, hb1, if_false] using hsk
  | itemDestroy =>
    exact ⟨hid.sublist ((List.filter_sublist _).map _), hsku.sublist ((List.filter_sublist _).map _)⟩
  | palletCreate _ => exact ⟨hid, hsku⟩
  | palletUpdate _ => exact ⟨hid, hsku⟩
  | @palletDestroy items pallets pallet =>
    have e1 : ((fun i : Item => i.id) ∘
        fun i => if i.palletId = some pallet.id then { i with palletId := none } else i) =
        fun i => i.id := by
      funext j
      simp only [Function.comp]
      split <;> rfl
    have e2 : ((fun i : Item => i.sku) ∘
        fun i => if i.palletId = some pallet.id then { i with palletId := none } else i) =
        fun i => i.sku := by
      funext j
      simp only [Function.comp]
      split <;> rfl
    simp only [Pallet.destroy, Distinct, List.map_map, e1, e2]
    exact ⟨hid, hsku⟩

theorem writes_distinct {V : Validators} {t t1 : List Item × List Pallet}
    (hw : Relation.ReflTransGen (Write V) t t1) (h : Distinct t.1) : Distinct t1.1 := by
  induction hw with
  | refl => exact h
  | tail _ hstep ih => exact write_distinct hstep ih

theorem reachable_distinct (V : Validators) (s : State) (hs : Reachable V s) :
    Distinct s.items := by
  induction hs with
  | empty => exact ⟨List.nodup_nil, List.nodup_nil⟩
  | step r now op _ ih => exact writes_distinct (step_writes V _ r now op) ih

/-- C13: creating an item with a sku some stored item has answers 400 with the
error thrown and the state is the state before (no item, no audit row, no
event); when the body is valid otherwise and the id is new, the error is the
violation of the unique sku.  And in every state reached from the empty store
no two stored items have the same sku. -/
theorem duplicate_sku_rejected (V : Validators) :
    (∀ (s : State) (r : Req) (now : Int) (newId : Id) (body : ItemFields) (item : Item),
      item ∈ s.items → body.sku = some (some item.sku) →
      (∃ e, createItem V s r now newId body = ⟨s, 400, .thrown e⟩) ∧
      (body.name ≠ none → body.violations V = [] →
        s.items.any (fun j => j.id == newId) = false →
        createItem V s r now newId body = ⟨s, 400, .thrown (.unique "sku")⟩)) ∧
    ∀ s, Reachable V s → (s.items.map (fun i => i.sku)).Nodup := by
  refine ⟨?_, fun s hs => (reachable_distinct V s hs).2⟩
  intro s r now newId body item hmem hsku
  have hclash : s.items.any (fun j => j.sku == (body.toItem newId).sku) = true :=
    List.any_eq_true.mpr ⟨item, hmem, by simp [ItemFields.toItem, hsku]⟩
  constructor
  · unfold createItem Item.create
    simp only [hclash]
    split_ifs <;> exact ⟨_, rfl⟩
  · intro hname hv hid
    have hid1 : s.items.any (fun j => j.id == (body.toItem newId).id) = false := hid
    unfold createItem Item.create
    simp [hsku, hname, hv, hid1, hclash]

theorem duplicate_sku_rejected_witness :
    bolt ∈ boltStore.items ∧ boltBody.sku = some (some bolt.sku) ∧
    createItem V0 boltStore alice 7 "i9" boltBody =
      ⟨boltStore, 400, .thrown (.unique "sku")⟩ ∧
    Reachable V0 (run V0 alice 7 State.empty rackTrace) ∧
    ((run V0 alice 7 State.empty rackTrace).items.map (fun i => i.sku)).Nodup :=
  have h := duplicate_sku_rejected V0
  ⟨by decide, rfl,
   (h.1 boltStore alice 7 "i9" boltBody bolt (by decide) rfl).2 (by decide) (by decide)
     (by decide),
   run_reachable V0 alice 7 _ _ Reachable.empty,
   h.2 _ (run_reachable V0 alice 7 _ _ Reachable.empty)⟩

/-! ## Validation of a new item -/

theorem checkMin_neg (field : String) (n : Int) (h : n < 0) : checkMin field (some n) = [field] := by
  simp [checkMin, h]

theorem negative_violations (V : Validators) (f : ItemFields) (h : f.negative) :
    f.violations V ≠ [] := by
  intro hv
  obtain ⟨h1, h2, _, h4, h5⟩ := violations_nil hv
  rcases h with ⟨n, hn, hlt⟩ | ⟨n, hn, hlt⟩ | ⟨n, hn, hlt⟩ | ⟨n, hn, hlt⟩
  · exact absurd (h1 n hn) (not_le.mpr hlt)
  · exact absurd (h2 n hn) (not_le.mpr hlt)
  · exact absurd (h4 n hn) (not_le.mpr hlt)
  · exact absurd (h5 n hn) (not_le.mpr hlt)

/-- C14: a body in which `quantity`, `minQuantity`, `price` or `cost` is
negative makes `createItem` answer 400 with a validation error, and the state
is the state before (no item stored, no audit row); and when `createItem`
succeeds, the item it stored has each of the four equal to the value of the
body, 0 when the body omits it, and none of them negative. -/
theorem createItem_validates (V : Validators) (s : State) (r : Req) (now : Int) (newId : Id)
    (body : ItemFields) :
    (body.negative →
      ∃ fields, fields ≠ [] ∧
        createItem V s r now newId body = ⟨s, 400, .thrown (.validation fields)⟩) ∧
    ((createItem V s r now newId body).response.success = true →
      ∃ item, (createItem V s r now newId body).state.items = s.items ++ [item] ∧
        item.quantity = body.quantity.getD 0 ∧ item.minQuantity = body.minQuantity.getD 0 ∧
        item.price = body.price.getD 0 ∧ item.cost = body.cost.getD 0 ∧
        0 ≤ item.quantity ∧ 0 ≤ item.minQuantity ∧ 0 ≤ item.price ∧ 0 ≤ item.cost) := by
  constructor
  · intro hneg
    have hv := negative_violations V body hneg
    refine ⟨(if body.sku = none then ["sku"] else []) ++
      (if body.name = none then ["name"] else []) ++ body.violations V, ?_, ?_⟩
    · simp [hv]
    · unfold createItem Item.create
      simp [hv]
  · intro hsucc
    obtain ⟨item, items, e, h1, _, _, heq⟩ := createItem_ok_inv hsucc
    obtain ⟨hrow, hitems, _, _, hv, _⟩ := item_create_inv h1
    have hnn := toItem_nonNeg newId hv
    rw [← hrow] at hnn
    refine ⟨item, by rw [heq, hitems], ?_, ?_, ?_, ?_, hnn.1, hnn.2.1, hnn.2.2.1, hnn.2.2.2.1⟩ <;>
      rw [hrow] <;> rfl

theorem createItem_validates_witness :
    negativeBody.negative ∧
    (∃ fields, fields ≠ [] ∧
      createItem V0 State.empty alice 7 "i9" negativeBody =
        ⟨State.empty, 400, .thrown (.validation fields)⟩) ∧
    (createItem V0 State.empty alice 7 "i1" boltBody).response.success = true ∧
    (∃ item, (createItem V0 State.empty alice 7 "i1" boltBody).state.items =
        State.empty.items ++ [item] ∧
      item.quantity = boltBody.quantity.getD 0 ∧ item.minQuantity = boltBody.minQuantity.getD 0 ∧
      item.price = boltBody.price.getD 0 ∧ item.cost = boltBody.cost.getD 0 ∧
      0 ≤ item.quantity ∧ 0 ≤ item.minQuantity ∧ 0 ≤ item.price ∧ 0 ≤ item.cost) :=
  have hneg : negativeBody.negative := Or.inl ⟨-1, rfl, by decide⟩
  ⟨hneg, (createItem_validates V0 State.empty alice 7 "i9" negativeBody).1 hneg, by decide,
   (createItem_validates V0 State.empty alice 7 "i1" boltBody).2 (by decide)⟩

/-! ## The authentication gate -/

/-- C15: the gate lets a request through exactly when it carries a token that
verifies under the portal secret or under the internal secret.  The portal
secret is tried first and the first success supplies `req.user`, with which
the handler runs; without a token the answer is 401, with a token that fails
under both secrets it is 403, and in both cases the handler does not run: the
state is untouched. -/
theorem gate_accepts_iff (jwt : String → String → Option Claims) (env : Secrets)
    (a : AuthRequest) (s : State) (handler : Claims → Result) :
    (orNull (finalToken a) = none →
      authenticateToken jwt env a = .denied 401 "Access denied. No token provided." ∧
      guarded jwt env a s handler = ⟨s, 401, .error "Access denied. No token provided."⟩) ∧
    (∀ t, orNull (finalToken a) = some t →
      (∀ d, jwt t env.LEAUTOTECH_JWT_SECRET = some d →
        authenticateToken jwt env a = .next d ∧ guarded jwt env a s handler = handler d) ∧
      (jwt t env.LEAUTOTECH_JWT_SECRET = none → ∀ d, jwt t env.JWT_SECRET = some d →
        authenticateToken jwt env a = .next d ∧ guarded jwt env a s handler = handler d) ∧
      (jwt t env.LEAUTOTECH_JWT_SECRET = none → jwt t env.JWT_SECRET = none →
        authenticateToken jwt env a = .denied 403 "Invalid or expired token." ∧
        guarded jwt env a s handler = ⟨s, 403, .error "Invalid or expired token."⟩)) ∧
    ((∃ user, authenticateToken jwt env a = .next user) ↔
      ∃ t, orNull (finalToken a) = some t ∧
        ((jwt t env.LEAUTOTECH_JWT_SECRET).isSome = true ∨
          (jwt t env.JWT_SECRET).isSome = true)) := by
  refine ⟨?_, ?_, ?_⟩
  · intro h
    simp [guarded, authenticateToken, h]
  · intro t h
    refine ⟨?_, ?_, ?_⟩
    · intro d hd
      simp [guarded, authenticateToken, h, hd]
    · intro h1 d hd
      simp [guarded, authenticateToken, h, h1, hd]
    · intro h1 h2
      simp [guarded, authenticateToken, h, h1, h2]
  · unfold authenticateToken
    cases h : orNull (finalToken a) with
    | none => simp
    | some t =>
      cases h1 : jwt t env.LEAUTOTECH_JWT_SECRET with
      | some d => simp [h1]
      | none =>
        cases h2 : jwt t env.JWT_SECRET with
        | some d => simp [h1, h2]
        | none => simp [h1, h2]

theorem gate_accepts_iff_witness :
    orNull (finalToken ⟨some "Bearer internal.alice", none⟩) = some "internal.alice" ∧
    jwt0 "internal.alice" env0.LEAUTOTECH_JWT_SECRET = none ∧
    jwt0 "internal.alice" env0.JWT_SECRET = some ⟨some "alice@example.com"⟩ ∧
    authenticateToken jwt0 env0 ⟨some "Bearer internal.alice", none⟩ =
      .next ⟨some "alice@example.com"⟩ :=
  ⟨by decide, by decide, by decide,
   (((gate_accepts_iff jwt0 env0 ⟨some "Bearer internal.alice", none⟩ State.empty
      (fun _ => ⟨State.empty, 200, .message ""⟩)).2.1 "internal.alice" (by decide)).2.1
      (by decide) ⟨some "alice@example.com"⟩ (by decide)).1⟩

theorem verify_uses_internal_secret (jwt : String → String → Option Claims) (env : Secrets)
    (t : String) (ht : t ≠ "") :
    authVerify jwt env (some t) =
      match jwt t env.JWT_SECRET with
      | none => (401, .error "Invalid or expired token")
      | some decoded => (200, .valid decoded) := by
  simp only [authVerify, orNull, ht, if_false, verifyToken]

/-- C16, at its failing input: a token that verifies under the portal secret,
and that the gate lets through, is answered 401 "Invalid or expired token" by
`POST /api/auth/verify`, whose helper verifies under the internal secret
only. -/
theorem verify_rejects_portal_token :
    jwt0 "portal.alice" env0.LEAUTOTECH_JWT_SECRET = some ⟨some "alice@example.com"⟩ ∧
    authenticateToken jwt0 env0 ⟨some "Bearer portal.alice", none⟩ =
      .next ⟨some "alice@example.com"⟩ ∧
    authVerify jwt0 env0 (some "portal.alice") = (401, .error "Invalid or expired token") := by
  decide

/-! ## Statistics -/

/-- C18: the statistics sent are those of the specification: the number of
items, the number of active items, the number of items with
`quantity ≤ minQuantity` and the sum of `price` over the active items, which is
0 when no item is active; and the state after the request is the state
before. -/
theorem getStats_eq_spec (s : State) :
    getStats s = (s, statsSpec s.items) ∧
    ((∀ i ∈ s.items, i.status ≠ ItemStatus.active) → (getStats s).2.totalValue = 0) := by
  have hsum : (Item.sum s.items (fun i => i.status == ItemStatus.active)).getD 0 =
      ((s.items.filter (fun i => i.status = ItemStatus.active)).map (fun i => i.price)).sum := by
    unfold Item.sum
    have : s.items.filter (fun i => i.status == ItemStatus.active) =
        s.items.filter (fun i => decide (i.status = ItemStatus.active)) := by
      congr 1
    rw [this]
    cases hf : s.items.filter (fun i => decide (i.status = ItemStatus.active)) <;> simp
  have heq : getStats s = (s, statsSpec s.items) := by
    simp only [getStats, statsSpec, Item.count, hsum, List.countP_eq_length_filter,
      List.filter_true]
    congr
  refine ⟨heq, ?_⟩
  intro hnone
  rw [heq]
  simp only [statsSpec]
  have : s.items.filter (fun i => decide (i.status = ItemStatus.active)) = [] := by
    apply List.filter_eq_nil_iff.mpr
    intro i hi
    simpa using hnone i hi
  rw [this]
  rfl

theorem getStats_eq_spec_witness :
    (∀ i ∈ ([{ bolt with status := ItemStatus.inactive, price := 250 }] : List Item),
      i.status ≠ ItemStatus.active) ∧
    (getStats ⟨[{ bolt with status := ItemStatus.inactive, price := 250 }], [], [], []⟩).2 =
      ⟨1, 0, 0, 0⟩ :=
  ⟨by decide,
   (congrArg Prod.snd (getStats_eq_spec
     ⟨[{ bolt with status := ItemStatus.inactive, price := 250 }], [], [], []⟩).1).trans
     (by decide)⟩

/-! ## Accounting of the catalog sync -/

theorem syncPairs_length (products : List Product) :
    (syncPairs products).length = (products.map (fun p => p.variants.length)).sum := by
  induction products with
  | nil => rfl
  | cons p ps ih => simp [syncPairs, ih]

theorem sync_count {V : Validators} (pallets : List Pallet) (gen : Nat → Id)
    (F : List (Product × Variant)) (acc : List Item × SyncResults) :
    (F.foldl (fun a pv => syncVariant V pallets gen pv.1 a pv.2) acc).2.created +
      (F.foldl (fun a pv => syncVariant V pallets gen pv.1 a pv.2) acc).2.updated +
      (F.foldl (fun a pv => syncVariant V pallets gen pv.1 a pv.2) acc).2.errors.length =
    acc.2.created + acc.2.updated + acc.2.errors.length + F.length := by
  induction F generalizing acc with
  | nil => rfl
  | cons pv F ih =>
    rw [List.foldl_cons, ih]
    rcases syncVariant_cases V pallets gen pv.1 acc pv.2 with
      ⟨_, _, _, _, _, heq⟩ | ⟨_, _, _, _, _, heq⟩ | ⟨_, heq⟩ <;>
      rw [heq] <;> simp only [List.length_cons, List.length_append, List.length_nil] <;> omega

theorem sync_errors {V : Validators} (pallets : List Pallet) (gen : Nat → Id)
    (F : List (Product × Variant)) (acc : List Item × SyncResults) (e : SyncError)
    (he : e ∈ (F.foldl (fun a pv => syncVariant V pallets gen pv.1 a pv.2) acc).2.errors) :
    e ∈ acc.2.errors ∨
    ∃ F1 p v F2, F = F1 ++ (p, v) :: F2 ∧ e.productId = p.id ∧ e.variantId = v.id ∧
      syncVariant V pallets gen p
          (F1.foldl (fun a pv => syncVariant V pallets gen pv.1 a pv.2) acc) v =
        ((F1.foldl (fun a pv => syncVariant V pallets gen pv.1 a pv.2) acc).1,
         { (F1.foldl (fun a pv => syncVariant V pallets gen pv.1 a pv.2) acc).2 with
           errors := (F1.foldl (fun a pv => syncVariant V pallets gen pv.1 a pv.2) acc).2.errors
             ++ [e] }) := by
  induction F generalizing acc with
  | nil => exact Or.inl he
  | cons pv F ih =>
    rw [List.foldl_cons] at he
    rcases ih _ he with h | ⟨F1, p, v, F2, hF, hp, hv, hstep⟩
    · rcases syncVariant_cases V pallets gen pv.1 acc pv.2 with
        ⟨_, _, _, _, _, heq⟩ | ⟨_, _, _, _, _, heq⟩ | ⟨err, heq⟩
      · rw [heq] at h
        exact Or.inl h
      · rw [heq] at h
        exact Or.inl h
      · rw [heq] at h
        simp only [List.mem_append, List.mem_singleton] at h
        rcases h with h | h
        · exact Or.inl h
        · right
          refine ⟨[], pv.1, pv.2, F, rfl, ?_, ?_, ?_⟩
          · rw [h]
          · rw [h]
          · rw [h]
            exact heq
    · right
      exact ⟨pv :: F1, p, v, F2, by rw [hF]; rfl, hp, hv, hstep⟩

/-- C19: after the pass of the sync, `created + updated + ` the number of
entries of `errors` is the number of variants over all products of the feed,
so the variants after a failing one are handled too; each entry of `errors`
carries the product id and the variant id of a variant of the feed whose
upsert threw, on the table as the variants before it left it, the error of the
entry; and a 200 answer reports the results of that pass. -/
theorem sync_accounts_for_every_variant (V : Validators) (s : State) (r : Req) (now : Int)
    (gen : Nat → Id) (products : List Product) :
    (syncLoop V s.pallets gen products (s.items, ⟨0, 0, []⟩)).2.created +
      (syncLoop V s.pallets gen products (s.items, ⟨0, 0, []⟩)).2.updated +
      (syncLoop V s.pallets gen products (s.items, ⟨0, 0, []⟩)).2.errors.length =
      (products.map (fun p => p.variants.length)).sum ∧
    (∀ e ∈ (syncLoop V s.pallets gen products (s.items, ⟨0, 0, []⟩)).2.errors,
      ∃ F1 p v F2, syncPairs products = F1 ++ (p, v) :: F2 ∧
        e.productId = p.id ∧ e.variantId = v.id ∧
        UpsertFails V s.pallets gen p (syncRun V s.pallets gen F1 (s.items, ⟨0, 0, []⟩)) v e) ∧
    ∀ res, (shopifySync V s r now true gen (some products)).response =
        ⟨200, .sync "Shopify sync completed" res⟩ →
      res = (syncLoop V s.pallets gen products (s.items, ⟨0, 0, []⟩)).2 := by
  refine ⟨?_, ?_, ?_⟩
  · rw [syncLoop_pairs, sync_count, syncPairs_length]
    simp
  · rw [syncLoop_pairs]
    intro e he
    rcases sync_errors s.pallets gen _ _ e he with h | h
    · simp at h
    · exact h
  · intro res hres
    obtain ⟨_, _, _, h, _⟩ := shopifySync_ok_inv hres
    exact h

theorem sync_accounts_for_every_variant_witness :
    SyncError.mk 1 1 (StoreError.unique "barcode") ∈
      (syncLoop V0 scannerStore.pallets gen0 feed (scannerStore.items, ⟨0, 0, []⟩)).2.errors ∧
    (syncLoop V0 scannerStore.pallets gen0 feed (scannerStore.items, ⟨0, 0, []⟩)).2 =
      ⟨0, 1, [SyncError.mk 1 1 (StoreError.unique "barcode")]⟩ ∧
    ∃ F1 p v F2, syncPairs feed = F1 ++ (p, v) :: F2 ∧
      (SyncError.mk 1 1 (StoreError.unique "barcode")).productId = p.id ∧
      (SyncError.mk 1 1 (StoreError.unique "barcode")).variantId = v.id ∧
      UpsertFails V0 scannerStore.pallets gen0 p
        (syncRun V0 scannerStore.pallets gen0 F1 (scannerStore.items, ⟨0, 0, []⟩)) v
        (SyncError.mk 1 1 (StoreError.unique "barcode")) :=
  ⟨by decide, by decide,
   (sync_accounts_for_every_variant V0 scannerStore alice 7 gen0 feed).2.1 _ (by decide)⟩

/-! ## What the catalog sync leaves alone -/

theorem foldl_invariant {α β : Type} (P : β → Prop) (f : β → α → β) (l : List α) (b : β)
    (h0 : P b) (hstep : ∀ b a, a ∈ l → P b → P (f b a)) : P (l.foldl f b) := by
  induction l generalizing b with
  | nil => exact h0
  | cons a l ih =>
    exact ih (f b a) (hstep b a (List.mem_cons_self a l) h0)
      (fun b1 a1 ha1 => hstep b1 a1 (List.mem_cons_of_mem a ha1))

theorem forall₂_map_right_of_mem {α β : Type} {R S : α → β → Prop} {g : β → β} :
    ∀ {l : List α} {u : List β}, List.Forall₂ R l u →
      (∀ i j, j ∈ u → R i j → S i (g j)) → List.Forall₂ S l (u.map g) := by
  intro l u h
  induction h with
  | nil => intro _; exact List.Forall₂.nil
  | cons hab _ ih =>
    intro H
    exact List.Forall₂.cons (H _ _ (List.mem_cons_self _ _) hab)
      (ih (fun i j hj => H i j (List.mem_cons_of_mem _ hj)))

theorem sameInternal_refl (i : Item) : SameInternal i i :=
  ⟨rfl, rfl, rfl, rfl, rfl, rfl, rfl, rfl, rfl, rfl, rfl, rfl⟩

theorem sameInternal_apply (p : Product) (v : Variant) {i j : Item} (h : SameInternal i j) :
    SameInternal i ((syncUpdate p v).apply j) := h

theorem forall₂_refl_same (products : List Product) (items : List Item) :
    List.Forall₂ (fun i j => SameInternal i j ∧ (Unmatched products i → j = i)) items items := by
  induction items with
  | nil => exact List.Forall₂.nil
  | cons a l ih => exact List.Forall₂.cons ⟨sameInternal_refl a, fun _ => rfl⟩ ih

theorem sync_frame_step {V : Validators} (pallets : List Pallet) (gen : Nat → Id)
    (products : List Product) (items : List Item) (acc : List Item × SyncResults)
    (pv : Product × Variant) (hpv : pv ∈ syncPairs products)
    (h : StoreOk acc.1 ∧ ∃ olds created, acc.1 = olds ++ created ∧
      List.Forall₂ (fun i j => SameInternal i j ∧ (Unmatched products i → j = i)) items olds) :
    StoreOk (syncVariant V pallets gen pv.1 acc pv.2).1 ∧
    ∃ olds created, (syncVariant V pallets gen pv.1 acc pv.2).1 = olds ++ created ∧
      List.Forall₂ (fun i j => SameInternal i j ∧ (Unmatched products i → j = i)) items olds := by
  obtain ⟨hok, olds, created, hacc, hrel⟩ := h
  refine ⟨writes_storeOk (syncVariant_writes V pallets gen pv.1 acc pv.2) hok, ?_⟩
  rcases syncVariant_cases V pallets gen pv.1 acc pv.2 with
    ⟨t, row, items1, hfind, hup, heq⟩ | ⟨newId, row, items1, _, hcr, heq⟩ | ⟨e, heq⟩
  · obtain ⟨_, hitems, _⟩ := item_update_inv hup
    have htmem : t ∈ acc.1 := List.mem_of_find?_eq_some hfind
    have htkey : t.shopifyVariantId = some (variantKey pv.2) := by
      simpa using List.find?_some hfind
    refine ⟨olds.map (fun j => if j.id = t.id then (syncUpdate pv.1 pv.2).apply j else j),
      created.map (fun j => if j.id = t.id then (syncUpdate pv.1 pv.2).apply j else j), ?_, ?_⟩
    · rw [heq, hitems, hacc, List.map_append]
    · refine forall₂_map_right_of_mem hrel ?_
      intro i j hj hij
      obtain ⟨hsame, hun⟩ := hij
      by_cases hid : j.id = t.id
      · rw [if_pos hid]
        refine ⟨sameInternal_apply pv.1 pv.2 hsame, ?_⟩
        intro hu
        exfalso
        have hji := hun hu
        have hjmem : j ∈ acc.1 := by rw [hacc]; exact List.mem_append_left _ hj
        have := hok.1 j hjmem t htmem hid
        rw [hji] at this
        exact hu pv hpv (this ▸ htkey)
      · rw [if_neg hid]
        exact ⟨hsame, hun⟩
  · obtain ⟨_, hitems, _⟩ := item_create_inv hcr
    exact ⟨olds, created ++ [row], by rw [heq, hitems, hacc, List.append_assoc], hrel⟩
  · exact ⟨olds, created, by rw [heq, hacc], hrel⟩

theorem sync_frame_loop (V : Validators) (pallets : List Pallet) (gen : Nat → Id)
    (products : List Product) (items : List Item) (hok : StoreOk items) :
    ∃ olds created,
      (syncLoop V pallets gen products (items, ⟨0, 0, []⟩)).1 = olds ++ created ∧
      List.Forall₂ (fun i j => SameInternal i j ∧ (Unmatched products i → j = i)) items olds := by
  rw [syncLoop_pairs]
  have := foldl_invariant
    (fun acc : List Item × SyncResults => StoreOk acc.1 ∧ ∃ olds created,
      acc.1 = olds ++ created ∧
      List.Forall₂ (fun i j => SameInternal i j ∧ (Unmatched products i → j = i)) items olds)
    (fun a pv => syncVariant V pallets gen pv.1 a pv.2) (syncPairs products) (items, ⟨0, 0, []⟩)
    ⟨hok, items, [], by simp, forall₂_refl_same products items⟩
    (fun acc pv hpv h => sync_frame_step pallets gen products items acc pv hpv h)
  exact this.2

/-- C20: after a sync, on a store in which the primary key and the unique
barcode hold, the table of items is the items of before, in their order,
followed by the items created; each item of before keeps its `id`, `sku`,
`location` and `palletId` and every attribute other than `name`, `description`,
`price`, `quantity`, `imageUrl` and `barcode`, and an item that no variant of
the feed is looked up by is unchanged altogether.  The pallets are
unchanged. -/
theorem sync_is_additive (V : Validators) (s : State) (r : Req) (now : Int)
    (configured : Bool) (gen : Nat → Id) (feed : Option (List Product))
    (hok : StoreOk s.items) :
    (∃ olds created,
      (shopifySync V s r now configured gen feed).state.items = olds ++ created ∧
      List.Forall₂ (fun i j => SameInternal i j ∧ (Unmatched (feed.getD []) i → j = i))
        s.items olds) ∧
    (shopifySync V s r now configured gen feed).state.pallets = s.pallets := by
  have hsame : ∃ olds created, s.items = olds ++ created ∧
      List.Forall₂ (fun i j => SameInternal i j ∧ (Unmatched (feed.getD []) i → j = i))
        s.items olds :=
    ⟨s.items, [], by simp, forall₂_refl_same _ s.items⟩
  unfold shopifySync
  cases configured with
  | false => exact ⟨hsame, rfl⟩
  | true =>
    cases feed with
    | none => exact ⟨hsame, rfl⟩
    | some products =>
      have hloop := sync_frame_loop V s.pallets gen products s.items hok
      simp only [Bool.not_true, Bool.false_eq_true, if_false]
      cases Log.create V s.logs now "SHOPIFY_SYNC" "System" none r
          (.sync (syncLoop V s.pallets gen products (s.items, ⟨0, 0, []⟩)).2) <;>
        exact ⟨hloop, rfl⟩

theorem sync_is_additive_witness :
    StoreOk scannerStore.items ∧
    (∃ olds created,
      (shopifySync V0 scannerStore alice 7 true gen0 (some feed)).state.items = olds ++ created ∧
      List.Forall₂ (fun i j => SameInternal i j ∧ (Unmatched feed i → j = i))
        scannerStore.items olds) ∧
    (shopifySync V0 scannerStore alice 7 true gen0 (some feed)).state.items =
      [{ scanner with barcode := some "B2", price := 200 }] :=
  have hok : StoreOk scannerStore.items := by simp [StoreOk, scannerStore]
  ⟨hok, (sync_is_additive V0 scannerStore alice 7 true gen0 (some feed) hok).1, by decide⟩

/-! ## Pushing a quantity to the catalog -/

theorem pushQuantityTraced_fst (V : Validators) (s : State) (r : Req) (now : Int) (id : Id)
    (quantity : Option Int) (configured : Bool) (remote : Remote) :
    (pushQuantityTraced V s r now id quantity configured remote).1 =
      pushQuantity V s r now id quantity configured remote := by
  unfold pushQuantityTraced pushQuantity
  cases Item.findByPk s.items id with
  | none => rfl
  | some item =>
    simp only
    cases hv : orNull item.shopifyVariantId with
    | none => simp
    | some variantId =>
      cases configured
      · simp
      cases remote
      case done =>
        simp only [Option.isNone_some, Bool.false_eq_true, if_false, Bool.not_true, ne_eq,
          not_true_eq_false]
        cases Item.update V s.items s.pallets item { quantity := quantity } with
        | error err => rfl
        | ok res =>
          simp only
          cases Log.create V s.logs now "SHOPIFY_INVENTORY_UPDATE" "Item" (some res.1.id) r
              (.push res.1.id quantity) <;> rfl
      all_goals simp

/-- C21: pushing a quantity to the catalog leaves the local record alone unless
every remote call succeeded.  The traced handler answers as the handler does.
For an item without a variant id it answers 400 and makes no remote call.
Whenever one of the three remote calls fails, the whole state (the item with
all its fields, the audit log) is as before, the response is not a success,
and neither the write to the item nor the audit row was attempted.  A write to
the item is attempted only when the remote sequence is done, and then only
after the calls fetch variant, list locations, set level, in that order; and
the table of items differs after the request only if the remote sequence is
done. -/
theorem pushQuantity_atomic (V : Validators) (s : State) (r : Req) (now : Int) (id : Id)
    (quantity : Option Int) (configured : Bool) (remote : Remote) :
    (pushQuantityTraced V s r now id quantity configured remote).1 =
      pushQuantity V s r now id quantity configured remote ∧
    (∀ item, Item.findByPk s.items id = some item → orNull item.shopifyVariantId = none →
      pushQuantityTraced V s r now id quantity configured remote =
        (⟨s, 400, .error "Item not linked to Shopify"⟩, [])) ∧
    (remote ≠ Remote.done →
      (pushQuantity V s r now id quantity configured remote).state = s ∧
      (pushQuantity V s r now id quantity configured remote).response.success = false ∧
      Effect.updateItem quantity ∉
        (pushQuantityTraced V s r now id quantity configured remote).2 ∧
      Effect.createLog ∉ (pushQuantityTraced V s r now id quantity configured remote).2) ∧
    (∀ q, Effect.updateItem q ∈ (pushQuantityTraced V s r now id quantity configured remote).2 →
      remote = Remote.done ∧
      ∃ variantId rest,
        (pushQuantityTraced V s r now id quantity configured remote).2 =
          [.getVariant variantId, .getLocations, .setLevel quantity, .updateItem quantity]
            ++ rest) ∧
    ((pushQuantity V s r now id quantity configured remote).state.items ≠ s.items →
      remote = Remote.done) := by
  refine ⟨pushQuantityTraced_fst V s r now id quantity configured remote, ?_, ?_, ?_, ?_⟩
  · intro item hi hv
    simp [pushQuantityTraced, hi, hv]
  · intro hr
    rw [← pushQuantityTraced_fst]
    unfold pushQuantityTraced
    cases Item.findByPk s.items id with
    | none => simp [Response.success]
    | some item =>
      simp only
      cases orNull item.shopifyVariantId with
      | none => simp [Response.success]
      | some variantId =>
        cases configured
        · simp [Response.success]
        cases remote
        case done => exact absurd rfl hr
        all_goals simp [Response.success]
  · intro q
    unfold pushQuantityTraced
    cases Item.findByPk s.items id with
    | none => simp
    | some item =>
      simp only
      cases orNull item.shopifyVariantId with
      | none => simp
      | some variantId =>
        cases configured
        · simp
        cases remote
        case done =>
          intro _
          refine ⟨rfl, variantId, ?_⟩
          simp only [Bool.not_true, Bool.false_eq_true, if_false]
          cases Item.update V s.items s.pallets item { quantity := quantity } with
          | error err => exact ⟨[], rfl⟩
          | ok res =>
            simp only
            cases Log.create V s.logs now "SHOPIFY_INVENTORY_UPDATE" "Item" (some res.1.id) r
                (.push res.1.id quantity) <;> exact ⟨[.createLog], rfl⟩
        all_goals simp
  · intro hne
    by_contra hr
    apply hne
    unfold pushQuantity
    cases Item.findByPk s.items id with
    | none => rfl
    | some item =>
      simp only
      split
      · rfl
      split
      · rfl
      simp [hr]

theorem pushQuantity_atomic_witness :
    pushQuantityTraced V0 boltStore alice 0 "i1" (some 9) true Remote.done =
      (⟨boltStore, 400, .error "Item not linked to Shopify"⟩, []) ∧
    (pushQuantity V0 linkedStore alice 0 "i1" (some 9) true Remote.setFails).state =
      linkedStore ∧
    (pushQuantityTraced V0 linkedStore alice 0 "i1" (some 9) true Remote.setFails).2 =
      [.getVariant "42", .getLocations, .setLevel (some 9)] ∧
    (pushQuantityTraced V0 linkedStore alice 0 "i1" (some 9) true Remote.done).2 =
      [.getVariant "42", .getLocations, .setLevel (some 9), .updateItem (some 9), .createLog] ∧
    (Item.findByPk (pushQuantity V0 linkedStore alice 0 "i1" (some 9) true
      Remote.done).state.items "i1").map (fun i => i.quantity) = some 9 :=
  ⟨(pushQuantity_atomic V0 boltStore alice 0 "i1" (some 9) true Remote.done).2.1 bolt
     (by decide) (by decide),
   ((pushQuantity_atomic V0 linkedStore alice 0 "i1" (some 9) true Remote.setFails).2.2.1
     (by decide)).1,
   by decide, by decide, by decide⟩


/-! ## Names given by the catalog sync -/

/-- C22: the name the sync derives from a product titled `T` and a variant
titled `V` is `T` when `V` is `Default Title` and `T ++ " - " ++ V` otherwise;
the defaults of the create path and the values of the update path both carry
that name, so the row a create inserts and the row an update writes have it. -/
theorem sync_name_derivation (V : Validators) (p : Product) (v : Variant) :
    (v.title = "Default Title" → syncName p v = p.title) ∧
    (v.title ≠ "Default Title" → syncName p v = p.title ++ " - " ++ v.title) ∧
    (syncDefaults p v).name = some (some (syncName p v)) ∧
    (syncUpdate p v).name = some (some (syncName p v)) ∧
    (∀ items pallets newId row items1,
      Item.create V items pallets newId (syncDefaults p v) = .ok (row, items1) →
      row.name = syncName p v) ∧
    (∀ items pallets item row items1,
      Item.update V items pallets item (syncUpdate p v) = .ok (row, items1) →
      row.name = syncName p v ∧
      ∀ j ∈ items1, j.id = item.id → j.name = syncName p v) := by
  refine ⟨?_, ?_, rfl, rfl, ?_, ?_⟩
  · intro h
    simp [syncName, h]
  · intro h
    simp [syncName, h, String.append_assoc]
  · intro items pallets newId row items1 h
    obtain ⟨hrow, _⟩ := item_create_inv h
    rw [hrow]
    rfl
  · intro items pallets item row items1 h
    obtain ⟨hrow, hitems, _⟩ := item_update_inv h
    refine ⟨by rw [hrow]; rfl, ?_⟩
    intro j hj hid
    rw [hitems] at hj
    obtain ⟨k, _, rfl⟩ := List.mem_map.mp hj
    by_cases hk : k.id = item.id
    · rw [if_pos hk]
      rfl
    · rw [if_neg hk] at hid
      exact absurd hid hk


theorem sync_name_derivation_witness :
    syncName ⟨1, "Kit", none, [], []⟩ (plainVariant 1 "A" "b") = "Kit" ∧
    syncName ⟨1, "Kit", none, [], []⟩ { plainVariant 1 "A" "b" with title := "Large" } =
      "Kit - Large" :=
  ⟨(sync_name_derivation V0 ⟨1, "Kit", none, [], []⟩ (plainVariant 1 "A" "b")).1 rfl,
   (sync_name_derivation V0 ⟨1, "Kit", none, [], []⟩
     { plainVariant 1 "A" "b" with title := "Large" }).2.1 (by decide)⟩

/-! ## The audit log only grows -/

/-- C23: for every request other than the retention cleanup, the audit log
before the request is an initial segment of the audit log after it: every row
is still there, unchanged and in place, and at most new rows follow.  The
cleanup keeps every row that is not older than its cutoff. -/
theorem audit_log_append_only (V : Validators) (s : State) (r : Req) (now : Int) (op : Op) :
    ((∀ days, op ≠ Op.cleanup days) → s.logs <+: (step V s r now op).state.logs) ∧
    (∀ days, op = Op.cleanup days →
      ∀ l ∈ s.logs, cutoffDate now days ≤ l.createdAt → l ∈ (step V s r now op).state.logs) := by
  constructor
  · intro hop
    cases op
    case cleanup days => exact absurd rfl (hop days)
    all_goals
      simp only [step, createItem, updateItem, deleteItem, adjustQuantity, createPallet,
        updatePallet, deletePallet, assignItem, removeItem, shopifySync, pushQuantity]
    all_goals repeat' split
    all_goals first
      | exact List.prefix_refl _
      | (rename_i h; obtain ⟨e, _, _, rfl⟩ := log_create_inv h
         simp only [State.emit]
         exact List.prefix_append _ _)
  · intro days hop l hl hcut
    subst hop
    have hkeep : l ∈ (Log.destroy s.logs (cutoffDate now days)).2 := by
      simp [Log.destroy, List.mem_filter, hl, hcut]
    simp only [step, cleanup]
    split
    · exact hkeep
    · rename_i h
      obtain ⟨e, _, _, rfl⟩ := log_create_inv h
      exact List.mem_append_left _ hkeep

theorem audit_log_append_only_witness :
    logStore.logs <+: (step V0 logStore alice 5 (Op.createItem "i1" boltBody)).state.logs ∧
    recentRow ∈ (step V0 logStore alice 9000000000 (Op.cleanup 90)).state.logs :=
  ⟨(audit_log_append_only V0 logStore alice 5 (Op.createItem "i1" boltBody)).1
     (fun days h => Op.noConfusion h),
   (audit_log_append_only V0 logStore alice 9000000000 (Op.cleanup 90)).2 90 rfl recentRow
     (by decide) (by decide)⟩

/-! ## Requests that do not check what they are given -/

theorem adjustQuantity_stored (V : Validators) (s : State) (r : Req) (now : Int) (id : Id)
    (amount : Int) (operation : Option String) (item : Item)
    (hi : Item.findByPk s.items id = some item)
    (hq : 0 ≤ newQuantity item.quantity amount operation) :
    (adjustQuantity V s r now id amount operation).state.items =
      s.items.map (fun j => if j.id = id then
        { j with quantity := newQuantity item.quantity amount operation } else j) ∧
    (adjustQuantity V s r now id amount operation).state.pallets = s.pallets ∧
    ∀ e, r.email = some e → V.isEmail e = true →
      (adjustQuantity V s r now id amount operation).response =
        ⟨200, .item { item with quantity := newQuantity item.quantity amount operation }⟩ := by
  have hiid := item_findByPk_id hi
  have hneg : ¬ newQuantity item.quantity amount operation < 0 := not_lt.mpr hq
  simp only [adjustQuantity, hi, hneg, if_false,
    item_update_quantity V s.items s.pallets item _ hq]
  refine ⟨?_, ?_, ?_⟩
  · cases Log.create V s.logs now "QUANTITY_UPDATE" "Item" (some item.id) r
        (.quantity item.quantity (newQuantity item.quantity amount operation) operation) <;>
      simp [State.emit, hiid]
  · cases Log.create V s.logs now "QUANTITY_UPDATE" "Item" (some item.id) r
        (.quantity item.quantity (newQuantity item.quantity amount operation) operation) <;>
      simp [State.emit]
  · intro e hm hv
    simp [log_create_ok V s.logs now _ _ _ r _ e hm hv, State.emit]

/-- C25: for a stored pallet, whatever its capacity, load and status, and a
stored item, `assignItem` by a caller with a valid email answers 200, writes
the pallet id to the `palletId` of that item and to nothing else in the table
of items, and leaves the table of pallets as it was. -/
theorem assignItem_ignores_occupancy (V : Validators) (s : State) (r : Req) (now : Int)
    (id itemId : Id) (pallet : Pallet) (item : Item) (e : String)
    (hp : Pallet.findByPk s.pallets id = some pallet)
    (hi : Item.findByPk s.items itemId = some item)
    (hmail : r.email = some e) (hvalid : V.isEmail e = true) :
    (assignItem V s r now id itemId).response =
      ⟨200, .assigned "Item assigned to pallet successfully" pallet
        { item with palletId := some id }⟩ ∧
    (assignItem V s r now id itemId).state.items =
      s.items.map (fun j => if j.id = itemId then { j with palletId := some id } else j) ∧
    (assignItem V s r now id itemId).state.pallets = s.pallets := by
  refine ⟨?_, assignItem_items V s r now id itemId pallet item hp hi⟩
  have hpid := pallet_findByPk_id hp
  simp only [assignItem, hp, hi,
    item_update_link V s.items s.pallets item (some pallet.id) (palletExists_of_find hp),
    log_create_ok V s.logs now _ _ _ r _ e hmail hvalid]
  simp [hpid]

theorem assignItem_ignores_occupancy_witness :
    fullRack.capacity ≤ fullRack.currentLoad ∧ fullRack.status = PalletStatus.full ∧
    (assignItem V0 fullStore alice 0 "p9" "i1").response =
      ⟨200, .assigned "Item assigned to pallet successfully" fullRack
        { bolt with palletId := some "p9" }⟩ ∧
    (assignItem V0 fullStore alice 0 "p9" "i1").state.items =
      fullStore.items.map (fun j => if j.id = "i1" then { j with palletId := some "p9" } else j) ∧
    (assignItem V0 fullStore alice 0 "p9" "i1").state.pallets = [fullRack] :=
  ⟨by decide, rfl,
   assignItem_ignores_occupancy V0 fullStore alice 0 "p9" "i1" fullRack bolt "alice@example.com"
     (by decide) (by decide) rfl (by decide)⟩

/-- C26: for a stored item and an operation that is neither `add` nor
`subtract` (a missing one included), the quantity computed is the amount
itself: an amount that is not negative is stored as the quantity of the item
(and answered 200 to a caller with a valid email), a negative one is answered
400 with the store untouched. -/
theorem adjustQuantity_other_operation_sets (V : Validators) (s : State) (r : Req) (now : Int)
    (id : Id) (amount : Int) (operation : Option String) (item : Item)
    (hi : Item.findByPk s.items id = some item)
    (hadd : operation ≠ some "add") (hsub : operation ≠ some "subtract") :
    newQuantity item.quantity amount operation = amount ∧
    (0 ≤ amount →
      (adjustQuantity V s r now id amount operation).state.items =
        s.items.map (fun j => if j.id = id then { j with quantity := amount } else j) ∧
      ∀ e, r.email = some e → V.isEmail e = true →
        (adjustQuantity V s r now id amount operation).response =
          ⟨200, .item { item with quantity := amount }⟩) ∧
    (amount < 0 →
      adjustQuantity V s r now id amount operation =
        ⟨s, 400, .error "Quantity cannot be negative"⟩) := by
  have hnew : newQuantity item.quantity amount operation = amount := by
    simp [newQuantity, hadd, hsub]
  refine ⟨hnew, ?_, ?_⟩
  · intro h0
    have h := adjustQuantity_stored V s r now id amount operation item hi (by rw [hnew]; exact h0)
    rw [hnew] at h
    exact ⟨h.1, h.2.2⟩
  · intro hneg
    simp [adjustQuantity, hi, hnew, hneg]

theorem adjustQuantity_other_operation_sets_witness :
    newQuantity bolt.quantity 7 (some "ad") = 7 ∧
    (0 ≤ (7 : Int) →
      (adjustQuantity V0 boltStore alice 0 "i1" 7 (some "ad")).state.items =
        boltStore.items.map (fun j => if j.id = "i1" then { j with quantity := 7 } else j) ∧
      ∀ e, alice.email = some e → V0.isEmail e = true →
        (adjustQuantity V0 boltStore alice 0 "i1" 7 (some "ad")).response =
          ⟨200, .item { bolt with quantity := 7 }⟩) ∧
    ((7 : Int) < 0 →
      adjustQuantity V0 boltStore alice 0 "i1" 7 (some "ad") =
        ⟨boltStore, 400, .error "Quantity cannot be negative"⟩) :=
  adjustQuantity_other_operation_sets V0 boltStore alice 0 "i1" 7 (some "ad") bolt
    (by decide) (by decide) (by decide)

/-- C27: for a stored item and any pallet id in the request, `removeItem` by a
caller with a valid email answers 200, clears the `palletId` of the item, leaves
the pallets alone, and appends one `REMOVE_ITEM` row whose `entityId` and
`details.palletId` are the id of the request. -/
theorem removeItem_ignores_pallet (V : Validators) (s : State) (r : Req) (now : Int)
    (id itemId : Id) (item : Item) (e : String)
    (hi : Item.findByPk s.items itemId = some item)
    (hmail : r.email = some e) (hvalid : V.isEmail e = true) :
    (removeItem V s r now id itemId).response =
      ⟨200, .message "Item removed from pallet successfully"⟩ ∧
    (removeItem V s r now id itemId).state.items =
      s.items.map (fun j => if j.id = itemId then { j with palletId := none } else j) ∧
    (removeItem V s r now id itemId).state.pallets = s.pallets ∧
    (removeItem V s r now id itemId).state.logs =
      s.logs ++ [Log.mk "REMOVE_ITEM" "Pallet" (some id) e (.link id itemId)
        r.ip r.userAgent now] := by
  have hiid := item_findByPk_id hi
  have h := removeItem_items V s r now id itemId item hi
  refine ⟨?_, h.1, h.2, ?_⟩
  all_goals
    simp only [removeItem, hi, item_update_link V s.items s.pallets item none rfl,
      log_create_ok V s.logs now _ _ _ r _ e hmail hvalid]
  all_goals simp [State.emit, hiid]

theorem removeItem_ignores_pallet_witness :
    Pallet.findByPk rackStore.pallets "p2" = none ∧
    (Item.findByPk rackStore.items "i1").map (fun i => i.palletId) = some (some "p1") ∧
    (removeItem V0 rackStore alice 0 "p2" "i1").response =
      ⟨200, .message "Item removed from pallet successfully"⟩ ∧
    (removeItem V0 rackStore alice 0 "p2" "i1").state.items =
      rackStore.items.map (fun j => if j.id = "i1" then { j with palletId := none } else j) ∧
    (removeItem V0 rackStore alice 0 "p2" "i1").state.pallets = rackStore.pallets ∧
    (removeItem V0 rackStore alice 0 "p2" "i1").state.logs =
      rackStore.logs ++ [Log.mk "REMOVE_ITEM" "Pallet" (some "p2") "alice@example.com"
        (.link "p2" "i1") alice.ip alice.userAgent 0] :=
  ⟨by decide, by decide,
   removeItem_ignores_pallet V0 rackStore alice 0 "p2" "i1" { bolt with palletId := some "p1" }
     "alice@example.com" (by decide) rfl (by decide)⟩

/-! ## Adding and subtracting -/

theorem newQuantity_add (q n : Int) : newQuantity q n (some "add") = q + n := by
  simp [newQuantity]

theorem newQuantity_subtract (q n : Int) : newQuantity q n (some "subtract") = q - n := by
  simp [newQuantity]

/-- C29: for a stored item with quantity `q` and `0 ≤ n ≤ q`, subtracting `n`
and then adding `n`, by callers with valid emails, are both answered 200 and
the item is stored as it was.  For every integer `m`, adding `m` and
subtracting `-m` give the same response, the same tables and the same events;
both are answered 400 with the store untouched when `q + m < 0`, and otherwise
each appends one audit row, the two rows differing only in the operation they
record. -/
theorem subtract_add_inverse (V : Validators) (s : State) (r r1 : Req) (now now1 : Int)
    (id : Id) (item : Item) (n : Int) (e e1 : String)
    (hi : Item.findByPk s.items id = some item)
    (h0 : 0 ≤ n) (hn : n ≤ item.quantity)
    (hmail : r.email = some e) (hvalid : V.isEmail e = true)
    (hmail1 : r1.email = some e1) (hvalid1 : V.isEmail e1 = true) :
    (adjustQuantity V s r now id n (some "subtract")).response =
      ⟨200, .item { item with quantity := item.quantity - n }⟩ ∧
    (adjustQuantity V (adjustQuantity V s r now id n (some "subtract")).state r1 now1 id n
      (some "add")).response = ⟨200, .item item⟩ ∧
    Item.findByPk (adjustQuantity V (adjustQuantity V s r now id n (some "subtract")).state
      r1 now1 id n (some "add")).state.items id = some item ∧
    ∀ m : Int,
      (adjustQuantity V s r now id m (some "add")).response =
        (adjustQuantity V s r now id (-m) (some "subtract")).response ∧
      (adjustQuantity V s r now id m (some "add")).state.items =
        (adjustQuantity V s r now id (-m) (some "subtract")).state.items ∧
      (adjustQuantity V s r now id m (some "add")).state.pallets =
        (adjustQuantity V s r now id (-m) (some "subtract")).state.pallets ∧
      (adjustQuantity V s r now id m (some "add")).state.events =
        (adjustQuantity V s r now id (-m) (some "subtract")).state.events ∧
      (item.quantity + m < 0 →
        adjustQuantity V s r now id m (some "add") =
          ⟨s, 400, .error "Quantity cannot be negative"⟩ ∧
        adjustQuantity V s r now id (-m) (some "subtract") =
          ⟨s, 400, .error "Quantity cannot be negative"⟩) ∧
      (0 ≤ item.quantity + m →
        (adjustQuantity V s r now id m (some "add")).state.logs =
          s.logs ++ [Log.mk "QUANTITY_UPDATE" "Item" (some id) e
            (.quantity item.quantity (item.quantity + m) (some "add")) r.ip r.userAgent now] ∧
        (adjustQuantity V s r now id (-m) (some "subtract")).state.logs =
          s.logs ++ [Log.mk "QUANTITY_UPDATE" "Item" (some id) e
            (.quantity item.quantity (item.quantity + m) (some "subtract"))
            r.ip r.userAgent now]) := by
  have hiid := item_findByPk_id hi
  have hq1 : 0 ≤ newQuantity item.quantity n (some "subtract") := by
    rw [newQuantity_subtract]; omega
  have hs1 := adjustQuantity_stored V s r now id n (some "subtract") item hi hq1
  rw [newQuantity_subtract] at hs1
  have hi1 : Item.findByPk (adjustQuantity V s r now id n (some "subtract")).state.items id =
      some { item with quantity := item.quantity - n } := by
    rw [hs1.1, item_findByPk_map _ _ _ (by intro j; split <;> rfl), hi]
    simp [hiid]
  have hq2 : 0 ≤ newQuantity (item.quantity - n) n (some "add") := by
    rw [newQuantity_add]; omega
  have hs2 := adjustQuantity_stored V _ r1 now1 id n (some "add") _ hi1 hq2
  have hback : newQuantity (item.quantity - n) n (some "add") = item.quantity := by
    rw [newQuantity_add]; omega
  simp only [hback] at hs2
  refine ⟨hs1.2.2 e hmail hvalid, hs2.2.2 e1 hmail1 hvalid1, ?_, ?_⟩
  · rw [hs2.1, item_findByPk_map _ _ _ (by intro j; split <;> rfl), hi1]
    subst hiid
    simp
  · intro m
    have hsub : item.quantity - -m = item.quantity + m := by omega
    by_cases hneg : item.quantity + m < 0
    · have h0 : ¬ 0 ≤ item.quantity + m := by omega
      simp [adjustQuantity, hi, newQuantity_add, newQuantity_subtract, hsub, hneg, h0]
    · have hq : 0 ≤ item.quantity + m := by omega
      simp [adjustQuantity, hi, newQuantity_add, newQuantity_subtract, hsub, hneg, hq,
        item_update_quantity V s.items s.pallets item _ hq,
        log_create_ok V s.logs now _ _ _ r _ e hmail hvalid, State.emit, hiid]

theorem subtract_add_inverse_witness :
    (adjustQuantity V0 boltStore alice 0 "i1" 3 (some "subtract")).response =
      ⟨200, .item { bolt with quantity := bolt.quantity - 3 }⟩ ∧
    (adjustQuantity V0 (adjustQuantity V0 boltStore alice 0 "i1" 3 (some "subtract")).state
      alice 1 "i1" 3 (some "add")).response = ⟨200, .item bolt⟩ ∧
    Item.findByPk (adjustQuantity V0
      (adjustQuantity V0 boltStore alice 0 "i1" 3 (some "subtract")).state
      alice 1 "i1" 3 (some "add")).state.items "i1" = some bolt ∧
    ∀ m : Int,
      (adjustQuantity V0 boltStore alice 0 "i1" m (some "add")).response =
        (adjustQuantity V0 boltStore alice 0 "i1" (-m) (some "subtract")).response ∧
      (adjustQuantity V0 boltStore alice 0 "i1" m (some "add")).state.items =
        (adjustQuantity V0 boltStore alice 0 "i1" (-m) (some "subtract")).state.items ∧
      (adjustQuantity V0 boltStore alice 0 "i1" m (some "add")).state.pallets =
        (adjustQuantity V0 boltStore alice 0 "i1" (-m) (some "subtract")).state.pallets ∧
      (adjustQuantity V0 boltStore alice 0 "i1" m (some "add")).state.events =
        (adjustQuantity V0 boltStore alice 0 "i1" (-m) (some "subtract")).state.events ∧
      (bolt.quantity + m < 0 →
        adjustQuantity V0 boltStore alice 0 "i1" m (some "add") =
          ⟨boltStore, 400, .error "Quantity cannot be negative"⟩ ∧
        adjustQuantity V0 boltStore alice 0 "i1" (-m) (some "subtract") =
          ⟨boltStore, 400, .error "Quantity cannot be negative"⟩) ∧
      (0 ≤ bolt.quantity + m →
        (adjustQuantity V0 boltStore alice 0 "i1" m (some "add")).state.logs =
          boltStore.logs ++ [Log.mk "QUANTITY_UPDATE" "Item" (some "i1") "alice@example.com"
            (.quantity bolt.quantity (bolt.quantity + m) (some "add"))
            alice.ip alice.userAgent 0] ∧
        (adjustQuantity V0 boltStore alice 0 "i1" (-m) (some "subtract")).state.logs =
          boltStore.logs ++ [Log.mk "QUANTITY_UPDATE" "Item" (some "i1") "alice@example.com"
            (.quantity bolt.quantity (bolt.quantity + m) (some "subtract"))
            alice.ip alice.userAgent 0]) :=
  subtract_add_inverse V0 boltStore alice alice 0 1 "i1" bolt 3 "alice@example.com"
    "alice@example.com" (by decide) (by decide) (by decide) rfl (by decide) rfl (by decide)

/-! ## The count of items low in stock -/

theorem getStats_counts (s : State) :
    (getStats s).2.totalItems = s.items.length ∧
    (getStats s).2.lowStockItems =
      s.items.countP (fun i => decide (i.quantity ≤ i.minQuantity)) := by
  simp [getStats, Item.count, List.countP_eq_length_filter]

/-- C30: `lowStockItems` is the number of stored items with
`quantity ≤ minQuantity`, whatever their status: a further item with
`quantity ≤ minQuantity` raises it by one, as does a successful create whose
body gives neither `quantity` nor `minQuantity`; it never exceeds `totalItems`,
and in some store it exceeds `activeItems`. -/
theorem lowStock_ignores_status (V : Validators) (s : State) :
    (getStats s).2.lowStockItems =
      s.items.countP (fun i => decide (i.quantity ≤ i.minQuantity)) ∧
    (∀ i : Item, i.quantity ≤ i.minQuantity →
      (getStats { s with items := s.items ++ [i] }).2.lowStockItems =
        (getStats s).2.lowStockItems + 1) ∧
    (∀ r now newId body, body.quantity = none → body.minQuantity = none →
      (createItem V s r now newId body).response.success = true →
      (getStats (createItem V s r now newId body).state).2.lowStockItems =
        (getStats s).2.lowStockItems + 1) ∧
    (getStats s).2.lowStockItems ≤ (getStats s).2.totalItems ∧
    ∃ t : State, (getStats t).2.activeItems < (getStats t).2.lowStockItems := by
  have hadd : ∀ i : Item, i.quantity ≤ i.minQuantity →
      (getStats { s with items := s.items ++ [i] }).2.lowStockItems =
        (getStats s).2.lowStockItems + 1 := by
    intro i hi
    simp [(getStats_counts _).2, List.countP_append, hi]
  refine ⟨(getStats_counts s).2, hadd, ?_, ?_, ⟨washerStore, by decide⟩⟩
  · intro r now newId body hq hm hok
    obtain ⟨item, items, e, hc, _, _, heq⟩ := createItem_ok_inv hok
    obtain ⟨hrow, hitems, _⟩ := item_create_inv hc
    rw [heq]
    have hlow : item.quantity ≤ item.minQuantity := by
      rw [hrow]
      simp [ItemFields.toItem, hq, hm]
    have h := hadd item hlow
    rw [← hitems] at h
    simpa [getStats] using h
  · rw [(getStats_counts s).1, (getStats_counts s).2]
    exact List.countP_le_length _

theorem lowStock_ignores_status_witness :
    (getStats washerStore).2.activeItems = 0 ∧
    (getStats washerStore).2.lowStockItems = 1 ∧
    (createItem V0 State.empty alice 0 "i2" bareBody).response.success = true ∧
    (getStats (createItem V0 State.empty alice 0 "i2" bareBody).state).2.lowStockItems =
      (getStats State.empty).2.lowStockItems + 1 :=
  ⟨by decide, by decide, by decide,
   (lowStock_ignores_status V0 State.empty).2.2.1 alice 0 "i2" bareBody rfl rfl (by decide)⟩

/-! ## Pagination of the listings -/

theorem ceil_least (count limit : Nat) (hl : 1 ≤ limit) :
    count ≤ (count + limit - 1) / limit * limit ∧
    ∀ k, count ≤ k * limit → (count + limit - 1) / limit ≤ k := by
  constructor
  · have h := Nat.lt_mul_div_succ (count + limit - 1) (show 0 < limit by omega)
    rw [Nat.mul_succ, Nat.mul_comm] at h
    generalize (count + limit - 1) / limit * limit = m at h ⊢
    omega
  · intro k hk
    apply Nat.le_of_lt_succ
    rw [Nat.div_lt_iff_lt_mul (show 0 < limit by omega), Nat.succ_mul]
    generalize k * limit = m at hk ⊢
    omega

theorem leftJoinCount_single {α β : Type} (rows : List α) (others : List β) (joins : α → β → Bool)
    (h : ∀ a ∈ rows, (others.filter (joins a)).length ≤ 1) :
    leftJoinCount rows others joins = rows.length := by
  unfold leftJoinCount
  induction rows with
  | nil => rfl
  | cons a t ih =>
    have ha := h a (List.mem_cons_self a t)
    have hmax : max 1 (others.filter (joins a)).length = 1 := by omega
    simp only [List.map_cons, List.sum_cons, List.length_cons, hmax]
    rw [ih (fun b hb => h b (List.mem_cons_of_mem a hb))]
    omega

theorem pallet_partner_unique (pallets : List Pallet) (hp : (pallets.map (fun p => p.id)).Nodup)
    (i : Item) : (pallets.filter (fun p => i.palletId == some p.id)).length ≤ 1 := by
  cases hi : i.palletId with
  | none => simp
  | some x =>
    have h := List.nodup_iff_count_le_one.mp hp x
    rw [List.count, List.countP_map, List.countP_eq_length_filter] at h
    have heq : (fun p : Pallet => some x == some p.id) = ((fun y => y == x) ∘ fun p => p.id) := by
      funext p
      simp [eq_comm]
    rw [heq]
    exact h

/-- The listing of items: total, page and number of pages. -/
theorem listItems_pagination (order : List Item → List Item) (q : ItemQuery) (page limit : Nat)
    (s : State) (hpk : (s.pallets.map (fun p => p.id)).Nodup)
    (hpage : 1 ≤ page) (hlimit : 1 ≤ limit) :
    (listItems order q page limit s).map (fun res => res.2) =
      some ⟨(matchingItems q s.items).length, page, limit,
        some (((matchingItems q s.items).length + limit - 1) / limit)⟩ ∧
    ((matchingItems q s.items).length ≠ 0 →
      (listItems order q page limit s).map (fun res => res.1.map (fun row => row.1)) =
        some (((order (matchingItems q s.items)).drop ((page - 1) * limit)).take limit)) ∧
    (matchingItems q s.items).length ≤
      ((matchingItems q s.items).length + limit - 1) / limit * limit ∧
    ∀ k, (matchingItems q s.items).length ≤ k * limit →
      ((matchingItems q s.items).length + limit - 1) / limit ≤ k := by
  have hoff : ¬ ((page : Int) - 1) * limit < 0 := by
    have h1 : (0 : Int) ≤ (page : Int) - 1 := by omega
    have h2 : (0 : Int) ≤ (limit : Int) := by omega
    exact not_lt.mpr (mul_nonneg h1 h2)
  have htoNat : (((page : Int) - 1) * limit).toNat = (page - 1) * limit := by
    have h1 : ((page : Int) - 1) = ((page - 1 : Nat) : Int) := by omega
    rw [h1, ← Nat.cast_mul, Int.toNat_natCast]
  have hcount : leftJoinCount (s.items.filter (itemWhere q)) s.pallets
      (fun i p => i.palletId == some p.id) = (matchingItems q s.items).length :=
    leftJoinCount_single _ _ _ (fun i _ => pallet_partner_unique s.pallets hpk i)
  have hl0 : limit ≠ 0 := by omega
  have hc := ceil_least (matchingItems q s.items).length limit hlimit
  refine ⟨?_, ?_, hc.1, hc.2⟩
  · simp only [listItems, findAndCountAll, hoff, if_false, hcount, pagination, hl0,
      Option.map_some']
  · intro hne
    simp only [listItems, findAndCountAll, hoff, if_false, hcount, Option.map_some', hne,
      htoNat, List.map_map]
    simp [matchingItems, Function.comp_def]

/-- The listing of pallets: what it reports as total. -/
theorem listPallets_total (order : List Pallet → List Pallet) (q : PalletQuery)
    (page limit : Nat) (s : State) (hpage : 1 ≤ page) :
    (listPallets order q page limit s).map (fun res => res.2) =
      some (pagination
        (((matchingPallets q s.pallets).map
          (fun p => max 1 (Pallet.items s.items p).length)).sum) page limit) := by
  have hoff : ¬ ((page : Int) - 1) * limit < 0 := by
    have h1 : (0 : Int) ≤ (page : Int) - 1 := by omega
    have h2 : (0 : Int) ≤ (limit : Int) := by omega
    exact not_lt.mpr (mul_nonneg h1 h2)
  simp only [listPallets, findAndCountAll, hoff, if_false, leftJoinCount, matchingPallets,
    Pallet.items, Option.map_some']

/-- C24, the listing of pallets at a store where one pallet holds two items:
one pallet matches the empty filter, yet the total reported is 2 and, with
limit 1, two pages are announced, the second of which is empty.  With the same
pallet holding no item the total is 1.  The listing of items of the same store
reports its two items. -/
theorem listPallets_total_counts_items :
    (matchingPallets {} loadedStore.pallets).length = 1 ∧
    (listPallets id {} 1 1 loadedStore).map (fun res => res.2) = some ⟨2, 1, 1, some 2⟩ ∧
    (listPallets id {} 2 1 loadedStore).map (fun res => res.1) = some [] ∧
    (listPallets id {} 1 50 yardStore).map (fun res => res.2.total) = some 1 ∧
    (listItems id {} 1 1 loadedStore).map (fun res => res.2) = some ⟨2, 1, 1, some 2⟩ := by
  decide

/-! ## The token the gate reads -/

theorem splitSpaces_ne_nil (cs : List Char) : splitSpaces cs ≠ [] := by
  cases cs with
  | nil => simp [splitSpaces]
  | cons c t =>
    unfold splitSpaces
    split
    · simp
    · split <;> simp

theorem splitSpaces_plain (w : List Char) (h : ' ' ∉ w) : splitSpaces w = [w] := by
  induction w with
  | nil => rfl
  | cons c t ih =>
    have hc : c ≠ ' ' := fun hc => h (by simp [hc])
    have ht : ' ' ∉ t := fun ht => h (List.mem_cons_of_mem c ht)
    simp [splitSpaces, hc, ih ht]

theorem splitSpaces_two (w1 w2 : List Char) (h1 : ' ' ∉ w1) (h2 : ' ' ∉ w2) :
    splitSpaces (w1 ++ ' ' :: w2) = [w1, w2] := by
  induction w1 with
  | nil => simp [splitSpaces, splitSpaces_plain w2 h2]
  | cons c t ih =>
    have hc : c ≠ ' ' := fun hc => h1 (by simp [hc])
    have ht : ' ' ∉ t := fun ht => h1 (List.mem_cons_of_mem c ht)
    simp [splitSpaces, hc, ih ht]

theorem splitSpaces_second (cs : List Char) : (splitSpaces cs).get? 1 = none ↔ ' ' ∉ cs := by
  induction cs with
  | nil => simp [splitSpaces]
  | cons c t ih =>
    by_cases hc : c = ' '
    · subst hc
      have hne := splitSpaces_ne_nil t
      cases hs : splitSpaces t with
      | nil => exact absurd hs hne
      | cons w ws => simp [splitSpaces, hs]
    · have hc1 : ¬ ' ' = c := fun h => hc h.symm
      cases hs : splitSpaces t with
      | nil => exact absurd hs (splitSpaces_ne_nil t)
      | cons w ws =>
        rw [hs] at ih
        simp only [splitSpaces, hc, if_false, hs, List.mem_cons, hc1, false_or]
        simpa using ih

/-- C28, as amended: for a non-empty header the gate takes the second part of
the header split at single spaces, and there is none exactly when the header
has no space; for a header `scheme token` the part is `token` whatever the
scheme.  A part that is not empty is the token used, whatever the query
string gives; when there is no such part or it is empty, the token used is
the `token` parameter of the query string. -/
theorem token_extraction (a : AuthRequest) :
    (∀ h, a.authorization = some h → h ≠ "" →
      headerToken a.authorization = ((splitSpaces h.data).get? 1).map String.mk ∧
      (headerToken a.authorization = none ↔ ' ' ∉ h.data)) ∧
    (∀ scheme token : List Char, ' ' ∉ scheme → ' ' ∉ token →
      a.authorization = some (String.mk (scheme ++ ' ' :: token)) →
      headerToken a.authorization = some (String.mk token)) ∧
    (∀ t, headerToken a.authorization = some t → t ≠ "" → finalToken a = some t) ∧
    (headerToken a.authorization = none ∨ headerToken a.authorization = some "" →
      finalToken a = a.queryToken) := by
  refine ⟨?_, ?_, ?_, ?_⟩
  · intro h ha hne
    rw [ha]
    simp only [headerToken, hne, if_false, Option.map_eq_none']
    exact ⟨trivial, splitSpaces_second h.data⟩
  · intro scheme token h1 h2 ha
    rw [ha]
    have hne : String.mk (scheme ++ ' ' :: token) ≠ "" := by
      intro h
      have := congrArg String.data h
      simp at this
    simp [headerToken, hne, splitSpaces_two scheme token h1 h2]
  · intro t ht hne
    simp [finalToken, ht, orNull, hne]
  · intro h
    rcases h with h | h <;> simp [finalToken, h, orNull]

theorem token_extraction_witness :
    headerToken (some "Token abc") = some "abc" ∧
    finalToken ⟨some "Token abc", some "q"⟩ = some "abc" ∧
    finalToken ⟨some "Bearer", some "q"⟩ = some "q" :=
  ⟨(token_extraction ⟨some "Token abc", some "q"⟩).2.1 "Token".data "abc".data
     (by decide) (by decide) rfl,
   (token_extraction ⟨some "Token abc", some "q"⟩).2.2.1 "abc" (by decide) (by decide),
   (token_extraction ⟨some "Bearer", some "q"⟩).2.2.2 (Or.inl (by decide))⟩

/-- C28 as stated fails: the header `Bearer  abc`, with two spaces, has a second
part (the empty one) and a third, yet the token used is the one of the query
string. -/
theorem query_token_used_despite_second_part :
    (splitSpaces "Bearer  abc".data).get? 1 = some [] ∧
    (splitSpaces "Bearer  abc".data).get? 2 = some "abc".data ∧
    headerToken (some "Bearer  abc") = some "" ∧
    finalToken ⟨some "Bearer  abc", some "q"⟩ = some "q" := by
  decide

end ShelfManager
